import Mathlib

/-!
# Verification of the snake-rodeo-agents core against its specification

Shallow embedding of the TypeScript sources `src/lib/game-state.ts`,
`src/lib/simulator.ts` and `src/lib/strategies/expected-value.ts`.

Modelling conventions:
* JavaScript numbers are modelled as `Int` where the code only ever stores
  integers (coordinates, grid radius, round counters) and as `Rat` where
  arbitrary numeric amounts flow (bids, balances, pools, scores).
  `NaN`/`Infinity` inputs are outside the model; `Infinity` results of the
  code itself (BFS distance, absent closest fruit) are modelled as `Option`.
* JavaScript `x || d` on numbers is `ratTruthyD`/`intTruthyD` (`0` is falsy),
  `x ?? d` is `Option.getD`.
* Records (`Record<string, T>`) are association lists in key-insertion order,
  which is the iteration order of `Object.entries` for the string keys used
  here.
* The seeded PRNG `mulberry32` is embedded exactly, over `Nat` reduced
  mod `2^32` (JavaScript's 32-bit integer semantics).
-/

namespace SnakeRodeo

/-- Axial grid position `{q, r}` (`HexPos` in `game-state.ts`). -/
structure HexPos where
  q : Int
  r : Int
deriving DecidableEq, Repr

/-- The union type `HexDirection | CartesianDirection`. -/
inductive Direction where
  | n | ne | se | s | sw | nw
  | up | down | left | right
deriving DecidableEq, Repr

/-- `GridType`. -/
inductive GType where
  | hexagonal
  | cartesian
deriving DecidableEq, Repr

/-- `HEX_DIRECTIONS`: offsets of the six hex directions; `none` for the keys the
record does not have (the cartesian direction names). -/
def HEX_DIRECTIONS : Direction → Option HexPos
  | .n  => some ⟨0, -1⟩
  | .ne => some ⟨1, -1⟩
  | .se => some ⟨1, 0⟩
  | .s  => some ⟨0, 1⟩
  | .sw => some ⟨-1, 1⟩
  | .nw => some ⟨-1, 0⟩
  | _   => none

/-- `CARTESIAN_DIRECTIONS`. -/
def CARTESIAN_DIRECTIONS : Direction → Option HexPos
  | .up    => some ⟨0, -1⟩
  | .down  => some ⟨0, 1⟩
  | .left  => some ⟨-1, 0⟩
  | .right => some ⟨1, 0⟩
  | _      => none

/-- `ALL_DIRECTION_OFFSETS` (the merge of both offset records; total). -/
def ALL_DIRECTION_OFFSETS : Direction → HexPos
  | .n  => ⟨0, -1⟩
  | .ne => ⟨1, -1⟩
  | .se => ⟨1, 0⟩
  | .s  => ⟨0, 1⟩
  | .sw => ⟨-1, 1⟩
  | .nw => ⟨-1, 0⟩
  | .up    => ⟨0, -1⟩
  | .down  => ⟨0, 1⟩
  | .left  => ⟨-1, 0⟩
  | .right => ⟨1, 0⟩

/-- `ALL_OPPOSITES` (merge of `OPPOSITE_DIRECTIONS` and `CARTESIAN_OPPOSITES`). -/
def ALL_OPPOSITES : Direction → Direction
  | .n => .s
  | .s => .n
  | .ne => .sw
  | .sw => .ne
  | .se => .nw
  | .nw => .se
  | .up => .down
  | .down => .up
  | .left => .right
  | .right => .left

/-- `ALL_DIRECTIONS` (the `Object.keys` order of `HEX_DIRECTIONS`). -/
def ALL_DIRECTIONS : List Direction := [.n, .ne, .se, .s, .sw, .nw]

/-- `ALL_CARTESIAN_DIRECTIONS`. -/
def ALL_CARTESIAN_DIRECTIONS : List Direction := [.up, .down, .left, .right]

/-- `getDirectionsForGrid`: direction/offset entries for a grid type. -/
def getDirectionsForGrid (gridType : GType) : List (Direction × HexPos) :=
  match gridType with
  | .cartesian =>
      [(.up, ⟨0, -1⟩), (.down, ⟨0, 1⟩), (.left, ⟨-1, 0⟩), (.right, ⟨1, 0⟩)]
  | .hexagonal =>
      [(.n, ⟨0, -1⟩), (.ne, ⟨1, -1⟩), (.se, ⟨1, 0⟩),
       (.s, ⟨0, 1⟩), (.sw, ⟨-1, 1⟩), (.nw, ⟨-1, 0⟩)]

/-- `isInBounds`.  Hex: `|q| ≤ r ∧ |r| ≤ r ∧ |q+r| ≤ r`; cartesian: `|q| ≤ r ∧ |r| ≤ r`. -/
def isInBounds (q r radius : Int) (gridType : GType := .hexagonal) : Bool :=
  match gridType with
  | .cartesian => |q| ≤ radius && |r| ≤ radius
  | .hexagonal => |q| ≤ radius && |r| ≤ radius && |q + r| ≤ radius

/-- `isOnSnakeBody`. -/
def isOnSnakeBody (q r : Int) (snakeBody : List HexPos) : Bool :=
  snakeBody.any fun seg => seg.q == q && seg.r == r

/-- `hexDistance`: cube distance `max(|dq|, |dr|, |dq + dr|)`. -/
def hexDistance (a b : HexPos) : Nat :=
  let dq := a.q - b.q
  let dr := a.r - b.r
  max dq.natAbs (max dr.natAbs (dq + dr).natAbs)

/-- `manhattanDistance`. -/
def manhattanDistance (a b : HexPos) : Nat :=
  (a.q - b.q).natAbs + (a.r - b.r).natAbs

/-- `gridDistance`. -/
def gridDistance (a b : HexPos) (gridType : GType := .hexagonal) : Nat :=
  match gridType with
  | .cartesian => manhattanDistance a b
  | .hexagonal => hexDistance a b

/-- `getTotalCells`. -/
def getTotalCells (radius : Int) (gridType : GType := .hexagonal) : Int :=
  match gridType with
  | .cartesian => (2 * radius + 1) ^ 2
  | .hexagonal => 3 * radius * (radius + 1) + 1

/-- JavaScript `x || d` for an optional number (`0` is falsy, absent is falsy). -/
def ratTruthyD (x : Option Rat) (d : Rat) : Rat :=
  match x with
  | none => d
  | some v => if v = 0 then d else v

/-- JavaScript `x || d` for an optional integer number. -/
def intTruthyD (x : Option Int) (d : Int) : Int :=
  match x with
  | none => d
  | some v => if v = 0 then d else v

/-- JavaScript truthiness of an optional string (`undefined` and `""` are falsy). -/
def strTruthy : Option String → Bool
  | none => false
  | some e => e ≠ ""

-- ---------------------------------------------------------------------------
-- Raw game-state snapshot (the loosely-typed `GameState` interface)
-- ---------------------------------------------------------------------------

/-- `Snake` as read defensively by the parser (`gs.snake?.body?.[0]`). -/
structure QSnake where
  body : Option (List HexPos)
  currentDirection : Option Direction
  currentWinningTeam : Option String
  currentWinningUser : Option String
deriving DecidableEq, Repr

/-- `GridSize`. -/
structure GridSize where
  radius : Int
  type : Option GType
deriving DecidableEq, Repr

/-- `Team` (raw team metadata). -/
structure Team where
  id : String
  name : Option String
  color : Option String
  emoji : Option String
deriving DecidableEq, Repr

/-- The `config` object carried by a snapshot (fields the core reads). -/
structure QConfig where
  initialMinBid : Option Rat
  fruitsToWin : Option Rat
  gridType : Option GType
  hexRadius : Option Int
  fruitsPerTeam : Option Int
  startingBalance : Option Rat
  numberOfTeams : Option Int
  respawn : Option Bool
  collision : Option Bool
  simpleBid : Option Bool
  initialSnakeLength : Option Int
  grow : Option Bool
deriving DecidableEq, Repr

/-- A fruit eaten during a simulated game (`EatenFruit`). -/
structure EatenFruit where
  q : Int
  r : Int
  team : Option String
  emoji : String
  order : Int
deriving DecidableEq, Repr

/-- The loosely-typed snapshot `GameState` consumed by `parseGameState` and the
`game-state.ts` helpers.  Every field the core ever reads is present, optional
exactly where the code reads it defensively.  The write-only `votes` record and
timing fields the core never reads back (`totalRoundTime`, `id`) are modelled
where the simulator carries them. -/
structure GState where
  snake : Option QSnake
  gridSize : Option GridSize
  gameActive : Option Bool
  round : Option Int
  prizePool : Option Rat
  minBid : Option Rat
  countdown : Option Rat
  config : Option QConfig
  teams : Option (List Team)
  fruitScores : Option (List (String × Rat))
  teamPools : Option (List (String × Rat))
  apples : Option (List (String × List HexPos))
  eatenFruits : Option (List EatenFruit)
  winner : Option String
  error : Option String
  nextMoveTime : Option Int
  nonce : Option Int
deriving DecidableEq, Repr

/-- `detectGridType`: `gs?.gridSize?.type || gs?.config?.gridType || 'hexagonal'`. -/
def detectGridType (gameState : GState) : GType :=
  match gameState.gridSize.bind (·.type) with
  | some t => t
  | none =>
    match gameState.config.bind (·.gridType) with
    | some t => t
    | none => .hexagonal

/-- The head position `gs.snake?.body?.[0]`. -/
def headPos (gs : GState) : Option HexPos :=
  (gs.snake.bind (·.body)).bind List.head?

/-- `getValidDirections`.  When the body list is present but empty the
JavaScript head is `undefined`, every candidate coordinate is `NaN` and no
direction passes the bounds check, so the result is `[]`. -/
def getValidDirections (gameState : GState) : List Direction :=
  match gameState.snake.bind (·.body) with
  | none => []
  | some [] => []
  | some (head :: tail) =>
    let radius := intTruthyD (gameState.gridSize.map (·.radius)) 3
    let gridType := detectGridType gameState
    (getDirectionsForGrid gridType).filterMap fun e =>
      let newQ := head.q + e.2.q
      let newR := head.r + e.2.r
      if isInBounds newQ newR radius gridType && !isOnSnakeBody newQ newR tail then
        some e.1
      else none

/-- `ClosestFruitResult`. -/
structure ClosestFruitResult where
  fruit : HexPos
  distance : Nat
deriving DecidableEq, Repr

/-- `findClosestFruit`: scan the team's fruit list keeping the first strict
minimum of the grid metric. -/
def findClosestFruit (head : HexPos) (fruits : List (String × List HexPos))
    (teamId : String) (gridType : GType := .hexagonal) : Option ClosestFruitResult :=
  let teamFruits := (fruits.lookup teamId).getD []
  match teamFruits with
  | [] => none
  | f₀ :: rest =>
    let init : ClosestFruitResult := ⟨f₀, gridDistance head f₀ gridType⟩
    some <| rest.foldl (fun best f =>
      let dist := gridDistance head f gridType
      if dist < best.distance then ⟨f, dist⟩ else best) init

/-- `countExits`. -/
def countExits (pos : HexPos) (gameState : GState)
    (excludeDir : Option Direction := none) : Nat :=
  let radius := intTruthyD (gameState.gridSize.map (·.radius)) 3
  let gridType := detectGridType gameState
  let snakeBody := (gameState.snake.bind (·.body)).getD []
  ((getDirectionsForGrid gridType).filter fun e =>
    !(excludeDir == some e.1) &&
      isInBounds (pos.q + e.2.q) (pos.r + e.2.r) radius gridType &&
      !isOnSnakeBody (pos.q + e.2.q) (pos.r + e.2.r) snakeBody).length

/-- `ROUND_TIMING`. -/
def ROUND_TIMING_baseDurationSec : Rat := 10

/-- `ROUND_TIMING.extensionPeriodSec`. -/
def ROUND_TIMING_extensionPeriodSec : Rat := 5

/-- Exact-rational model of `Math.round(Math.log2 x)` for `x > 1`: the unique
`k` with `2^(2k-1) ≤ x² < 2^(2k+1)` (no rational lies on a half-integer power
of two, so rounding ties cannot occur). -/
def roundLog2 (x : Rat) : Nat :=
  ((List.range (x.num.natAbs.size + 2)).find? fun k =>
    decide ((2 : Rat) ^ (2 * k) ≤ 2 * x ^ 2) && decide (x ^ 2 < 2 ^ (2 * k + 1))).getD 0

/-- `ParsedTeam`. -/
structure ParsedTeam where
  id : String
  name : Option String
  color : Option String
  emoji : Option String
  score : Rat
  pool : Rat
  closestFruit : Option ClosestFruitResult
deriving DecidableEq, Repr

/-- `ParsedGameState` (the `votes` passthrough record, which the core never
reads, is not modelled). -/
structure ParsedGameState where
  active : Option Bool
  round : Option Int
  prizePool : Rat
  minBid : Rat
  initialMinBid : Rat
  countdown : Rat
  inExtensionWindow : Bool
  extensions : Nat
  fruitsToWin : Rat
  gridRadius : Int
  gridType : GType
  head : HexPos
  snakeLength : Nat
  currentDirection : Option Direction
  currentWinningTeam : Option String
  teams : List ParsedTeam
  validDirections : List Direction
  winner : Option String
  raw : GState
deriving Repr

/-- `parseGameState`.  Total: malformed input yields `none`, never an
exception. -/
def parseGameState (gso : Option GState) : Option ParsedGameState :=
  match gso with
  | none => none
  | some gs =>
    if strTruthy gs.error then none
    else
      match headPos gs with
      | none => none
      | some head =>
        let gridType := detectGridType gs
        let teams : List ParsedTeam := (gs.teams.getD []).map fun team =>
          { id := team.id, name := team.name, color := team.color, emoji := team.emoji
            score := ((gs.fruitScores.getD []).lookup team.id).getD 0
            pool := ((gs.teamPools.getD []).lookup team.id).getD 0
            closestFruit := findClosestFruit head (gs.apples.getD []) team.id gridType }
        let countdown := gs.countdown.getD ROUND_TIMING_baseDurationSec
        let initialMinBid := ratTruthyD (gs.config.bind (·.initialMinBid)) 1
        let currentMinBid := ratTruthyD gs.minBid 1
        let extensions :=
          if initialMinBid < currentMinBid then roundLog2 (currentMinBid / initialMinBid)
          else 0
        let inExtensionWindow :=
          countdown ≤ ROUND_TIMING_extensionPeriodSec && 0 < countdown
        some
          { active := gs.gameActive
            round := gs.round
            prizePool := ratTruthyD gs.prizePool 10
            minBid := currentMinBid
            initialMinBid := initialMinBid
            countdown := countdown
            inExtensionWindow := inExtensionWindow
            extensions := extensions
            fruitsToWin := ratTruthyD (gs.config.bind (·.fruitsToWin)) 3
            gridRadius := intTruthyD (gs.gridSize.map (·.radius)) 3
            gridType := gridType
            head := head
            snakeLength := ((gs.snake.bind (·.body)).map (·.length)).getD 0
            currentDirection := gs.snake.bind (·.currentDirection)
            currentWinningTeam := gs.snake.bind (·.currentWinningTeam)
            teams := teams
            validDirections := getValidDirections gs
            winner := gs.winner
            raw := gs }

/-- `getTeamById`. -/
def getTeamById (parsed : ParsedGameState) (teamId : String) : Option ParsedTeam :=
  parsed.teams.find? fun t => t.id == teamId

end SnakeRodeo

namespace SnakeRodeo

/-- **C8.** For every input snapshot, `parseGameState` returns `none` — and,
being a total Lean function, never raises — exactly when the snapshot is
absent, carries an explicit (truthy) error marker, or has no head position
(missing snake, missing body, or empty body); for any other snapshot it
returns a parsed view. -/
theorem parseGameState_none_iff (gso : Option GState) :
    parseGameState gso = none ↔
      (gso = none ∨
        ∃ gs, gso = some gs ∧ (strTruthy gs.error = true ∨ headPos gs = none)) := by
  cases gso with
  | none => simp [parseGameState]
  | some gs =>
    simp only [parseGameState, Option.some.injEq, reduceCtorEq, false_or]
    by_cases herr : strTruthy gs.error
    · simp [herr]
    · simp only [herr, if_neg, Bool.false_eq_true, false_or]
      cases hh : headPos gs with
      | none => simp [hh]
      | some head =>
        simp only [hh, reduceIte, reduceCtorEq, false_iff]
        rintro ⟨gs2, rfl, h1 | h2⟩
        · exact herr h1
        · simp [hh] at h2

end SnakeRodeo

namespace SnakeRodeo

-- ---------------------------------------------------------------------------
-- Simulator (`simulator.ts`): seeded PRNG
-- ---------------------------------------------------------------------------

/-- One call of the closure returned by `mulberry32`: advances the 32-bit
state and yields the raw 32-bit output `t`; the JavaScript return value is
`t / 2^32 ∈ [0, 1)`.  All arithmetic is exactly JavaScript's 32-bit integer
semantics, represented on naturals below `2^32`. -/
def mulberryNext (seed : Nat) : Nat × Nat :=
  let s := (seed + 0x6d2b79f5) % 4294967296
  let t0 := ((s ^^^ (s >>> 15)) * (1 ||| s)) % 4294967296
  let t1 := ((t0 + ((t0 ^^^ (t0 >>> 7)) * (61 ||| t0)) % 4294967296) % 4294967296) ^^^ t0
  (s, t1 ^^^ (t1 >>> 14))

/-- `createRNG(seed?)`: use the given seed, else a fallback drawn from ambient
`Math.random` — the latter is an explicit entropy parameter of the embedding. -/
def createRNG (seed : Option Nat) (fallbackEntropy : Nat) : Nat × Nat :=
  let s := (seed.getD (fallbackEntropy % 4294967296)) % 4294967296
  (s, s)

/-- Swap two array cells (bounds-checked; out of range leaves the array). -/
def arraySwap {α : Type _} (arr : Array α) (i j : Nat) : Array α :=
  if h₁ : i < arr.size then
    if h₂ : j < arr.size then
      (arr.set ⟨i, h₁⟩ (arr.get ⟨j, h₂⟩)).set ⟨j, by simpa using h₂⟩ (arr.get ⟨i, h₁⟩)
    else arr
  else arr

/-- The Fisher–Yates loop of `shuffleArray`, counting the index `i` down;
`(rng() * (i + 1)) | 0` is exactly `t * (i + 1) / 2^32` on the raw draw `t`. -/
def shuffleAux {α : Type _} : Array α → Nat → Nat → Array α × Nat
  | arr, rng, 0 => (arr, rng)
  | arr, rng, i + 1 =>
    let (rng', t) := mulberryNext rng
    let j := t * (i + 2) / 4294967296
    shuffleAux (arraySwap arr (i + 1) j) rng' i

/-- `shuffleArray`. -/
def shuffleArray {α : Type _} (arr : Array α) (rng : Nat) : Array α × Nat :=
  shuffleAux arr rng (arr.size - 1)

-- ---------------------------------------------------------------------------
-- Simulator: configs and state
-- ---------------------------------------------------------------------------

/-- `TeamConfig`. -/
structure TeamConfig where
  id : String
  name : String
  color : String
  emoji : String
deriving DecidableEq, Repr

/-- `TEAM_CONFIG` (emoji code points as in the source). -/
def TEAM_CONFIG : List TeamConfig :=
  [⟨"A", "Blue", "#0066FF", "🫐"⟩,
   ⟨"B", "Red", "#FF0000", "🍎"⟩,
   ⟨"C", "Yellow", "#FFDD00", "🍌"⟩,
   ⟨"D", "Green", "#00CC00", "🥝"⟩,
   ⟨"E", "Purple", "#9900FF", "🍇"⟩,
   ⟨"F", "Orange", "#FF6600", "🍊"⟩]

/-- `RodeoCycleConfig`. -/
structure RodeoCycleConfig where
  name : String
  numberOfTeams : Nat
  hexRadius : Int
  fruitsPerTeam : Nat
  fruitsToWin : Rat
  startingBalance : Rat
  initialMinBid : Rat
  initialSnakeLength : Int
  respawn : Bool
  simpleBid : Bool
deriving DecidableEq, Repr

/-- `RODEO_CYCLES`. -/
def RODEO_CYCLES : List RodeoCycleConfig :=
  [⟨"Small", 2, 2, 1, 3, 5, 1, 1, true, true⟩,
   ⟨"Medium", 3, 3, 2, 3, 10, 1, 1, true, true⟩,
   ⟨"Large", 4, 4, 3, 4, 15, 1, 1, true, true⟩]

/-- The snake record of a `SimGameState` (all fields present). -/
structure SimSnake where
  body : List HexPos
  currentDirection : Direction
  currentWinningTeam : Option String
  currentWinningUser : Option String
deriving DecidableEq, Repr

/-- The `config` object of a `SimGameState`. -/
structure SimConfig where
  hexRadius : Int
  roundDurationSeconds : Rat
  newGameDelaySeconds : Rat
  extensionPeriodSeconds : Rat
  fruitsPerTeam : Nat
  fruitsToWin : Rat
  initialMinBid : Rat
  startingBalance : Rat
  numberOfTeams : Nat
  auctionMode : String
  respawn : Bool
  collision : Bool
  simpleBid : Bool
  initialSnakeLength : Int
  grow : Bool
deriving DecidableEq, Repr

/-- `SimGameState` (the write-only `votes` record is not modelled). -/
structure SimGameState where
  id : Int
  snake : SimSnake
  gridSize : GridSize
  apples : List (String × List HexPos)
  eatenFruits : List EatenFruit
  fruitScores : List (String × Rat)
  teamPools : List (String × Rat)
  gameActive : Bool
  winner : Option String
  prizePool : Rat
  nextMoveTime : Int
  round : Int
  countdown : Rat
  totalRoundTime : Rat
  minBid : Rat
  nonce : Int
  config : SimConfig
  teams : List TeamConfig
deriving DecidableEq, Repr

/-- View a `SimGameState` through the loosely-typed snapshot interface: this is
the identity in TypeScript (structural typing); here it fills the optional
fields. -/
def SimGameState.toQ (s : SimGameState) : GState :=
  { snake := some ⟨some s.snake.body, some s.snake.currentDirection,
      s.snake.currentWinningTeam, s.snake.currentWinningUser⟩
    gridSize := some s.gridSize
    gameActive := some s.gameActive
    round := some s.round
    prizePool := some s.prizePool
    minBid := some s.minBid
    countdown := some s.countdown
    config := some
      { initialMinBid := some s.config.initialMinBid
        fruitsToWin := some s.config.fruitsToWin
        gridType := none
        hexRadius := some s.config.hexRadius
        fruitsPerTeam := some (s.config.fruitsPerTeam : Int)
        startingBalance := some s.config.startingBalance
        numberOfTeams := some (s.config.numberOfTeams : Int)
        respawn := some s.config.respawn
        collision := some s.config.collision
        simpleBid := some s.config.simpleBid
        initialSnakeLength := some s.config.initialSnakeLength
        grow := some s.config.grow }
    teams := some (s.teams.map fun t => ⟨t.id, some t.name, some t.color, some t.emoji⟩)
    fruitScores := some s.fruitScores
    teamPools := some s.teamPools
    apples := some s.apples
    eatenFruits := some s.eatenFruits
    winner := s.winner
    error := none
    nextMoveTime := some s.nextMoveTime
    nonce := some s.nonce }

-- ---------------------------------------------------------------------------
-- Simulator: fruit generation and initial state
-- ---------------------------------------------------------------------------

/-- Closed integer interval `[lo, hi]` (a JavaScript `for` loop range). -/
def intRangeIncl (lo hi : Int) : List Int :=
  if hi < lo then []
  else (List.range ((hi - lo).toNat + 1)).map fun k => lo + k

/-- The exhaustive-scan fallback of `generateFruitPosition`: first valid cell
in the `q`-major scan order, else `(0, 0)`. -/
def fruitFallback (snakeBody existingFruits : List HexPos) (radius : Int) : HexPos :=
  (((intRangeIncl (-radius) radius).flatMap fun q =>
      (intRangeIncl (-radius) radius).map fun r => HexPos.mk q r).find? fun c =>
        isInBounds c.q c.r radius &&
        !(snakeBody.any fun seg => seg.q == c.q && seg.r == c.r) &&
        !(existingFruits.any fun f => f.q == c.q && f.r == c.r)).getD ⟨0, 0⟩

/-- A `sampler` maps the grid radius and the two raw 32-bit PRNG draws of one
rejection-sampling attempt (angle, then distance) to the candidate cell.  The
JavaScript computes it with floating-point trigonometry
(`cos`/`sin`/`round` over `rng() * 2π` and a radial distance), which lies
outside this integer embedding; the map from draws to candidate is kept
abstract as this parameter and every theorem below holds for all samplers. -/
def Sampler : Type := Int → Nat → Nat → HexPos

/-- The attempt loop of `generateFruitPosition`: up to 1000 candidate draws
(each consuming two PRNG outputs), then the exhaustive fallback. -/
def genFruitAttempts (sampler : Sampler) (snakeBody existingFruits : List HexPos)
    (radius : Int) : Nat → Nat → HexPos × Nat
  | 0, rng => (fruitFallback snakeBody existingFruits radius, rng)
  | attempts + 1, rng =>
    let (rng₁, t₁) := mulberryNext rng
    let (rng₂, t₂) := mulberryNext rng₁
    let c := sampler radius t₁ t₂
    if isInBounds c.q c.r radius &&
        !(snakeBody.any fun seg => seg.q == c.q && seg.r == c.r) &&
        !(existingFruits.any fun f => f.q == c.q && f.r == c.r) then
      (c, rng₂)
    else
      genFruitAttempts sampler snakeBody existingFruits radius attempts rng₂

/-- `generateFruitPosition`. -/
def generateFruitPosition (sampler : Sampler) (snakeBody existingFruits : List HexPos)
    (radius : Int) (rng : Nat) : HexPos × Nat :=
  genFruitAttempts sampler snakeBody existingFruits radius 1000 rng

/-- `createGameState`.  `now` is the ambient `Date.now()`, an explicit entropy
parameter of the embedding (it only ever lands in `nextMoveTime`). -/
def createGameState (sampler : Sampler) (config : RodeoCycleConfig) (rng : Nat)
    (now : Int) : SimGameState × Nat :=
  let teams := TEAM_CONFIG.take config.numberOfTeams
  let radius := config.hexRadius
  let body : List HexPos := [⟨0, 0⟩]
  let gen := teams.foldl
    (fun (acc : List (String × List HexPos) × List HexPos × Nat) team =>
      let inner := (List.range config.fruitsPerTeam).foldl
        (fun (st : List HexPos × List HexPos × Nat) _ =>
          let (fruit, rng') := generateFruitPosition sampler body st.2.1 radius st.2.2
          (st.1 ++ [fruit], st.2.1 ++ [fruit], rng'))
        ([], acc.2.1, acc.2.2)
      (acc.1 ++ [(team.id, inner.1)], inner.2.1, inner.2.2))
    ([], [], rng)
  let apples := gen.1
  let rng' := gen.2.2
  ({ id := 1
     snake := ⟨body, .n, none, none⟩
     gridSize := ⟨radius, some .hexagonal⟩
     apples := apples
     eatenFruits := []
     fruitScores := teams.map fun t => (t.id, 0)
     teamPools := teams.map fun t => (t.id, 0)
     gameActive := true
     winner := none
     prizePool := config.startingBalance
     nextMoveTime := now + 10000
     round := 0
     countdown := 10
     totalRoundTime := 10
     minBid := ratTruthyD (some config.initialMinBid) 1
     nonce := 0
     config :=
       { hexRadius := radius
         roundDurationSeconds := 10
         newGameDelaySeconds := 20
         extensionPeriodSeconds := 5
         fruitsPerTeam := config.fruitsPerTeam
         fruitsToWin := config.fruitsToWin
         initialMinBid := ratTruthyD (some config.initialMinBid) 1
         startingBalance := config.startingBalance
         numberOfTeams := config.numberOfTeams
         auctionMode := "all-pay-auction"
         respawn := config.respawn
         collision := false
         simpleBid := true
         initialSnakeLength := intTruthyD (some config.initialSnakeLength) 1
         grow := false }
     teams := teams }, rng')

end SnakeRodeo

namespace SnakeRodeo

-- ---------------------------------------------------------------------------
-- Simulator: advanceRound
-- ---------------------------------------------------------------------------

/-- Event tags produced by `advanceRound` (string literals in the source). -/
inductive GEvent where
  | collision_boundary
  | collision_self
  | ate_fruit
  | moved
deriving DecidableEq, Repr

/-- `AdvanceResult` (absent optional fields are `none`). -/
structure AdvanceResult where
  gameState : SimGameState
  event : GEvent
  ateFruit : Option HexPos
  ateTeam : Option String
  winner : Option String
deriving DecidableEq, Repr

/-- JavaScript object-key assignment on a string-keyed record: an existing key
keeps its position, a fresh key is appended. -/
def recordSet {α : Type _} (m : List (String × α)) (k : String) (v : α) :
    List (String × α) :=
  if m.any (fun p => p.1 == k) then
    m.map fun p => if p.1 == k then (k, v) else p
  else m ++ [(k, v)]

/-- JavaScript `a || b` for an optional string result and a string default. -/
def strOr (x : Option String) (d : String) : String :=
  match x with
  | none => d
  | some v => if v = "" then d else v

/-- `advanceRound`.  Returns `none` exactly where the JavaScript would raise a
`TypeError`: an empty snake body (`head` is `undefined`) or a cartesian
direction (absent from `HEX_DIRECTIONS`, so `offset` is `undefined`); neither
occurs on the states `simulateGame` feeds it.  The PRNG state is threaded
explicitly (it is consumed only by fruit respawn). -/
def advanceRound (sampler : Sampler) (gameState : SimGameState)
    (direction : Direction) (winningTeamId : Option String) (rng : Nat) :
    Option (AdvanceResult × Nat) :=
  match gameState.snake.body with
  | [] => none
  | head :: _ =>
    match HEX_DIRECTIONS direction with
    | none => none
    | some offset =>
      let newHead : HexPos := ⟨head.q + offset.q, head.r + offset.r⟩
      let radius := gameState.gridSize.radius
      if !isInBounds newHead.q newHead.r radius then
        some (⟨gameState, .collision_boundary, none, none, none⟩, rng)
      else if gameState.snake.body.dropLast.any
          (fun seg => seg.q == newHead.q && seg.r == newHead.r) then
        some (⟨gameState, .collision_self, none, none, none⟩, rng)
      else
        let newBody := newHead :: gameState.snake.body
        let ate : Option (String × HexPos) :=
          gameState.apples.findSome? fun p =>
            (p.2.find? fun f => f.q == newHead.q && f.r == newHead.r).map
              fun f => (p.1, f)
        let step : List (String × List HexPos) × List (String × Rat) ×
            List EatenFruit × Nat :=
          match ate with
          | none => (gameState.apples, gameState.fruitScores, gameState.eatenFruits, rng)
          | some (ateTeam, ateFruit) =>
            let removed := recordSet gameState.apples ateTeam
              (((gameState.apples.lookup ateTeam).getD []).filter
                fun f => !(f.q == ateFruit.q && f.r == ateFruit.r))
            let scores :=
              match winningTeamId with
              | some w => recordSet gameState.fruitScores w
                  (((gameState.fruitScores.lookup w).getD 0) + 1)
              | none => gameState.fruitScores
            let eaten := gameState.eatenFruits ++
              [⟨ateFruit.q, ateFruit.r, some (strOr winningTeamId ateTeam),
                strOr ((TEAM_CONFIG.find? fun t => t.id == ateTeam).map (·.emoji)) "?",
                (gameState.eatenFruits.length : Int) + 1⟩]
            if gameState.config.respawn then
              let allFruits := (removed.map Prod.snd).flatten
              let (newFruit, rng') :=
                generateFruitPosition sampler newBody allFruits radius rng
              (recordSet removed ateTeam
                (((removed.lookup ateTeam).getD []) ++ [newFruit]), scores, eaten, rng')
            else
              (removed, scores, eaten, rng)
        let newApples := step.1
        let newFruitScores := step.2.1
        let newEatenFruits := step.2.2.1
        let rngOut := step.2.2.2
        let finalBody := if ate.isSome then newBody else newBody.dropLast
        let winner : Option String :=
          (newFruitScores.find? fun p => gameState.config.fruitsToWin ≤ p.2).map (·.1)
        let growthBody :=
          if !ate.isSome && gameState.snake.body.length < 3 && gameState.round < 2 then
            newBody
          else finalBody
        let newState : SimGameState :=
          { gameState with
            snake := ⟨growthBody, direction, winningTeamId, none⟩
            apples := newApples
            eatenFruits := newEatenFruits
            fruitScores := newFruitScores
            round := gameState.round + 1
            winner := winner
            gameActive := winner.isNone
            nonce := gameState.nonce + 1 }
        some (⟨newState, if ate.isSome then .ate_fruit else .moved,
               ate.map (·.2), ate.map (·.1), winner⟩, rngOut)

end SnakeRodeo

namespace SnakeRodeo

/-- A trivial sampler used to instantiate witnesses (the theorems hold for all
samplers). -/
def sampler0 : Sampler := fun _ _ _ => ⟨0, 0⟩

/-- A small concrete radius-2 hexagonal game state (two teams, respawn off)
used to instantiate witnesses. -/
def sampleState : SimGameState :=
  { id := 1
    snake := ⟨[⟨0, 0⟩, ⟨0, 1⟩, ⟨1, 0⟩], .n, none, none⟩
    gridSize := ⟨2, some .hexagonal⟩
    apples := [("A", [⟨1, -1⟩]), ("B", [⟨-1, 0⟩])]
    eatenFruits := []
    fruitScores := [("A", 2), ("B", 0)]
    teamPools := [("A", 0), ("B", 0)]
    gameActive := true
    winner := none
    prizePool := 5
    nextMoveTime := 0
    round := 5
    countdown := 10
    totalRoundTime := 10
    minBid := 1
    nonce := 5
    config :=
      { hexRadius := 2
        roundDurationSeconds := 10
        newGameDelaySeconds := 20
        extensionPeriodSeconds := 5
        fruitsPerTeam := 1
        fruitsToWin := 3
        initialMinBid := 1
        startingBalance := 5
        numberOfTeams := 2
        auctionMode := "all-pay-auction"
        respawn := false
        collision := false
        simpleBid := true
        initialSnakeLength := 1
        grow := false }
    teams := TEAM_CONFIG.take 2 }

/-- **C9.** For every game state with a head (non-empty body) and hex
direction, when the move is illegal — the new head is out of bounds, or lands
on a snake body cell other than the currently-vacating tail (`dropLast`
excludes only the last segment) — `advanceRound` returns the input game state
unchanged, tagged `collision_boundary` (checked first) or `collision_self`,
with no fruit, no team credit and no winner, and it does not consume the PRNG. -/
theorem advanceRound_illegal (sampler : Sampler) (gs : SimGameState)
    (direction : Direction) (wt : Option String) (rng : Nat)
    (head : HexPos) (rest : List HexPos) (offset : HexPos)
    (hbody : gs.snake.body = head :: rest)
    (hoff : HEX_DIRECTIONS direction = some offset)
    (hill : isInBounds (head.q + offset.q) (head.r + offset.r) gs.gridSize.radius = false ∨
      gs.snake.body.dropLast.any
        (fun seg => seg.q == head.q + offset.q && seg.r == head.r + offset.r) = true) :
    advanceRound sampler gs direction wt rng =
      some (⟨gs,
        if isInBounds (head.q + offset.q) (head.r + offset.r) gs.gridSize.radius then
          GEvent.collision_self
        else GEvent.collision_boundary,
        none, none, none⟩, rng) := by
  cases hbound : isInBounds (head.q + offset.q) (head.r + offset.r) gs.gridSize.radius with
  | false =>
    simp only [advanceRound, hbody, hoff, hbound, Bool.not_false, if_true, Bool.false_eq_true,
      if_false]
  | true =>
    have hself : gs.snake.body.dropLast.any
        (fun seg => seg.q == head.q + offset.q && seg.r == head.r + offset.r) = true := by
      rcases hill with h | h
      · rw [hbound] at h; cases h
      · exact h
    rw [hbody] at hself
    simp only [advanceRound, hbody, hoff, hbound, hself, Bool.not_true, Bool.false_eq_true,
      if_false, if_true]

/-- Witness for C9: in `sampleState`, moving `s` from the head `(0,0)` lands on
the body cell `(0,1)` (not the vacating tail `(1,0)`): the state is returned
unchanged with a `collision_self` tag and the PRNG untouched. -/
theorem advanceRound_illegal_witness :
    advanceRound sampler0 sampleState .s none 7 =
      some (⟨sampleState, GEvent.collision_self, none, none, none⟩, 7) := by
  have h := advanceRound_illegal sampler0 sampleState .s none 7 ⟨0, 0⟩ [⟨0, 1⟩, ⟨1, 0⟩]
    ⟨0, 1⟩ rfl rfl (Or.inr (by decide))
  simpa using h

end SnakeRodeo

namespace SnakeRodeo


/-- `List.lookup` distributes over append (first list wins). -/
theorem lookup_append {α : Type _} (l₁ l₂ : List (String × α)) (k : String) :
    (l₁ ++ l₂).lookup k =
      match l₁.lookup k with
      | some v => some v
      | none => l₂.lookup k := by
  induction l₁ with
  | nil => simp
  | cons p rest ih =>
    rcases p with ⟨pk, pv⟩
    by_cases hk : k = pk
    · subst hk
      simp [List.lookup_cons]
    · have h1 : (k == pk) = false := beq_false_of_ne hk
      simp only [List.cons_append, List.lookup_cons, h1, ih]

/-- A key that no entry carries looks up to `none`. -/
theorem lookup_eq_none_of_not_any {α : Type _} (m : List (String × α)) (k : String)
    (h : m.any (fun p => p.1 == k) = false) : m.lookup k = none := by
  induction m with
  | nil => simp
  | cons p rest ih =>
    rcases p with ⟨pk, pv⟩
    simp only [List.any_cons, Bool.or_eq_false_iff] at h
    have h1 : (k == pk) = false := by
      have h2 := h.1
      simp only [beq_eq_false_iff_ne, ne_eq] at h2 ⊢
      exact fun hkk => h2 hkk.symm
    simp only [List.lookup_cons, h1, ih h.2]

/-- `List.lookup` through the in-place update half of `recordSet`. -/
theorem lookup_mapSet {α : Type _} (m : List (String × α)) (k : String) (v : α)
    (k' : String) :
    ((m.map fun p => if p.1 == k then (k, v) else p).lookup k') =
      if k' = k ∧ m.any (fun p => p.1 == k) then some v else m.lookup k' := by
  induction m with
  | nil => simp
  | cons p rest ih =>
    rcases p with ⟨pk, pv⟩
    simp only [List.map_cons, List.any_cons]
    by_cases hp : pk = k
    · have hpk : (pk == k) = true := by simpa using hp
      simp only [hpk, if_true, Bool.true_or]
      by_cases hk : k' = k
      · have h2 : (k' == k) = true := by simpa using hk
        simp [List.lookup_cons, h2, hk]
      · have h1 : (k' == k) = false := beq_false_of_ne hk
        have h2 : (k' == pk) = false := beq_false_of_ne (by rw [hp]; exact hk)
        simp only [List.lookup_cons, h1, ih]
        simp [hk, List.lookup_cons, h2]
    · have hpb : (pk == k) = false := beq_false_of_ne hp
      simp only [hpb, Bool.false_eq_true, if_false, Bool.false_or]
      by_cases hk' : k' = pk
      · have h2 : (k' == pk) = true := by simpa using hk'
        have h3 : ¬(k' = k) := by rw [hk']; exact hp
        simp [List.lookup_cons, h2, h3]
      · have h2 : (k' == pk) = false := beq_false_of_ne hk'
        simp only [List.lookup_cons, h2, ih]

/-- `List.lookup` after `recordSet`: the updated key reads back the new value,
every other key is untouched. -/
theorem recordSet_lookup {α : Type _} (m : List (String × α)) (k : String) (v : α)
    (k' : String) :
    (recordSet m k v).lookup k' = if k' = k then some v else m.lookup k' := by
  unfold recordSet
  split
  case isTrue hany =>
    rw [lookup_mapSet]
    by_cases hk : k' = k
    · simp [hk, hany]
    · simp [hk]
  case isFalse hany =>
    have hanyf : m.any (fun p => p.1 == k) = false := by
      cases h : m.any (fun p => p.1 == k) with
      | false => rfl
      | true => exact absurd h hany
    have hnone : m.lookup k = none := lookup_eq_none_of_not_any m k hanyf
    rw [lookup_append]
    by_cases hk : k' = k
    · subst hk
      simp [hnone, List.lookup_cons]
    · have h1 : (k' == k) = false := beq_false_of_ne hk
      cases hmk : m.lookup k' with
      | none => simp [List.lookup_cons, h1, hk]
      | some w => simp [hmk, hk]

end SnakeRodeo



namespace SnakeRodeo

/-- **C6.** In `advanceRound`, a team's fruit score increases (by exactly one)
only when that team is the round's controlling team (`winningTeamId`) at the
moment a fruit is eaten — the eaten fruit's native team is unconstrained and
never credited unless it is the controlling team — and on every non-collision
tick the game becomes inactive with a winner exactly when some team's score
reaches the configured fruits-to-win threshold (the winner being the first
such team in score-record order). -/
theorem advanceRound_scoring (sampler : Sampler) (gs : SimGameState)
    (direction : Direction) (wt : Option String) (rng : Nat)
    (res : AdvanceResult) (rng' : Nat)
    (hres : advanceRound sampler gs direction wt rng = some (res, rng')) :
    (∀ t : String,
        ((res.gameState.fruitScores.lookup t).getD 0) =
          ((gs.fruitScores.lookup t).getD 0) +
            (if res.event = GEvent.ate_fruit ∧ wt = some t then 1 else 0)) ∧
    ((res.event = GEvent.ate_fruit ∨ res.event = GEvent.moved) →
      res.gameState.winner =
          (res.gameState.fruitScores.find? fun p => gs.config.fruitsToWin ≤ p.2).map
            Prod.fst ∧
      res.gameState.gameActive = res.gameState.winner.isNone ∧
      (res.gameState.winner.isSome = true ↔
        ∃ p ∈ res.gameState.fruitScores, gs.config.fruitsToWin ≤ p.2)) := by
  unfold advanceRound at hres
  rcases hb : gs.snake.body with _ | ⟨head, tail⟩
  · rw [hb] at hres; exact absurd hres (by simp)
  rw [hb] at hres
  rcases hoff : HEX_DIRECTIONS direction with _ | offset
  · rw [hoff] at hres; exact absurd hres (by simp)
  rw [hoff] at hres
  dsimp only at hres
  by_cases hbound :
      (!isInBounds (head.q + offset.q) (head.r + offset.r) gs.gridSize.radius) = true
  · rw [if_pos hbound] at hres
    simp only [Option.some.injEq, Prod.mk.injEq] at hres
    obtain ⟨h1, _⟩ := hres
    subst h1
    refine ⟨fun t => by simp, ?_⟩
    rintro (h | h) <;> simp at h
  rw [if_neg hbound] at hres
  by_cases hself : ((head :: tail).dropLast.any
      fun seg => seg.q == head.q + offset.q && seg.r == head.r + offset.r) = true
  · rw [if_pos hself] at hres
    simp only [Option.some.injEq, Prod.mk.injEq] at hres
    obtain ⟨h1, _⟩ := hres
    subst h1
    refine ⟨fun t => by simp, ?_⟩
    rintro (h | h) <;> simp at h
  rw [if_neg hself] at hres
  rcases hate : List.findSome?
      (fun p => Option.map (fun f => (p.1, f))
        (List.find? (fun f => f.q == head.q + offset.q && f.r == head.r + offset.r) p.2))
      gs.apples with _ | ⟨ateTeam, ateFruit⟩
  · rw [hate] at hres
    dsimp only at hres
    simp only [Option.some.injEq, Prod.mk.injEq] at hres
    obtain ⟨h1, _⟩ := hres
    subst h1
    constructor
    · intro t
      simp
    · intro _
      refine ⟨rfl, rfl, ?_⟩
      simp [List.find?_isSome]
  · rw [hate] at hres
    cases wt with
    | none =>
      dsimp only at hres
      by_cases hresp : gs.config.respawn = true
      · rw [if_pos hresp] at hres
        dsimp only at hres
        simp only [Option.some.injEq, Prod.mk.injEq] at hres
        obtain ⟨h1, _⟩ := hres
        subst h1
        refine ⟨fun t => by simp, ?_⟩
        intro _
        refine ⟨rfl, rfl, ?_⟩
        simp [List.find?_isSome]
      · rw [if_neg hresp] at hres
        dsimp only at hres
        simp only [Option.some.injEq, Prod.mk.injEq] at hres
        obtain ⟨h1, _⟩ := hres
        subst h1
        refine ⟨fun t => by simp, ?_⟩
        intro _
        refine ⟨rfl, rfl, ?_⟩
        simp [List.find?_isSome]
    | some w =>
      dsimp only at hres
      have hscore : ∀ (stepScores : List (String × Rat)),
          stepScores = recordSet gs.fruitScores w (((gs.fruitScores.lookup w).getD 0) + 1) →
          ∀ t : String, ((stepScores.lookup t).getD 0) =
            ((gs.fruitScores.lookup t).getD 0) + (if some w = some t then 1 else 0) := by
        rintro _ rfl t
        by_cases ht : t = w
        · subst ht
          simp [recordSet_lookup]
        · have hns : ¬(some w = some t) := fun hc => ht (Option.some.inj hc).symm
          simp [recordSet_lookup, ht, hns]
      by_cases hresp : gs.config.respawn = true
      · rw [if_pos hresp] at hres
        dsimp only at hres
        simp only [Option.some.injEq, Prod.mk.injEq] at hres
        obtain ⟨h1, _⟩ := hres
        subst h1
        constructor
        · intro t
          have := hscore _ rfl t
          simpa using this
        · intro _
          refine ⟨rfl, rfl, ?_⟩
          simp [List.find?_isSome]
      · rw [if_neg hresp] at hres
        dsimp only at hres
        simp only [Option.some.injEq, Prod.mk.injEq] at hres
        obtain ⟨h1, _⟩ := hres
        subst h1
        constructor
        · intro t
          have := hscore _ rfl t
          simpa using this
        · intro _
          refine ⟨rfl, rfl, ?_⟩
          simp [List.find?_isSome]

end SnakeRodeo


namespace SnakeRodeo

/-- An `Option` that is `some` equals `some` of its `getD`. -/
theorem opt_eq_some_getD {α : Type _} (o : Option α) (d : α) (h : o.isSome = true) :
    o = some (o.getD d) := by
  cases o with
  | none => cases h
  | some v => rfl

/-- Default advance outcome used only as a `getD` filler in witnesses. -/
def advDefault : AdvanceResult × Nat := (⟨sampleState, .moved, none, none, none⟩, 0)

/-- The concrete outcome of `advanceRound` on `sampleState` moving `ne` with
controlling team `B`: the snake eats team A's native fruit at `(1,-1)`. -/
def sampleAdvanceB : AdvanceResult × Nat :=
  (advanceRound sampler0 sampleState .ne (some "B") 3).getD advDefault

/-- Witness for C6: with `B` controlling, the snake eats team A's native fruit
and `B`'s score (not `A`'s) changes exactly by the credited point, while the
game stays active with no winner. -/
theorem advanceRound_scoring_witness :
    ((sampleAdvanceB.1.gameState.fruitScores.lookup "B").getD 0) =
        ((sampleState.fruitScores.lookup "B").getD 0) +
          (if sampleAdvanceB.1.event = GEvent.ate_fruit ∧
              (some "B" : Option String) = some "B" then 1 else 0) ∧
    ((sampleAdvanceB.1.gameState.fruitScores.lookup "A").getD 0) =
        ((sampleState.fruitScores.lookup "A").getD 0) +
          (if sampleAdvanceB.1.event = GEvent.ate_fruit ∧
              (some "B" : Option String) = some "A" then 1 else 0) ∧
    sampleAdvanceB.1.ateTeam = some "A" ∧
    sampleAdvanceB.1.gameState.gameActive = sampleAdvanceB.1.gameState.winner.isNone := by
  have hsome : (advanceRound sampler0 sampleState .ne (some "B") 3).isSome = true := by
    decide
  have hres : advanceRound sampler0 sampleState .ne (some "B") 3 =
      some (sampleAdvanceB.1, sampleAdvanceB.2) := by
    rw [opt_eq_some_getD _ advDefault hsome]
    rfl
  have h := advanceRound_scoring sampler0 sampleState .ne (some "B") 3
    sampleAdvanceB.1 sampleAdvanceB.2 hres
  exact ⟨h.1 "B", h.1 "A", by decide, (h.2 (Or.inl (by decide))).2.1⟩

end SnakeRodeo

namespace SnakeRodeo

/-- A degenerate but well-formed hexagonal state whose grid radius is `0`:
`getValidDirections` silently substitutes the default radius 3 (`radius || 3`),
while `advanceRound` uses the true radius. -/
def radiusZeroState : SimGameState :=
  { sampleState with
    snake := ⟨[⟨0, 0⟩], .n, none, none⟩
    gridSize := ⟨0, some .hexagonal⟩
    apples := [("A", []), ("B", [])] }

/-- Counterexample to C10 as stated: on a hexagonal-grid state with non-empty
body but grid radius `0`, `getValidDirections` offers `n` (it falls back to
radius 3), yet `advanceRound` rejects it with `collision_boundary`. -/
theorem getValidDirections_advanceRound_cex :
    radiusZeroState.snake.body ≠ [] ∧
    detectGridType (SimGameState.toQ radiusZeroState) = GType.hexagonal ∧
    Direction.n ∈ getValidDirections (SimGameState.toQ radiusZeroState) ∧
    (advanceRound sampler0 radiusZeroState .n none 0).map (fun pr => pr.1.event) =
      some GEvent.collision_boundary := by
  refine ⟨by decide, by decide, by decide, by decide⟩

/-- Each hexagonal direction entry is present in `HEX_DIRECTIONS` with the
same offset, and no offset is zero. -/
theorem hexEntry_facts : ∀ e ∈ getDirectionsForGrid GType.hexagonal,
    HEX_DIRECTIONS e.1 = some e.2 ∧ ¬(e.2.q = 0 ∧ e.2.r = 0) := by decide

/-- `x || d` is the identity on nonzero integers. -/
theorem intTruthyD_some_ne {x d : Int} (h : x ≠ 0) : intTruthyD (some x) d = x := by
  unfold intTruthyD
  simp [h]

/-- **C10 (amended).** For every hexagonal-grid game state with a non-empty
snake body and *nonzero* grid radius, every direction returned by
`getValidDirections` is accepted by `advanceRound`: the move never yields a
`collision_boundary` or `collision_self` event.  (The original claim fails at
radius 0, where `getValidDirections` falls back to `radius || 3` but
`advanceRound` uses the true radius; see the counterexample.) -/
theorem getValidDirections_safe (s : SimGameState) (dir : Direction)
    (wt : Option String) (sampler : Sampler) (rng : Nat)
    (hbody : s.snake.body ≠ [])
    (hgt : detectGridType s.toQ = GType.hexagonal)
    (hrad : s.gridSize.radius ≠ 0)
    (hdir : dir ∈ getValidDirections s.toQ) :
    ∃ res rng', advanceRound sampler s dir wt rng = some (res, rng') ∧
      res.event ≠ GEvent.collision_boundary ∧ res.event ≠ GEvent.collision_self := by
  have htoQbody : ((SimGameState.toQ s).snake.bind fun x => x.body) = some s.snake.body :=
    rfl
  unfold getValidDirections at hdir
  rw [htoQbody] at hdir
  rcases hb : s.snake.body with _ | ⟨head, tail⟩
  · exact absurd hb hbody
  rw [hb] at hdir
  rw [hgt] at hdir
  have hradeq : intTruthyD ((SimGameState.toQ s).gridSize.map (·.radius)) 3 =
      s.gridSize.radius := intTruthyD_some_ne hrad
  rw [hradeq] at hdir
  rw [List.mem_filterMap] at hdir
  obtain ⟨e, hmem, he⟩ := hdir
  by_cases hcond : (isInBounds (head.q + e.2.q) (head.r + e.2.r) s.gridSize.radius
      GType.hexagonal && !isOnSnakeBody (head.q + e.2.q) (head.r + e.2.r) tail) = true
  case neg =>
    rw [if_neg hcond] at he
    cases he
  rw [if_pos hcond] at he
  have hedir : e.1 = dir := Option.some.inj he
  obtain ⟨hoff, hnz⟩ := hexEntry_facts e hmem
  rw [hedir] at hoff
  rw [Bool.and_eq_true] at hcond
  obtain ⟨hbound, hnotbody⟩ := hcond
  unfold advanceRound
  rw [hb, hoff]
  dsimp only
  rw [if_neg (by simp [hbound])]
  have hselfF : ((head :: tail).dropLast.any
      fun seg => seg.q == head.q + e.2.q && seg.r == head.r + e.2.r) = false := by
    rw [Bool.eq_false_iff]
    intro hany
    rw [List.any_eq_true] at hany
    obtain ⟨seg, hsegmem, hseg⟩ := hany
    rw [Bool.and_eq_true, beq_iff_eq, beq_iff_eq] at hseg
    have hsegmem' : seg ∈ head :: tail := List.dropLast_subset _ hsegmem
    rcases List.mem_cons.mp hsegmem' with hsh | hst
    · subst hsh
      apply hnz
      constructor
      · have := hseg.1; omega
      · have := hseg.2; omega
    · rw [Bool.not_eq_true'] at hnotbody
      have : isOnSnakeBody (head.q + e.2.q) (head.r + e.2.r) tail = true := by
        unfold isOnSnakeBody
        rw [List.any_eq_true]
        exact ⟨seg, hst, by rw [Bool.and_eq_true, beq_iff_eq, beq_iff_eq]; exact hseg⟩
      rw [hnotbody] at this
      cases this
  rw [if_neg (by simp [hselfF])]
  refine ⟨_, _, rfl, ?_, ?_⟩ <;>
    · dsimp only
      split <;> simp

end SnakeRodeo

namespace SnakeRodeo

/-- Witness for C10 (amended): on the radius-2 `sampleState`, `n` is a valid
direction and `advanceRound` accepts it without a collision event. -/
theorem getValidDirections_safe_witness :
    Direction.n ∈ getValidDirections (SimGameState.toQ sampleState) ∧
    (advanceRound sampler0 sampleState .n none 0).map (fun pr => pr.1.event) ≠
      some GEvent.collision_boundary ∧
    (advanceRound sampler0 sampleState .n none 0).map (fun pr => pr.1.event) ≠
      some GEvent.collision_self := by
  refine ⟨by decide, ?_, ?_⟩ <;>
  · obtain ⟨res, rng', heq, h1, h2⟩ :=
      getValidDirections_safe sampleState .n none sampler0 0 (by decide) (by decide)
        (by decide) (by decide)
    rw [heq]
    simp [h1, h2]

end SnakeRodeo

namespace SnakeRodeo

-- ---------------------------------------------------------------------------
-- BFS (`bfsDistance` in `game-state.ts`)
-- ---------------------------------------------------------------------------

/-- `BfsResult`; `Infinity`/`null` are `none`. -/
structure BfsResult where
  distance : Option Nat
  firstDir : Option Direction
deriving DecidableEq, Repr

/-- `BfsNode`. -/
structure BfsNode where
  q : Int
  r : Int
  dist : Nat
  firstDir : Direction
deriving DecidableEq, Repr

/-- One `obstacleClearTime` map update: keep the smaller clear time
(`existing === undefined || clearTime < existing`).  The JavaScript `Map` is
modelled as a function (only `get` is ever used). -/
def clearMapStep (m : HexPos → Option (WithTop Nat)) (seg : HexPos)
    (ct : WithTop Nat) : HexPos → Option (WithTop Nat) :=
  fun p =>
    if p = seg then
      match m seg with
      | none => some ct
      | some old => if ct < old then some ct else some old
    else m p

/-- The `obstacleClearTime` map of `bfsDistance`: body segment `body[i]`
(`i ≥ startIdx`) clears at `body.length - i` when `timeAware`, never
(`Infinity = ⊤`) otherwise. -/
def bfsObstacle (body : List HexPos) (excludeHead timeAware : Bool) :
    HexPos → Option (WithTop Nat) :=
  let bodySlice := if excludeHead then body.tail else body
  let startIdx : Nat := if excludeHead then 1 else 0
  bodySlice.enum.foldl
    (fun m e =>
      clearMapStep m e.2
        (if timeAware then ((body.length - (startIdx + e.1) : Nat) : WithTop Nat) else ⊤))
    (fun _ => none)

/-- `isBlocked`: a cell is blocked at search distance `dist` iff the map holds
a clear time above `dist`. -/
def isBlocked (m : HexPos → Option (WithTop Nat)) (key : HexPos) (dist : Nat) : Bool :=
  match m key with
  | none => false
  | some clearTime => decide ((dist : WithTop Nat) < clearTime)

/-- The inner neighbour loop of the BFS `while` loop: bounds, block, visited
and goal checks in source order; discovered nodes are appended to the queue. -/
def bfsExpand (radius : Int) (gridType : GType) (blocked : HexPos → Nat → Bool)
    (goal : HexPos) (cur : BfsNode) :
    List (Direction × HexPos) → List HexPos → List BfsNode →
      (Nat × Direction) ⊕ (List HexPos × List BfsNode)
  | [], vis, acc => Sum.inr (vis, acc)
  | e :: ds, vis, acc =>
    let nq := cur.q + e.2.q
    let nr := cur.r + e.2.r
    let key : HexPos := ⟨nq, nr⟩
    let newDist := cur.dist + 1
    if !isInBounds nq nr radius gridType then
      bfsExpand radius gridType blocked goal cur ds vis acc
    else if blocked key newDist then
      bfsExpand radius gridType blocked goal cur ds vis acc
    else if key ∈ vis then
      bfsExpand radius gridType blocked goal cur ds vis acc
    else if key = goal then
      Sum.inl (newDist, cur.firstDir)
    else
      bfsExpand radius gridType blocked goal cur ds (key :: vis)
        (acc ++ [⟨nq, nr, newDist, cur.firstDir⟩])

/-- The BFS worklist loop (`while (head < queue.length)`), fuelled; the fuel
chosen in `bfsDistance` can never run out (every enqueued node pairs with a
distinct in-bounds cell newly added to `visited`). -/
def bfsAux (dirEntries : List (Direction × HexPos)) (radius : Int) (gridType : GType)
    (blocked : HexPos → Nat → Bool) (goal : HexPos) :
    Nat → List HexPos → List BfsNode → BfsResult
  | 0, _, _ => ⟨none, none⟩
  | _ + 1, _, [] => ⟨none, none⟩
  | fuel + 1, vis, cur :: rest =>
    match bfsExpand radius gridType blocked goal cur dirEntries vis [] with
    | Sum.inl (d, f) => ⟨some d, some f⟩
    | Sum.inr (vis', news) =>
      bfsAux dirEntries radius gridType blocked goal fuel vis' (rest ++ news)

/-- The initial seeding loop of `bfsDistance` (distance-1 neighbours of
`from`; the goal test precedes the visited insertion, and there is no visited
check because the six offsets are pairwise distinct). -/
def bfsSeed (radius : Int) (gridType : GType) (blocked : HexPos → Nat → Bool)
    (goal fromPos : HexPos) :
    List (Direction × HexPos) → List HexPos → List BfsNode →
      (Nat × Direction) ⊕ (List HexPos × List BfsNode)
  | [], vis, acc => Sum.inr (vis, acc)
  | e :: ds, vis, acc =>
    let nq := fromPos.q + e.2.q
    let nr := fromPos.r + e.2.r
    let key : HexPos := ⟨nq, nr⟩
    if !isInBounds nq nr radius gridType then
      bfsSeed radius gridType blocked goal fromPos ds vis acc
    else if blocked key 1 then
      bfsSeed radius gridType blocked goal fromPos ds vis acc
    else if key = goal then
      Sum.inl (1, e.1)
    else
      bfsSeed radius gridType blocked goal fromPos ds (key :: vis)
        (acc ++ [⟨nq, nr, 1, e.1⟩])

/-- Fuel bound for `bfsAux`: the number of cells of the enclosing square —
which bounds every hex or cartesian grid — plus slack for the at most six
seeded nodes.  The worklist loop consumes one queue entry per iteration and
every enqueued node pairs with a distinct in-bounds cell newly added to
`visited`, so this fuel can never be exhausted. -/
def bfsFuel (radius : Int) : Nat := (2 * radius.toNat + 1) ^ 2 + 7

/-- `bfsDistance`. -/
def bfsDistance (fromPos toPos : HexPos) (gameState : GState)
    (excludeHead : Bool := true) (timeAware : Bool := false) : BfsResult :=
  let radius := intTruthyD (gameState.gridSize.map (·.radius)) 3
  let gridType := detectGridType gameState
  let dirEntries := getDirectionsForGrid gridType
  let body := (gameState.snake.bind (·.body)).getD []
  let blocked := isBlocked (bfsObstacle body excludeHead timeAware)
  if fromPos = toPos then ⟨some 0, none⟩
  else
    match bfsSeed radius gridType blocked toPos fromPos dirEntries [fromPos] [] with
    | Sum.inl (d, f) => ⟨some d, some f⟩
    | Sum.inr (vis, queue) =>
      bfsAux dirEntries radius gridType blocked toPos (bfsFuel radius) vis queue

end SnakeRodeo

namespace SnakeRodeo

/-- Scalar form of the obstacle-map fold at one cell. -/
def clearFoldPt (f : Nat × HexPos → WithTop Nat) (pos : HexPos)
    (c : Option (WithTop Nat)) (l : List (Nat × HexPos)) : Option (WithTop Nat) :=
  l.foldl (fun cur e =>
    if pos = e.2 then
      match cur with
      | none => some (f e)
      | some old => if f e < old then some (f e) else some old
    else cur) c

/-- The obstacle-map fold, read at one cell, is the scalar fold. -/
theorem foldl_clearMapStep_apply (l : List (Nat × HexPos))
    (f : Nat × HexPos → WithTop Nat) (m : HexPos → Option (WithTop Nat)) (pos : HexPos) :
    (l.foldl (fun acc e => clearMapStep acc e.2 (f e)) m) pos =
      clearFoldPt f pos (m pos) l := by
  induction l generalizing m with
  | nil => rfl
  | cons e rest ih =>
    simp only [List.foldl_cons, clearFoldPt] at *
    rw [ih]
    congr 1
    unfold clearMapStep
    by_cases hp : pos = e.2
    · subst hp; simp
    · simp [hp]

/-- Entries whose key differs from the cell leave the scalar fold unchanged. -/
theorem clearFoldPt_no_key (f : Nat × HexPos → WithTop Nat) (pos : HexPos)
    (c : Option (WithTop Nat)) (l : List (Nat × HexPos))
    (h : pos ∉ l.map Prod.snd) : clearFoldPt f pos c l = c := by
  induction l generalizing c with
  | nil => rfl
  | cons e rest ih =>
    simp only [List.map_cons, List.mem_cons, not_or] at h
    simp only [clearFoldPt, List.foldl_cons, if_neg h.1]
    exact ih c h.2

/-- With pairwise-distinct keys the scalar fold is the unique entry's value. -/
theorem clearFoldPt_nodup (f : Nat × HexPos → WithTop Nat) (pos : HexPos)
    (l : List (Nat × HexPos)) (hu : (l.map Prod.snd).Nodup) :
    clearFoldPt f pos none l = (l.find? fun e => pos == e.2).map f := by
  induction l with
  | nil => rfl
  | cons e rest ih =>
    simp only [List.map_cons, List.nodup_cons] at hu
    by_cases hp : pos = e.2
    · have hbeq : (pos == e.2) = true := by simpa using hp
      have hrest : pos ∉ rest.map Prod.snd := by rw [hp]; exact hu.1
      simp only [clearFoldPt, List.foldl_cons, if_pos hp, List.find?_cons, hbeq]
      exact clearFoldPt_no_key f pos (some (f e)) rest hrest
    · have hbeq : (pos == e.2) = false := by simpa using hp
      simp only [clearFoldPt, List.foldl_cons, if_neg hp, List.find?_cons, hbeq]
      exact ih hu.2

/-- The body slice considered by `bfsDistance` is duplicate-free for a
duplicate-free body. -/
theorem slice_nodup (body : List HexPos) (eh : Bool) (hnd : body.Nodup) :
    (if eh then body.tail else body).Nodup := by
  cases eh with
  | false => simpa using hnd
  | true =>
    cases body with
    | nil => simp
    | cons h t => simpa using (List.nodup_cons.mp hnd).2

/-- Closed form of the obstacle map on a duplicate-free body. -/
theorem bfsObstacle_apply_nodup (body : List HexPos) (eh timeAware : Bool)
    (hnd : body.Nodup) (pos : HexPos) :
    bfsObstacle body eh timeAware pos =
      ((if eh then body.tail else body).enum.find? fun e => pos == e.2).map
        (fun e =>
          if timeAware then
            ((body.length - ((if eh then 1 else 0) + e.1) : Nat) : WithTop Nat)
          else ⊤) := by
  unfold bfsObstacle
  rw [foldl_clearMapStep_apply]
  apply clearFoldPt_nodup
  rw [List.enum_map_snd]
  exact slice_nodup body eh hnd

end SnakeRodeo

namespace SnakeRodeo

/-- Indexing the considered body slice is indexing the body shifted by the
start index. -/
theorem slice_getElem? (body : List HexPos) (eh : Bool) (j : Nat) :
    (if eh then body.tail else body)[j]? = body[(if eh then 1 else 0) + j]? := by
  cases eh with
  | false => simp
  | true =>
    cases body with
    | nil => simp
    | cons h t =>
      have : 1 + j = j + 1 := Nat.add_comm 1 j
      simp [this]

/-- **C5.** In `bfsDistance` (duplicate-free body, either head setting), with
`timeAware = true` a cell is treated as blocked at search distance `d` iff it
is a considered body segment `body[i]` and `d <` its clear time
`body.length - i` (the tail clears in 1 move, the segment before it in 2, …);
with `timeAware = false` body cells are blocked at every search distance. -/
theorem bfsDistance_blocked_iff (body : List HexPos) (excludeHead : Bool)
    (hnd : body.Nodup) :
    (∀ pos d, isBlocked (bfsObstacle body excludeHead true) pos d = true ↔
        ∃ i, (if excludeHead then 1 else 0) ≤ i ∧ i < body.length ∧
          body[i]? = some pos ∧ d < body.length - i) ∧
    (∀ pos d, isBlocked (bfsObstacle body excludeHead false) pos d = true ↔
        pos ∈ (if excludeHead then body.tail else body)) := by
  have hslice : (if excludeHead then body.tail else body).length =
      body.length - (if excludeHead then 1 else 0) := by
    cases excludeHead <;> simp
  have hsnd := slice_nodup body excludeHead hnd
  constructor
  · intro pos d
    unfold isBlocked
    rw [bfsObstacle_apply_nodup body excludeHead true hnd pos]
    cases hfind : ((if excludeHead then body.tail else body).enum.find?
        fun e => pos == e.2) with
    | none =>
      simp only [Option.map_none']
      constructor
      · intro h; cases h
      · rintro ⟨i, hi1, hi2, hi3, hi4⟩
        have hidx : (if excludeHead then 1 else 0) + (i - (if excludeHead then 1 else 0)) =
            i := by omega
        have hmem : ((i - (if excludeHead then 1 else 0), pos)) ∈
            (if excludeHead then body.tail else body).enum := by
          rw [List.mk_mem_enum_iff_getElem?, slice_getElem?, hidx]
          exact hi3
        have hs : ((if excludeHead then body.tail else body).enum.find?
            fun e => pos == e.2).isSome = true :=
          List.find?_isSome.mpr ⟨_, hmem, by simp⟩
        rw [hfind] at hs
        cases hs
    | some e =>
      obtain ⟨j, seg⟩ := e
      have hpe : pos = seg := by simpa using List.find?_some hfind
      subst hpe
      have hmem := List.mem_of_find?_eq_some hfind
      rw [List.mk_mem_enum_iff_getElem?] at hmem
      have hjlen : j < (if excludeHead then body.tail else body).length :=
        (List.getElem?_eq_some.mp hmem).1
      simp only [Option.map_some']
      constructor
      · intro h
        refine ⟨(if excludeHead then 1 else 0) + j, by omega, by omega, ?_, ?_⟩
        · rw [← slice_getElem?]; exact hmem
        · have h2 := of_decide_eq_true h
          rw [if_pos trivial] at h2
          exact_mod_cast h2
      · rintro ⟨i, hi1, hi2, hi3, hi4⟩
        have hieq : i - (if excludeHead then 1 else 0) = j := by
          have hlt : i - (if excludeHead then 1 else 0) <
              (if excludeHead then body.tail else body).length := by omega
          apply List.getElem?_inj hlt hsnd
          rw [slice_getElem?]
          have hidx : (if excludeHead then 1 else 0) +
              (i - (if excludeHead then 1 else 0)) = i := by omega
          rw [hidx, hi3, hmem]
        apply decide_eq_true
        rw [if_pos trivial]
        have h3 : d < body.length - ((if excludeHead then 1 else 0) + j) := by omega
        exact_mod_cast h3
  · intro pos d
    unfold isBlocked
    rw [bfsObstacle_apply_nodup body excludeHead false hnd pos]
    cases hfind : ((if excludeHead then body.tail else body).enum.find?
        fun e => pos == e.2) with
    | none =>
      simp only [Option.map_none']
      constructor
      · intro h; cases h
      · intro hmem
        obtain ⟨j, hj⟩ := List.mem_iff_getElem?.mp hmem
        have hs : ((if excludeHead then body.tail else body).enum.find?
            fun e => pos == e.2).isSome = true :=
          List.find?_isSome.mpr ⟨(j, pos), List.mk_mem_enum_iff_getElem?.mpr hj, by simp⟩
        rw [hfind] at hs
        cases hs
    | some e =>
      obtain ⟨j, seg⟩ := e
      have hpe : pos = seg := by simpa using List.find?_some hfind
      subst hpe
      have hmem := List.mem_of_find?_eq_some hfind
      rw [List.mk_mem_enum_iff_getElem?] at hmem
      simp only [Option.map_some']
      constructor
      · intro _
        exact List.mem_iff_getElem?.mpr ⟨j, hmem⟩
      · intro _
        apply decide_eq_true
        rw [if_neg Bool.false_ne_true]
        exact WithTop.coe_lt_top d

/-- Witness for C5: on the body `[(0,0), (0,1), (1,0)]` with the head
excluded, the tail cell `(1,0)` (clear time 1) is never blocked at distance 1,
while `(0,1)` (clear time 2) is blocked at distance 1 but not 2; without time
awareness `(1,0)` is blocked at every probed distance. -/
theorem bfsDistance_blocked_iff_witness :
    isBlocked (bfsObstacle [⟨0, 0⟩, ⟨0, 1⟩, ⟨1, 0⟩] true true) ⟨0, 1⟩ 1 = true ∧
    isBlocked (bfsObstacle [⟨0, 0⟩, ⟨0, 1⟩, ⟨1, 0⟩] true false) ⟨1, 0⟩ 9 = true := by
  have h := bfsDistance_blocked_iff [⟨0, 0⟩, ⟨0, 1⟩, ⟨1, 0⟩] true (by decide)
  constructor
  · exact (h.1 ⟨0, 1⟩ 1).mpr ⟨1, by decide, by decide, by decide, by decide⟩
  · exact (h.2 ⟨1, 0⟩ 9).mpr (by decide)

end SnakeRodeo

namespace SnakeRodeo

/-- Position of a BFS node. -/
def BfsNode.pos (nd : BfsNode) : HexPos := ⟨nd.q, nd.r⟩

/-- One step on the grid. -/
def stepPos (p off : HexPos) : HexPos := ⟨p.q + off.q, p.r + off.r⟩

/-- Unfolding the scalar fold one entry at a time. -/
theorem clearFoldPt_cons (f : Nat × HexPos → WithTop Nat) (pos : HexPos)
    (c : Option (WithTop Nat)) (e : Nat × HexPos) (l : List (Nat × HexPos)) :
    clearFoldPt f pos c (e :: l) =
      clearFoldPt f pos
        (if pos = e.2 then
          match c with
          | none => some (f e)
          | some old => if f e < old then some (f e) else some old
        else c) l := rfl

/-- The scalar fold keeps a `some ⊤` accumulator. -/
theorem clearFoldPt_top_absorb (f : Nat × HexPos → WithTop Nat) (pos : HexPos)
    (l : List (Nat × HexPos)) (hf : ∀ e, f e = ⊤) :
    clearFoldPt f pos (some ⊤) l = some ⊤ := by
  induction l with
  | nil => rfl
  | cons e rest ih =>
    rw [clearFoldPt_cons]
    by_cases hp : pos = e.2
    · rw [if_pos hp]
      have hlt : ¬(f e < (⊤ : WithTop Nat)) := by rw [hf e]; exact lt_irrefl ⊤
      simp only [if_neg hlt]
      exact ih
    · rw [if_neg hp]
      exact ih

/-- The scalar fold with all-`⊤` values marks exactly the present keys. -/
theorem clearFoldPt_top (f : Nat × HexPos → WithTop Nat) (pos : HexPos)
    (l : List (Nat × HexPos)) (hf : ∀ e, f e = ⊤) :
    clearFoldPt f pos none l = if pos ∈ l.map Prod.snd then some ⊤ else none := by
  induction l with
  | nil => rfl
  | cons e rest ih =>
    rw [clearFoldPt_cons]
    by_cases hp : pos = e.2
    · rw [if_pos hp, hf e]
      rw [clearFoldPt_top_absorb f pos rest hf]
      simp [hp]
    · rw [if_neg hp, ih]
      have hne : (pos ∈ e.2 :: rest.map Prod.snd) ↔ pos ∈ rest.map Prod.snd := by
        simp [hp]
      simp only [List.map_cons]
      by_cases hm : pos ∈ rest.map Prod.snd
      · simp [hm, hne]
      · simp [hm, hp]

/-- With `timeAware = false` a cell is blocked at every distance iff it lies
on the considered body slice (no duplicate-freeness needed). -/
theorem isBlocked_false_static (body : List HexPos) (eh : Bool) (pos : HexPos)
    (d : Nat) :
    isBlocked (bfsObstacle body eh false) pos d =
      decide (pos ∈ (if eh then body.tail else body)) := by
  unfold isBlocked bfsObstacle
  rw [foldl_clearMapStep_apply, clearFoldPt_top _ pos _ (fun e => by simp)]
  rw [List.enum_map_snd]
  by_cases hm : pos ∈ (if eh then body.tail else body)
  · simp only [if_pos hm]
    simp [hm, WithTop.coe_lt_top]
  · simp [hm]

end SnakeRodeo

namespace SnakeRodeo

section BfsProof

variable (dirEntries : List (Direction × HexPos)) (radius : Int) (gridType : GType)
  (blk : HexPos → Bool)

/-- A cell the search may occupy: in bounds and not statically blocked. -/
def passCell (p : HexPos) : Bool :=
  isInBounds p.q p.r radius gridType && !blk p

/-- Walk a path (a list of direction entries) from a cell. -/
def walkPath (p : HexPos) : List (Direction × HexPos) → HexPos
  | [] => p
  | e :: es => walkPath (stepPos p e.2) es

/-- A valid path: every step uses a grid direction entry and lands on a
passable cell (the start cell itself is unconstrained, as in the search). -/
def okPath (p : HexPos) : List (Direction × HexPos) → Prop
  | [] => True
  | e :: es =>
    e ∈ dirEntries ∧ passCell radius gridType blk (stepPos p e.2) = true ∧
      okPath (stepPos p e.2) es

/-- `walkPath` over an append. -/
theorem walkPath_append (p : HexPos) (l₁ l₂ : List (Direction × HexPos)) :
    walkPath p (l₁ ++ l₂) = walkPath (walkPath p l₁) l₂ := by
  induction l₁ generalizing p with
  | nil => rfl
  | cons e es ih =>
    simp only [List.cons_append, walkPath]
    exact ih (stepPos p e.2)

/-- `okPath` over an append. -/
theorem okPath_append (p : HexPos) (l₁ l₂ : List (Direction × HexPos)) :
    okPath dirEntries radius gridType blk p (l₁ ++ l₂) ↔
      okPath dirEntries radius gridType blk p l₁ ∧
        okPath dirEntries radius gridType blk (walkPath p l₁) l₂ := by
  induction l₁ generalizing p with
  | nil => simp [okPath, walkPath]
  | cons e es ih =>
    simp only [List.cons_append, okPath, walkPath, List.append_eq]
    rw [ih]
    simp [and_assoc]

end BfsProof

end SnakeRodeo

namespace SnakeRodeo

section BfsProof2

variable (dirEntries : List (Direction × HexPos)) (radius : Int) (gridType : GType)
  (blk : HexPos → Bool) (blocked : HexPos → Nat → Bool) (goal : HexPos)

/-- An early `return` of the neighbour loop means: some processed entry steps
from the current node straight onto the (in-bounds, unblocked) goal, and the
reported distance and first direction are the current node's. -/
theorem bfsExpand_inl_spec (hstat : ∀ k n, blocked k n = blk k) (cur : BfsNode) :
    ∀ (ds : List (Direction × HexPos)) (vis : List HexPos) (acc : List BfsNode)
      (d : Nat) (f : Direction),
      bfsExpand radius gridType blocked goal cur ds vis acc = Sum.inl (d, f) →
      d = cur.dist + 1 ∧ f = cur.firstDir ∧
        ∃ e ∈ ds, stepPos cur.pos e.2 = goal ∧
          passCell radius gridType blk goal = true := by
  intro ds
  induction ds with
  | nil => intro vis acc d f hexp; cases hexp
  | cons e ds ih =>
    intro vis acc d f hexp
    rw [bfsExpand] at hexp
    cases hb : isInBounds (cur.q + e.2.q) (cur.r + e.2.r) radius gridType with
    | false =>
      rw [hb] at hexp
      simp only [Bool.not_false, if_true] at hexp
      obtain ⟨h1, h2, e', he', h3⟩ := ih vis acc d f hexp
      exact ⟨h1, h2, e', List.mem_cons_of_mem e he', h3⟩
    | true =>
      rw [hb] at hexp
      simp only [Bool.not_true, Bool.false_eq_true, if_false] at hexp
      cases hblk : blocked ⟨cur.q + e.2.q, cur.r + e.2.r⟩ (cur.dist + 1) with
      | true =>
        rw [hblk] at hexp
        simp only [if_true] at hexp
        obtain ⟨h1, h2, e', he', h3⟩ := ih vis acc d f hexp
        exact ⟨h1, h2, e', List.mem_cons_of_mem e he', h3⟩
      | false =>
        rw [hblk] at hexp
        simp only [Bool.false_eq_true, if_false] at hexp
        by_cases hvis : (⟨cur.q + e.2.q, cur.r + e.2.r⟩ : HexPos) ∈ vis
        · rw [if_pos hvis] at hexp
          obtain ⟨h1, h2, e', he', h3⟩ := ih vis acc d f hexp
          exact ⟨h1, h2, e', List.mem_cons_of_mem e he', h3⟩
        · rw [if_neg hvis] at hexp
          by_cases hgoal : (⟨cur.q + e.2.q, cur.r + e.2.r⟩ : HexPos) = goal
          · rw [if_pos hgoal] at hexp
            obtain ⟨h1, h2⟩ := Prod.mk.injEq .. ▸ Sum.inl.inj hexp
            refine ⟨h1.symm, h2.symm, e, List.mem_cons_self e ds, hgoal, ?_⟩
            rw [← hgoal]
            unfold passCell
            rw [hb]
            have : blk ⟨cur.q + e.2.q, cur.r + e.2.r⟩ = false := by
              rw [← hstat _ (cur.dist + 1)]; exact hblk
            rw [this]
            rfl
          · rw [if_neg hgoal] at hexp
            obtain ⟨h1, h2, e', he', h3⟩ := ih _ _ d f hexp
            exact ⟨h1, h2, e', List.mem_cons_of_mem e he', h3⟩

end BfsProof2

end SnakeRodeo

namespace SnakeRodeo

section BfsProof3

variable (dirEntries : List (Direction × HexPos)) (radius : Int) (gridType : GType)
  (blk : HexPos → Bool) (blocked : HexPos → Nat → Bool) (goal : HexPos)

/-- A completed neighbour loop appends the newly discovered nodes to the
queue and conses their (fresh, pairwise-distinct, passable, non-goal) cells
onto `visited`; afterwards every passable neighbour of the current node along
a processed entry is visited. -/
theorem bfsExpand_inr_spec (hstat : ∀ k n, blocked k n = blk k) (cur : BfsNode) :
    ∀ (ds : List (Direction × HexPos)) (vis : List HexPos) (acc : List BfsNode)
      (vis' : List HexPos) (news : List BfsNode),
      bfsExpand radius gridType blocked goal cur ds vis acc = Sum.inr (vis', news) →
      ∃ newNodes : List BfsNode,
        news = acc ++ newNodes ∧
        vis' = (newNodes.map BfsNode.pos).reverse ++ vis ∧
        (newNodes.map BfsNode.pos).Nodup ∧
        (∀ nd ∈ newNodes, nd.pos ∉ vis) ∧
        (∀ nd ∈ newNodes, nd.dist = cur.dist + 1 ∧ nd.firstDir = cur.firstDir ∧
          nd.pos ≠ goal ∧ passCell radius gridType blk nd.pos = true ∧
          ∃ e ∈ ds, nd.pos = stepPos cur.pos e.2) ∧
        (∀ e ∈ ds, passCell radius gridType blk (stepPos cur.pos e.2) = true →
          stepPos cur.pos e.2 ∈ vis') := by
  intro ds
  induction ds with
  | nil =>
    intro vis acc vis' news hexp
    rw [bfsExpand] at hexp
    obtain ⟨h1, h2⟩ := Prod.mk.injEq .. ▸ Sum.inr.inj hexp
    exact ⟨[], by simp [h2.symm], by simp [h1.symm], by simp, by simp, by simp, by simp⟩
  | cons e ds ih =>
    intro vis acc vis' news hexp
    rw [bfsExpand] at hexp
    cases hb : isInBounds (cur.q + e.2.q) (cur.r + e.2.r) radius gridType with
    | false =>
      rw [hb] at hexp
      simp only [Bool.not_false, if_true] at hexp
      obtain ⟨nn, hn1, hn2, hn3, hn4, hn5, hn6⟩ := ih vis acc vis' news hexp
      refine ⟨nn, hn1, hn2, hn3, hn4, ?_, ?_⟩
      · intro nd hnd
        obtain ⟨a, b, c, d2, e', he', f2⟩ := hn5 nd hnd
        exact ⟨a, b, c, d2, e', List.mem_cons_of_mem e he', f2⟩
      · intro e' he' hpass
        rcases List.mem_cons.mp he' with rfl | he''
        · exfalso
          unfold passCell at hpass
          have : stepPos cur.pos e'.2 = ⟨cur.q + e'.2.q, cur.r + e'.2.r⟩ := rfl
          rw [this, hb] at hpass
          cases hpass
        · exact hn6 e' he'' hpass
    | true =>
      rw [hb] at hexp
      simp only [Bool.not_true, Bool.false_eq_true, if_false] at hexp
      cases hblk : blocked ⟨cur.q + e.2.q, cur.r + e.2.r⟩ (cur.dist + 1) with
      | true =>
        rw [hblk] at hexp
        simp only [if_true] at hexp
        obtain ⟨nn, hn1, hn2, hn3, hn4, hn5, hn6⟩ := ih vis acc vis' news hexp
        refine ⟨nn, hn1, hn2, hn3, hn4, ?_, ?_⟩
        · intro nd hnd
          obtain ⟨a, b, c, d2, e', he', f2⟩ := hn5 nd hnd
          exact ⟨a, b, c, d2, e', List.mem_cons_of_mem e he', f2⟩
        · intro e' he' hpass
          rcases List.mem_cons.mp he' with rfl | he''
          · exfalso
            unfold passCell at hpass
            have hst : stepPos cur.pos e'.2 = ⟨cur.q + e'.2.q, cur.r + e'.2.r⟩ := rfl
            rw [hst, hb] at hpass
            have : blk ⟨cur.q + e'.2.q, cur.r + e'.2.r⟩ = true := by
              rw [← hstat _ (cur.dist + 1)]; exact hblk
            rw [this] at hpass
            cases hpass
          · exact hn6 e' he'' hpass
      | false =>
        rw [hblk] at hexp
        simp only [Bool.false_eq_true, if_false] at hexp
        by_cases hvis : (⟨cur.q + e.2.q, cur.r + e.2.r⟩ : HexPos) ∈ vis
        · rw [if_pos hvis] at hexp
          obtain ⟨nn, hn1, hn2, hn3, hn4, hn5, hn6⟩ := ih vis acc vis' news hexp
          refine ⟨nn, hn1, hn2, hn3, hn4, ?_, ?_⟩
          · intro nd hnd
            obtain ⟨a, b, c, d2, e', he', f2⟩ := hn5 nd hnd
            exact ⟨a, b, c, d2, e', List.mem_cons_of_mem e he', f2⟩
          · intro e' he' hpass
            rcases List.mem_cons.mp he' with rfl | he''
            · have hst : stepPos cur.pos e'.2 = ⟨cur.q + e'.2.q, cur.r + e'.2.r⟩ := rfl
              rw [hst, hn2]
              exact List.mem_append_right _ hvis
            · exact hn6 e' he'' hpass
        · rw [if_neg hvis] at hexp
          by_cases hgoal : (⟨cur.q + e.2.q, cur.r + e.2.r⟩ : HexPos) = goal
          · rw [if_pos hgoal] at hexp
            cases hexp
          · rw [if_neg hgoal] at hexp
            obtain ⟨nn, hn1, hn2, hn3, hn4, hn5, hn6⟩ := ih _ _ vis' news hexp
            set y : HexPos := ⟨cur.q + e.2.q, cur.r + e.2.r⟩ with hy
            set node : BfsNode := ⟨cur.q + e.2.q, cur.r + e.2.r, cur.dist + 1, cur.firstDir⟩
              with hnode
            have hnodepos : node.pos = y := rfl
            have hfresh : ∀ nd ∈ nn, nd.pos ∉ (y :: vis) := hn4
            refine ⟨node :: nn, ?_, ?_, ?_, ?_, ?_, ?_⟩
            · rw [hn1]; simp
            · rw [hn2]
              simp only [List.map_cons, List.reverse_cons, hnodepos]
              rw [List.append_assoc]
              simp
            · simp only [List.map_cons, List.nodup_cons, hnodepos]
              refine ⟨?_, hn3⟩
              intro hmem
              obtain ⟨nd, hnd, hndy⟩ := List.mem_map.mp hmem
              exact (hfresh nd hnd) (by rw [hndy]; exact List.mem_cons_self y vis)
            · intro nd hnd
              rcases List.mem_cons.mp hnd with rfl | hnd'
              · rw [hnodepos]; exact hvis
              · intro hc
                exact (hfresh nd hnd') (List.mem_cons_of_mem y hc)
            · intro nd hnd
              rcases List.mem_cons.mp hnd with rfl | hnd'
              · refine ⟨rfl, rfl, by rw [hnodepos]; exact hgoal, ?_,
                  e, List.mem_cons_self e ds, by rw [hnodepos]; rfl⟩
                rw [hnodepos]
                unfold passCell
                rw [hy]
                rw [hb]
                have : blk y = false := by rw [← hstat y (cur.dist + 1)]; exact hblk
                rw [this]
                rfl
              · obtain ⟨a, b, c, d2, e', he', f2⟩ := hn5 nd hnd'
                exact ⟨a, b, c, d2, e', List.mem_cons_of_mem e he', f2⟩
            · intro e' he' hpass
              rcases List.mem_cons.mp he' with rfl | he''
              · have hst : stepPos cur.pos e'.2 = y := rfl
                rw [hst, hn2]
                exact List.mem_append_right _ (List.mem_cons_self y vis)
              · exact hn6 e' he'' hpass

end BfsProof3

end SnakeRodeo

namespace SnakeRodeo

section BfsProof4

variable (dirEntries : List (Direction × HexPos)) (radius : Int) (gridType : GType)
  (blk : HexPos → Bool) (blocked : HexPos → Nat → Bool) (goal : HexPos)

/-- An early `return` of the seeding loop: some entry steps straight onto the
passable goal at distance 1 with its own direction reported. -/
theorem bfsSeed_inl_spec (hstat : ∀ k n, blocked k n = blk k) (fromPos : HexPos) :
    ∀ (ds : List (Direction × HexPos)) (vis : List HexPos) (acc : List BfsNode)
      (d : Nat) (f : Direction),
      bfsSeed radius gridType blocked goal fromPos ds vis acc = Sum.inl (d, f) →
      d = 1 ∧ ∃ e ∈ ds, f = e.1 ∧ stepPos fromPos e.2 = goal ∧
        passCell radius gridType blk goal = true := by
  intro ds
  induction ds with
  | nil => intro vis acc d f hexp; cases hexp
  | cons e ds ih =>
    intro vis acc d f hexp
    rw [bfsSeed] at hexp
    cases hb : isInBounds (fromPos.q + e.2.q) (fromPos.r + e.2.r) radius gridType with
    | false =>
      rw [hb] at hexp
      simp only [Bool.not_false, if_true] at hexp
      obtain ⟨h1, e', he', h2⟩ := ih vis acc d f hexp
      exact ⟨h1, e', List.mem_cons_of_mem e he', h2⟩
    | true =>
      rw [hb] at hexp
      simp only [Bool.not_true, Bool.false_eq_true, if_false] at hexp
      cases hblk : blocked ⟨fromPos.q + e.2.q, fromPos.r + e.2.r⟩ 1 with
      | true =>
        rw [hblk] at hexp
        simp only [if_true] at hexp
        obtain ⟨h1, e', he', h2⟩ := ih vis acc d f hexp
        exact ⟨h1, e', List.mem_cons_of_mem e he', h2⟩
      | false =>
        rw [hblk] at hexp
        simp only [Bool.false_eq_true, if_false] at hexp
        by_cases hgoal : (⟨fromPos.q + e.2.q, fromPos.r + e.2.r⟩ : HexPos) = goal
        · rw [if_pos hgoal] at hexp
          obtain ⟨h1, h2⟩ := Prod.mk.injEq .. ▸ Sum.inl.inj hexp
          refine ⟨h1.symm, e, List.mem_cons_self e ds, h2.symm, hgoal, ?_⟩
          rw [← hgoal]
          unfold passCell
          rw [hb]
          have : blk ⟨fromPos.q + e.2.q, fromPos.r + e.2.r⟩ = false := by
            rw [← hstat _ 1]; exact hblk
          rw [this]
          rfl
        · rw [if_neg hgoal] at hexp
          obtain ⟨h1, e', he', h2⟩ := ih _ _ d f hexp
          exact ⟨h1, e', List.mem_cons_of_mem e he', h2⟩

/-- A completed seeding loop: the queue holds exactly the distance-1 nodes of
the fresh, pairwise-distinct, passable, non-goal neighbour cells of `from`,
each carrying its own direction; afterwards every passable neighbour of
`from` is visited. -/
theorem bfsSeed_inr_spec (hstat : ∀ k n, blocked k n = blk k) (fromPos : HexPos) :
    ∀ (ds : List (Direction × HexPos)) (vis : List HexPos) (acc : List BfsNode)
      (vis' : List HexPos) (news : List BfsNode),
      (∀ e ∈ ds, stepPos fromPos e.2 ∉ vis) →
      (ds.map (fun e => stepPos fromPos e.2)).Nodup →
      bfsSeed radius gridType blocked goal fromPos ds vis acc = Sum.inr (vis', news) →
      ∃ newNodes : List BfsNode,
        news = acc ++ newNodes ∧
        vis' = (newNodes.map BfsNode.pos).reverse ++ vis ∧
        (newNodes.map BfsNode.pos).Nodup ∧
        (∀ nd ∈ newNodes, nd.pos ∉ vis) ∧
        (∀ nd ∈ newNodes, nd.dist = 1 ∧ nd.pos ≠ goal ∧
          passCell radius gridType blk nd.pos = true ∧
          ∃ e ∈ ds, nd.pos = stepPos fromPos e.2 ∧ nd.firstDir = e.1) ∧
        (∀ e ∈ ds, passCell radius gridType blk (stepPos fromPos e.2) = true →
          stepPos fromPos e.2 ∈ vis') := by
  intro ds
  induction ds with
  | nil =>
    intro vis acc vis' news _ _ hexp
    rw [bfsSeed] at hexp
    obtain ⟨h1, h2⟩ := Prod.mk.injEq .. ▸ Sum.inr.inj hexp
    exact ⟨[], by simp [h2.symm], by simp [h1.symm], by simp, by simp, by simp, by simp⟩
  | cons e ds ih =>
    intro vis acc vis' news hfresh hdup hexp
    rw [bfsSeed] at hexp
    have hfreshtail : ∀ e' ∈ ds, stepPos fromPos e'.2 ∉ vis :=
      fun e' he' => hfresh e' (List.mem_cons_of_mem e he')
    have hduptail : (ds.map fun e => stepPos fromPos e.2).Nodup :=
      (List.nodup_cons.mp hdup).2
    cases hb : isInBounds (fromPos.q + e.2.q) (fromPos.r + e.2.r) radius gridType with
    | false =>
      rw [hb] at hexp
      simp only [Bool.not_false, if_true] at hexp
      obtain ⟨nn, hn1, hn2, hn3, hn4, hn5, hn6⟩ := ih vis acc vis' news hfreshtail
        hduptail hexp
      refine ⟨nn, hn1, hn2, hn3, hn4, ?_, ?_⟩
      · intro nd hnd
        obtain ⟨a, b, c, e', he', f2⟩ := hn5 nd hnd
        exact ⟨a, b, c, e', List.mem_cons_of_mem e he', f2⟩
      · intro e' he' hpass
        rcases List.mem_cons.mp he' with rfl | he''
        · exfalso
          unfold passCell at hpass
          have hst : stepPos fromPos e'.2 = ⟨fromPos.q + e'.2.q, fromPos.r + e'.2.r⟩ := rfl
          rw [hst, hb] at hpass
          cases hpass
        · exact hn6 e' he'' hpass
    | true =>
      rw [hb] at hexp
      simp only [Bool.not_true, Bool.false_eq_true, if_false] at hexp
      cases hblk : blocked ⟨fromPos.q + e.2.q, fromPos.r + e.2.r⟩ 1 with
      | true =>
        rw [hblk] at hexp
        simp only [if_true] at hexp
        obtain ⟨nn, hn1, hn2, hn3, hn4, hn5, hn6⟩ := ih vis acc vis' news hfreshtail
          hduptail hexp
        refine ⟨nn, hn1, hn2, hn3, hn4, ?_, ?_⟩
        · intro nd hnd
          obtain ⟨a, b, c, e', he', f2⟩ := hn5 nd hnd
          exact ⟨a, b, c, e', List.mem_cons_of_mem e he', f2⟩
        · intro e' he' hpass
          rcases List.mem_cons.mp he' with rfl | he''
          · exfalso
            unfold passCell at hpass
            have hst : stepPos fromPos e'.2 = ⟨fromPos.q + e'.2.q, fromPos.r + e'.2.r⟩ := rfl
            rw [hst, hb] at hpass
            have : blk ⟨fromPos.q + e'.2.q, fromPos.r + e'.2.r⟩ = true := by
              rw [← hstat _ 1]; exact hblk
            rw [this] at hpass
            cases hpass
          · exact hn6 e' he'' hpass
      | false =>
        rw [hblk] at hexp
        simp only [Bool.false_eq_true, if_false] at hexp
        by_cases hgoal : (⟨fromPos.q + e.2.q, fromPos.r + e.2.r⟩ : HexPos) = goal
        · rw [if_pos hgoal] at hexp
          cases hexp
        · rw [if_neg hgoal] at hexp
          set y : HexPos := ⟨fromPos.q + e.2.q, fromPos.r + e.2.r⟩ with hy
          set node : BfsNode := ⟨fromPos.q + e.2.q, fromPos.r + e.2.r, 1, e.1⟩ with hnode
          have hnodepos : node.pos = y := rfl
          have hstep : stepPos fromPos e.2 = y := rfl
          have hfresh2 : ∀ e' ∈ ds, stepPos fromPos e'.2 ∉ (y :: vis) := by
            intro e' he'
            rw [List.mem_cons, not_or]
            refine ⟨?_, hfreshtail e' he'⟩
            intro hc
            have hyin : y ∈ ds.map (fun e => stepPos fromPos e.2) :=
              List.mem_map.mpr ⟨e', he', hc⟩
            exact (List.nodup_cons.mp hdup).1 hyin
          obtain ⟨nn, hn1, hn2, hn3, hn4, hn5, hn6⟩ := ih (y :: vis) _ vis' news
            hfresh2 hduptail hexp
          have hfreshnn : ∀ nd ∈ nn, nd.pos ∉ (y :: vis) := hn4
          refine ⟨node :: nn, ?_, ?_, ?_, ?_, ?_, ?_⟩
          · rw [hn1]; simp
          · rw [hn2]
            simp only [List.map_cons, List.reverse_cons, hnodepos]
            rw [List.append_assoc]
            simp
          · simp only [List.map_cons, List.nodup_cons, hnodepos]
            refine ⟨?_, hn3⟩
            intro hmem
            obtain ⟨nd, hnd, hndy⟩ := List.mem_map.mp hmem
            exact (hfreshnn nd hnd) (by rw [hndy]; exact List.mem_cons_self y vis)
          · intro nd hnd
            rcases List.mem_cons.mp hnd with rfl | hnd'
            · rw [hnodepos, ← hstep]
              exact hfresh e (List.mem_cons_self e ds)
            · intro hc
              exact (hfreshnn nd hnd') (List.mem_cons_of_mem y hc)
          · intro nd hnd
            rcases List.mem_cons.mp hnd with rfl | hnd'
            · refine ⟨rfl, by rw [hnodepos]; exact hgoal, ?_,
                e, List.mem_cons_self e ds, by rw [hnodepos, hstep], rfl⟩
              rw [hnodepos]
              unfold passCell
              rw [hy, hb]
              have : blk y = false := by rw [← hstat y 1]; exact hblk
              rw [this]
              rfl
            · obtain ⟨a, b, c, e', he', f2⟩ := hn5 nd hnd'
              exact ⟨a, b, c, e', List.mem_cons_of_mem e he', f2⟩
          · intro e' he' hpass
            rcases List.mem_cons.mp he' with rfl | he''
            · rw [hstep, hn2]
              exact List.mem_append_right _ (List.mem_cons_self y vis)
            · exact hn6 e' he'' hpass

end BfsProof4

end SnakeRodeo

namespace SnakeRodeo

section BfsProof5

variable (dirEntries : List (Direction × HexPos)) (radius : Int) (gridType : GType)
  (blk : HexPos → Bool) (goal start : HexPos)

/-- Invariant of the BFS worklist loop relating `visited` and the queue. -/
structure BfsInv (vis : List HexPos) (q : List BfsNode) : Prop where
  startVis : start ∈ vis
  goalVis : goal ∉ vis
  nodup : vis.Nodup
  qvis : ∀ nd ∈ q, nd.pos ∈ vis
  qgoal : ∀ nd ∈ q, nd.pos ≠ goal
  qdist : ∀ nd ∈ q, 1 ≤ nd.dist
  qsound : ∀ nd ∈ q, ∃ e p, okPath dirEntries radius gridType blk start (e :: p) ∧
      walkPath start (e :: p) = nd.pos ∧ (e :: p).length = nd.dist ∧ e.1 = nd.firstDir
  mono : q.Pairwise (fun a b => a.dist ≤ b.dist)
  window : ∀ a ∈ q, ∀ b ∈ q, b.dist ≤ a.dist + 1
  qmin : ∀ nd ∈ q, ∀ p, okPath dirEntries radius gridType blk start p →
      walkPath start p = nd.pos → nd.dist ≤ p.length
  exitInv : ∀ v ∈ vis, (∃ nd ∈ q, nd.pos = v) ∨
      ∀ e ∈ dirEntries, passCell radius gridType blk (stepPos v e.2) = true →
        stepPos v e.2 ∈ vis
  visInB : ∀ v ∈ vis, v = start ∨ isInBounds v.q v.r radius gridType = true

/-- A prefix of a valid path is valid. -/
theorem okPath_take (p : HexPos) (l : List (Direction × HexPos)) (k : Nat)
    (h : okPath dirEntries radius gridType blk p l) :
    okPath dirEntries radius gridType blk p (l.take k) := by
  have := (okPath_append dirEntries radius gridType blk p (l.take k) (l.drop k))
  rw [List.take_append_drop] at this
  exact (this.mp h).1

/-- Every valid path ending outside `visited` crosses the queue frontier: some
queued node sits on the path no later than its queued distance. -/
theorem BfsInv.cover {vis : List HexPos} {q : List BfsNode}
    (inv : BfsInv dirEntries radius gridType blk goal start vis q)
    (p : List (Direction × HexPos))
    (hok : okPath dirEntries radius gridType blk start p)
    (hnvis : walkPath start p ∉ vis) :
    ∃ nd ∈ q, ∃ k, k ≤ p.length ∧ walkPath start (p.take k) = nd.pos ∧ nd.dist ≤ k := by
  classical
  set P : Nat → Prop := fun j => walkPath start (p.take j) ∈ vis with hP
  have h0 : P 0 := by
    simp only [hP, List.take_zero, walkPath]
    exact inv.startVis
  set j := Nat.findGreatest P p.length with hj
  have hjP : P j := Nat.findGreatest_spec (Nat.zero_le _) h0
  have hjle : j ≤ p.length := Nat.findGreatest_le _
  have hjlt : j < p.length := by
    rcases Nat.lt_or_ge j p.length with h | h
    · exact h
    · exfalso
      have hje : j = p.length := le_antisymm hjle h
      rw [hje] at hjP
      simp only [hP, List.take_length] at hjP
      exact hnvis hjP
  have hnext : ¬P (j + 1) :=
    Nat.findGreatest_is_greatest (Nat.lt_succ_self j) (Nat.succ_le_of_lt hjlt)
  have htake : p.take (j + 1) = p.take j ++ [p.get ⟨j, hjlt⟩] := by
    rw [List.take_succ, List.getElem?_eq_getElem hjlt]
    rfl
  have hokj1 : okPath dirEntries radius gridType blk start (p.take (j + 1)) :=
    okPath_take dirEntries radius gridType blk start p (j + 1) hok
  rw [htake] at hokj1
  rw [okPath_append] at hokj1
  obtain ⟨hokj, hstep⟩ := hokj1
  simp only [okPath] at hstep
  obtain ⟨hmemDir, hpass, -⟩ := hstep
  rcases inv.exitInv (walkPath start (p.take j)) hjP with ⟨nd, hnd, hpos⟩ | hall
  · refine ⟨nd, hnd, j, hjle, hpos.symm ▸ rfl, ?_⟩
    · have := inv.qmin nd hnd (p.take j) hokj (by rw [hpos])
      rwa [List.length_take, min_eq_left hjle] at this
  · exfalso
    apply hnext
    have := hall (p.get ⟨j, hjlt⟩) hmemDir hpass
    simp only [hP]
    rw [htake, walkPath_append]
    simpa [walkPath] using this

end BfsProof5

end SnakeRodeo

namespace SnakeRodeo

section BfsProof6

variable (dirEntries : List (Direction × HexPos)) (radius : Int) (gridType : GType)
  (blk : HexPos → Bool) (goal start : HexPos)

/-- One worklist iteration preserves the invariant, and `visited` grows by
exactly the number of newly discovered nodes. -/
theorem BfsInv.step (blocked : HexPos → Nat → Bool)
    (hstat : ∀ k n, blocked k n = blk k)
    {vis vis' : List HexPos} {cur : BfsNode} {rest news : List BfsNode}
    (inv : BfsInv dirEntries radius gridType blk goal start vis (cur :: rest))
    (hexp : bfsExpand radius gridType blocked goal cur dirEntries vis [] =
      Sum.inr (vis', news)) :
    BfsInv dirEntries radius gridType blk goal start vis' (rest ++ news) ∧
      vis'.length = vis.length + news.length := by
  obtain ⟨nn, hn1, hn2, hn3, hn4, hn5, hn6⟩ :=
    bfsExpand_inr_spec radius gridType blk blocked goal hstat cur dirEntries vis []
      vis' news hexp
  simp only [List.nil_append] at hn1
  subst hn1
  have hsub : ∀ x ∈ vis, x ∈ vis' := by
    intro x hx; rw [hn2]; exact List.mem_append_right _ hx
  have hnnvis' : ∀ nd ∈ news, nd.pos ∈ vis' := by
    intro nd hnd
    rw [hn2]
    exact List.mem_append_left _ (List.mem_reverse.mpr (List.mem_map_of_mem _ hnd))
  have hcurhead : cur ∈ cur :: rest := List.mem_cons_self cur rest
  have hdistrest : ∀ a ∈ rest, cur.dist ≤ a.dist := (List.pairwise_cons.mp inv.mono).1
  have hwincur : ∀ a ∈ cur :: rest, a.dist ≤ cur.dist + 1 :=
    fun a ha => inv.window cur hcurhead a ha
  obtain ⟨e₀, p₀, hok₀, hwalk₀, hlen₀, hdir₀⟩ := inv.qsound cur hcurhead
  have hfresh' : ∀ nd ∈ news, nd.pos ∉ vis := hn4
  refine ⟨⟨?_, ?_, ?_, ?_, ?_, ?_, ?_, ?_, ?_, ?_, ?_, ?_⟩, ?_⟩
  · exact hsub start inv.startVis
  · rw [hn2]
    intro hmem
    rcases List.mem_append.mp hmem with h | h
    · obtain ⟨nd, hnd, hndg⟩ := List.mem_map.mp (List.mem_reverse.mp h)
      exact (hn5 nd hnd).2.2.1 hndg
    · exact inv.goalVis h
  · rw [hn2, List.nodup_append]
    refine ⟨List.nodup_reverse.mpr hn3, inv.nodup, ?_⟩
    intro a ha hav
    obtain ⟨nd, hnd, hnda⟩ := List.mem_map.mp (List.mem_reverse.mp ha)
    exact hfresh' nd hnd (hnda ▸ hav)
  · intro nd hnd
    rcases List.mem_append.mp hnd with h | h
    · exact hsub _ (inv.qvis nd (List.mem_cons_of_mem cur h))
    · exact hnnvis' nd h
  · intro nd hnd
    rcases List.mem_append.mp hnd with h | h
    · exact inv.qgoal nd (List.mem_cons_of_mem cur h)
    · exact (hn5 nd h).2.2.1
  · intro nd hnd
    rcases List.mem_append.mp hnd with h | h
    · exact inv.qdist nd (List.mem_cons_of_mem cur h)
    · rw [(hn5 nd h).1]; omega
  · intro nd hnd
    rcases List.mem_append.mp hnd with h | h
    · exact inv.qsound nd (List.mem_cons_of_mem cur h)
    · obtain ⟨hd, hf, hng, hpass, e, he, hstep⟩ := hn5 nd h
      refine ⟨e₀, p₀ ++ [e], ?_, ?_, ?_, ?_⟩
      · rw [← List.cons_append, okPath_append]
        refine ⟨hok₀, ?_⟩
        rw [hwalk₀]
        simp only [okPath]
        exact ⟨he, by rw [← hstep]; exact hpass, trivial⟩
      · rw [← List.cons_append, walkPath_append, hwalk₀]
        simp only [walkPath]
        exact hstep.symm
      · have h1 : (e₀ :: p₀).length = cur.dist := hlen₀
        simp only [List.length_cons, List.length_append, List.length_nil] at h1 ⊢
        omega
      · rw [hdir₀, hf]
  · rw [List.pairwise_append]
    refine ⟨(List.pairwise_cons.mp inv.mono).2, ?_, ?_⟩
    · apply List.pairwise_of_forall_mem_list
      intro a ha b hb
      exact le_of_eq (by rw [(hn5 a ha).1, (hn5 b hb).1])
    · intro a ha b hb
      calc a.dist ≤ cur.dist + 1 := hwincur a (List.mem_cons_of_mem cur ha)
        _ = b.dist := ((hn5 b hb).1).symm
  · intro a ha b hb
    rcases List.mem_append.mp ha with ha' | ha' <;>
      rcases List.mem_append.mp hb with hb' | hb'
    · exact inv.window a (List.mem_cons_of_mem cur ha') b (List.mem_cons_of_mem cur hb')
    · have h1 := hdistrest a ha'
      have h2 := (hn5 b hb').1
      omega
    · have h1 := (hn5 a ha').1
      have h2 := hwincur b (List.mem_cons_of_mem cur hb')
      omega
    · have h1 := (hn5 a ha').1
      have h2 := (hn5 b hb').1
      omega
  · intro nd hnd p hok hwalk
    rcases List.mem_append.mp hnd with h | h
    · exact inv.qmin nd (List.mem_cons_of_mem cur h) p hok hwalk
    · by_contra hc
      push_neg at hc
      have hdd := (hn5 nd h).1
      have hplen : p.length ≤ cur.dist := by omega
      have hnvis : walkPath start p ∉ vis := by
        rw [hwalk]; exact hfresh' nd h
      obtain ⟨nd', hnd', k, hk, hwalkk, hdk⟩ :=
        BfsInv.cover dirEntries radius gridType blk goal start inv p hok hnvis
      have hcd : cur.dist ≤ nd'.dist := by
        rcases List.mem_cons.mp hnd' with rfl | h'
        · exact le_refl _
        · exact hdistrest nd' h'
      have hkp : k = p.length := le_antisymm hk (by omega)
      have htk : p.take k = p := by rw [hkp, List.take_length]
      rw [htk, hwalk] at hwalkk
      have hvis2 := inv.qvis nd' hnd'
      rw [← hwalkk] at hvis2
      exact hfresh' nd h hvis2
  · intro v hv
    rw [hn2] at hv
    rcases List.mem_append.mp hv with h | h
    · obtain ⟨nd, hnd, hndv⟩ := List.mem_map.mp (List.mem_reverse.mp h)
      exact Or.inl ⟨nd, List.mem_append_right rest hnd, hndv⟩
    · rcases inv.exitInv v h with ⟨nd, hnd, hndv⟩ | hall
      · rcases List.mem_cons.mp hnd with rfl | hnd'
        · right
          rw [← hndv]
          exact hn6
        · exact Or.inl ⟨nd, List.mem_append_left news hnd', hndv⟩
      · right
        intro e he hpass
        exact hsub _ (hall e he hpass)
  · intro v hv
    rw [hn2] at hv
    rcases List.mem_append.mp hv with h | h
    · obtain ⟨nd, hnd, hndv⟩ := List.mem_map.mp (List.mem_reverse.mp h)
      right
      have hpass := (hn5 nd hnd).2.2.2.1
      unfold passCell at hpass
      rw [hndv] at hpass
      simp only [Bool.and_eq_true] at hpass
      exact hpass.1
    · exact inv.visInB v h
  · rw [hn2]
    simp only [List.length_append, List.length_reverse, List.length_map]
    omega

end BfsProof6

end SnakeRodeo

namespace SnakeRodeo

/-- The square of cells enclosing every in-bounds cell of either grid type. -/
def cellFinset (radius : Int) : Finset HexPos :=
  ((Finset.Icc (-radius) radius) ×ˢ (Finset.Icc (-radius) radius)).image
    fun p => ⟨p.1, p.2⟩

/-- Every in-bounds cell lies in the enclosing square. -/
theorem mem_cellFinset_of_inB (radius : Int) (gridType : GType) (v : HexPos)
    (h : isInBounds v.q v.r radius gridType = true) : v ∈ cellFinset radius := by
  have hq : -radius ≤ v.q ∧ v.q ≤ radius ∧ -radius ≤ v.r ∧ v.r ≤ radius := by
    unfold isInBounds at h
    cases gridType <;>
      simp only [Bool.and_eq_true, decide_eq_true_eq, abs_le] at h <;> omega
  unfold cellFinset
  apply Finset.mem_image.mpr
  refine ⟨(v.q, v.r), ?_, rfl⟩
  rw [Finset.mem_product]
  exact ⟨Finset.mem_Icc.mpr ⟨hq.1, hq.2.1⟩, Finset.mem_Icc.mpr ⟨hq.2.2.1, hq.2.2.2⟩⟩

/-- The enclosing square has at most `(2·radius + 1)²` cells. -/
theorem card_cellFinset (radius : Int) :
    (cellFinset radius).card ≤ (2 * radius.toNat + 1) ^ 2 := by
  unfold cellFinset
  calc (((Finset.Icc (-radius) radius) ×ˢ (Finset.Icc (-radius) radius)).image
        fun p => (⟨p.1, p.2⟩ : HexPos)).card
      ≤ ((Finset.Icc (-radius) radius) ×ˢ (Finset.Icc (-radius) radius)).card :=
        Finset.card_image_le
    _ = (Finset.Icc (-radius) radius).card * (Finset.Icc (-radius) radius).card :=
        Finset.card_product _ _
    _ ≤ (2 * radius.toNat + 1) * (2 * radius.toNat + 1) := by
        have hc : (Finset.Icc (-radius) radius).card = (radius + 1 - -radius).toNat :=
          Int.card_Icc _ _
        have : (Finset.Icc (-radius) radius).card ≤ 2 * radius.toNat + 1 := by
          rw [hc]; omega
        exact Nat.mul_le_mul this this
    _ = (2 * radius.toNat + 1) ^ 2 := (sq _).symm

end SnakeRodeo

namespace SnakeRodeo

section BfsProof7

variable (dirEntries : List (Direction × HexPos)) (radius : Int) (gridType : GType)
  (blk : HexPos → Bool) (goal start : HexPos)

/-- The invariant bounds the number of visited cells by the grid size plus one
(for a possibly out-of-bounds start cell). -/
theorem BfsInv.vis_le {vis : List HexPos} {q : List BfsNode}
    (inv : BfsInv dirEntries radius gridType blk goal start vis q) :
    vis.length ≤ (cellFinset radius).card + 1 := by
  have h1 : vis.toFinset ⊆ insert start (cellFinset radius) := by
    intro x hx
    rcases inv.visInB x (List.mem_toFinset.mp hx) with rfl | hb
    · exact Finset.mem_insert_self _ _
    · exact Finset.mem_insert_of_mem (mem_cellFinset_of_inB radius gridType x hb)
  calc vis.length = vis.toFinset.card := (List.toFinset_card_of_nodup inv.nodup).symm
    _ ≤ (insert start (cellFinset radius)).card := Finset.card_le_card h1
    _ ≤ (cellFinset radius).card + 1 := Finset.card_insert_le _ _

end BfsProof7

end SnakeRodeo

namespace SnakeRodeo

/-- Stepping from a fixed cell is injective in the offset. -/
theorem stepPos_inj (p : HexPos) : Function.Injective (stepPos p) := by
  intro a b hab
  obtain ⟨aq, ar⟩ := a
  obtain ⟨bq, br⟩ := b
  obtain ⟨pq, pr⟩ := p
  simp only [stepPos, HexPos.mk.injEq] at hab ⊢
  omega

/-- The direction offsets of either grid are nonzero and pairwise distinct, so
the distance-1 neighbours of any cell avoid it and are pairwise distinct. -/
theorem dir_offsets_facts (gt : GType) (p : HexPos) :
    (∀ e ∈ getDirectionsForGrid gt, stepPos p e.2 ≠ p) ∧
      ((getDirectionsForGrid gt).map fun e => stepPos p e.2).Nodup := by
  constructor
  · have hnz : ∀ e ∈ getDirectionsForGrid gt,
        decide (e.2 ≠ (⟨0, 0⟩ : HexPos)) = true := by
      cases gt <;> decide
    intro e he h
    have hz : e.2 ≠ (⟨0, 0⟩ : HexPos) := of_decide_eq_true (hnz e he)
    apply hz
    obtain ⟨pq, pr⟩ := p
    simp only [stepPos, HexPos.mk.injEq] at h
    have h1 : e.2.q = 0 := by omega
    have h2 : e.2.r = 0 := by omega
    have he2 : e.2 = ⟨e.2.q, e.2.r⟩ := rfl
    rw [he2, h1, h2]
  · have hmm : ((getDirectionsForGrid gt).map fun e => stepPos p e.2) =
        ((getDirectionsForGrid gt).map Prod.snd).map (stepPos p) := by
      rw [List.map_map]
      rfl
    rw [hmm]
    exact List.Nodup.map (stepPos_inj p) (by cases gt <;> decide)

end SnakeRodeo

namespace SnakeRodeo

section BfsProof8

variable (dirEntries : List (Direction × HexPos)) (radius : Int) (gridType : GType)
  (blk : HexPos → Bool) (goal start : HexPos)

/-- A completed seeding loop establishes the invariant, with exactly one more
visited cell (the start) than queued nodes. -/
theorem bfsInv_init (blocked : HexPos → Nat → Bool)
    (hstat : ∀ k n, blocked k n = blk k)
    (hde : dirEntries = getDirectionsForGrid gridType)
    (hsg : start ≠ goal)
    {vis₀ : List HexPos} {q₀ : List BfsNode}
    (hseed : bfsSeed radius gridType blocked goal start dirEntries [start] [] =
      Sum.inr (vis₀, q₀)) :
    BfsInv dirEntries radius gridType blk goal start vis₀ q₀ ∧
      vis₀.length = q₀.length + 1 := by
  obtain ⟨hnz, hdup⟩ := dir_offsets_facts gridType start
  rw [← hde] at hnz hdup
  have hfresh : ∀ e ∈ dirEntries, stepPos start e.2 ∉ [start] := by
    intro e he hmem
    exact hnz e he (List.mem_singleton.mp hmem)
  obtain ⟨nn, hn1, hn2, hn3, hn4, hn5, hn6⟩ :=
    bfsSeed_inr_spec radius gridType blk blocked goal hstat start dirEntries [start] []
      vis₀ q₀ hfresh hdup hseed
  simp only [List.nil_append] at hn1
  subst hn1
  refine ⟨⟨?_, ?_, ?_, ?_, ?_, ?_, ?_, ?_, ?_, ?_, ?_, ?_⟩, ?_⟩
  · rw [hn2]
    exact List.mem_append_right _ (List.mem_singleton_self start)
  · rw [hn2]
    intro hmem
    rcases List.mem_append.mp hmem with h | h
    · obtain ⟨nd, hnd, hndg⟩ := List.mem_map.mp (List.mem_reverse.mp h)
      exact (hn5 nd hnd).2.1 hndg
    · exact hsg (List.mem_singleton.mp h).symm
  · rw [hn2, List.nodup_append]
    refine ⟨List.nodup_reverse.mpr hn3, List.nodup_singleton start, ?_⟩
    intro a ha hav
    obtain ⟨nd, hnd, hnda⟩ := List.mem_map.mp (List.mem_reverse.mp ha)
    exact hn4 nd hnd (hnda ▸ hav)
  · intro nd hnd
    rw [hn2]
    exact List.mem_append_left _ (List.mem_reverse.mpr (List.mem_map_of_mem _ hnd))
  · intro nd hnd
    exact (hn5 nd hnd).2.1
  · intro nd hnd
    have h1 := (hn5 nd hnd).1
    omega
  · intro nd hnd
    obtain ⟨h1, hng, hpass, e, he, hstep, hfd⟩ := hn5 nd hnd
    refine ⟨e, [], ?_, ?_, ?_, hfd.symm⟩
    · simp only [okPath]
      exact ⟨he, by rw [← hstep]; exact hpass, trivial⟩
    · simp only [walkPath]
      exact hstep.symm
    · simp only [List.length_cons, List.length_nil]
      omega
  · apply List.pairwise_of_forall_mem_list
    intro a ha b hb
    exact le_of_eq (by rw [(hn5 a ha).1, (hn5 b hb).1])
  · intro a ha b hb
    have h1 := (hn5 a ha).1
    have h2 := (hn5 b hb).1
    omega
  · intro nd hnd p hok hwalk
    have h1 := (hn5 nd hnd).1
    cases p with
    | nil =>
      exfalso
      simp only [walkPath] at hwalk
      exact hn4 nd hnd (by rw [← hwalk]; exact List.mem_singleton_self start)
    | cons a as =>
      simp only [List.length_cons]
      omega
  · intro v hv
    rw [hn2] at hv
    rcases List.mem_append.mp hv with h | h
    · obtain ⟨nd, hnd, hndv⟩ := List.mem_map.mp (List.mem_reverse.mp h)
      exact Or.inl ⟨nd, hnd, hndv⟩
    · have hv2 : v = start := List.mem_singleton.mp h
      subst hv2
      right
      exact hn6
  · intro v hv
    rw [hn2] at hv
    rcases List.mem_append.mp hv with h | h
    · obtain ⟨nd, hnd, hndv⟩ := List.mem_map.mp (List.mem_reverse.mp h)
      right
      have hpass := (hn5 nd hnd).2.2.1
      unfold passCell at hpass
      rw [hndv] at hpass
      simp only [Bool.and_eq_true] at hpass
      exact hpass.1
    · exact Or.inl (List.mem_singleton.mp h)
  · rw [hn2]
    simp only [List.length_append, List.length_reverse, List.length_map,
      List.length_singleton]

end BfsProof8

end SnakeRodeo

namespace SnakeRodeo

section BfsProof9

variable (dirEntries : List (Direction × HexPos)) (radius : Int) (gridType : GType)
  (blk : HexPos → Bool) (goal start : HexPos)

/-- Run with sufficient fuel from any invariant state, the worklist loop
either returns the length of some valid path to the goal that no valid path
beats, together with that path's first direction — or reports failure, in
which case no valid path reaches the goal at all. -/
theorem bfsAux_spec (blocked : HexPos → Nat → Bool)
    (hstat : ∀ k n, blocked k n = blk k) :
    ∀ (fuel : Nat) (vis : List HexPos) (q : List BfsNode),
      BfsInv dirEntries radius gridType blk goal start vis q →
      q.length + ((cellFinset radius).card + 1 - vis.length) < fuel →
      (∃ d f e p, bfsAux dirEntries radius gridType blocked goal fuel vis q =
          ⟨some d, some f⟩ ∧
          okPath dirEntries radius gridType blk start (e :: p) ∧
          walkPath start (e :: p) = goal ∧ (e :: p).length = d ∧ e.1 = f ∧
          (∀ p', okPath dirEntries radius gridType blk start p' →
            walkPath start p' = goal → d ≤ p'.length)) ∨
      (bfsAux dirEntries radius gridType blocked goal fuel vis q = ⟨none, none⟩ ∧
        ∀ p, okPath dirEntries radius gridType blk start p →
          walkPath start p ≠ goal) := by
  intro fuel
  induction fuel with
  | zero =>
    intro vis q inv hfuel
    omega
  | succ fuel ih =>
    intro vis q inv hfuel
    cases q with
    | nil =>
      right
      refine ⟨rfl, ?_⟩
      intro p hok hwalk
      have hnvis : walkPath start p ∉ vis := by
        rw [hwalk]; exact inv.goalVis
      obtain ⟨nd, hnd, -⟩ :=
        BfsInv.cover dirEntries radius gridType blk goal start inv p hok hnvis
      exact absurd hnd (List.not_mem_nil nd)
    | cons cur rest =>
      rcases hexp : bfsExpand radius gridType blocked goal cur dirEntries vis [] with
        ⟨d, f⟩ | ⟨vis', news⟩
      · have hres : bfsAux dirEntries radius gridType blocked goal (fuel + 1) vis
            (cur :: rest) = ⟨some d, some f⟩ := by
          simp only [bfsAux, hexp]
        obtain ⟨hd, hf, e₁, he₁, hstep₁, hpassg⟩ :=
          bfsExpand_inl_spec radius gridType blk blocked goal hstat cur dirEntries
            vis [] d f hexp
        obtain ⟨e₀, p₀, hok₀, hwalk₀, hlen₀, hdir₀⟩ :=
          inv.qsound cur (List.mem_cons_self cur rest)
        left
        refine ⟨d, f, e₀, p₀ ++ [e₁], hres, ?_, ?_, ?_, ?_, ?_⟩
        · rw [← List.cons_append, okPath_append]
          refine ⟨hok₀, ?_⟩
          rw [hwalk₀]
          simp only [okPath]
          exact ⟨he₁, by rw [hstep₁]; exact hpassg, trivial⟩
        · rw [← List.cons_append, walkPath_append, hwalk₀]
          simp only [walkPath]
          exact hstep₁
        · have h1 : (e₀ :: p₀).length = cur.dist := hlen₀
          simp only [List.length_cons, List.length_append, List.length_nil] at h1 ⊢
          omega
        · rw [hdir₀, hf]
        · intro p' hok' hwalk'
          have hnvis : walkPath start p' ∉ vis := by
            rw [hwalk']; exact inv.goalVis
          obtain ⟨nd, hnd, k, hk, hwalkk, hdk⟩ :=
            BfsInv.cover dirEntries radius gridType blk goal start inv p' hok' hnvis
          have hcd : cur.dist ≤ nd.dist := by
            rcases List.mem_cons.mp hnd with rfl | h'
            · exact le_refl _
            · exact (List.pairwise_cons.mp inv.mono).1 nd h'
          have hkne : k ≠ p'.length := by
            intro hkp
            rw [hkp, List.take_length, hwalk'] at hwalkk
            exact inv.qgoal nd hnd hwalkk.symm
          omega
      · obtain ⟨inv', hlen'⟩ :=
          BfsInv.step dirEntries radius gridType blk goal start blocked hstat inv hexp
        have hcard := BfsInv.vis_le dirEntries radius gridType blk goal start inv'
        have hres : bfsAux dirEntries radius gridType blocked goal (fuel + 1) vis
            (cur :: rest) =
            bfsAux dirEntries radius gridType blocked goal fuel vis' (rest ++ news) := by
          simp only [bfsAux, hexp]
        rw [hres]
        apply ih vis' (rest ++ news) inv'
        simp only [List.length_cons, List.length_append] at hfuel ⊢
        omega

end BfsProof9

end SnakeRodeo

namespace SnakeRodeo

/-- The seed-then-loop pipeline of `bfsDistance` for distinct endpoints. -/
def bfsSearch (dirEntries : List (Direction × HexPos)) (radius : Int)
    (gridType : GType) (blocked : HexPos → Nat → Bool) (goal start : HexPos) :
    BfsResult :=
  match bfsSeed radius gridType blocked goal start dirEntries [start] [] with
  | Sum.inl (d, f) => ⟨some d, some f⟩
  | Sum.inr (vis, queue) =>
    bfsAux dirEntries radius gridType blocked goal (bfsFuel radius) vis queue

/-- For distinct endpoints `bfsDistance` is the seed-then-loop pipeline at the
components read off the game state. -/
theorem bfsDistance_eq_search (gs : GState) (fromPos toPos : HexPos)
    (hne : fromPos ≠ toPos) :
    bfsDistance fromPos toPos gs =
      bfsSearch (getDirectionsForGrid (detectGridType gs))
        (intTruthyD (gs.gridSize.map (·.radius)) 3) (detectGridType gs)
        (isBlocked (bfsObstacle ((gs.snake.bind (·.body)).getD []) true false))
        toPos fromPos := by
  rcases h : bfsSeed (intTruthyD (gs.gridSize.map (·.radius)) 3) (detectGridType gs)
      (isBlocked (bfsObstacle ((gs.snake.bind (·.body)).getD []) true false))
      toPos fromPos (getDirectionsForGrid (detectGridType gs)) [fromPos] [] with
    ⟨d, f⟩ | ⟨vis, queue⟩ <;>
  · simp only [bfsDistance, bfsSearch]
    rw [if_neg hne, h]

end SnakeRodeo

namespace SnakeRodeo

section BfsProof10

variable (dirEntries : List (Direction × HexPos)) (radius : Int) (gridType : GType)
  (blk : HexPos → Bool) (goal start : HexPos)

/-- Full correctness of the seed-then-loop pipeline: for a static blocking
predicate, it reports the length of a shortest valid path together with its
first direction, or failure exactly when no valid path reaches the goal. -/
theorem bfsSearch_spec (blocked : HexPos → Nat → Bool)
    (hstat : ∀ k n, blocked k n = blk k)
    (hde : dirEntries = getDirectionsForGrid gridType)
    (hne : start ≠ goal) :
    (∃ d f e p,
      bfsSearch dirEntries radius gridType blocked goal start = ⟨some d, some f⟩ ∧
      okPath dirEntries radius gridType blk start (e :: p) ∧
      walkPath start (e :: p) = goal ∧ (e :: p).length = d ∧ e.1 = f ∧
      ∀ p', okPath dirEntries radius gridType blk start p' →
        walkPath start p' = goal → d ≤ p'.length) ∨
    (bfsSearch dirEntries radius gridType blocked goal start = ⟨none, none⟩ ∧
      ∀ p, okPath dirEntries radius gridType blk start p →
        walkPath start p ≠ goal) := by
  rcases hseed : bfsSeed radius gridType blocked goal start dirEntries [start] [] with
    ⟨d, f⟩ | ⟨vis₀, q₀⟩
  · have heval : bfsSearch dirEntries radius gridType blocked goal start =
        ⟨some d, some f⟩ := by
      simp only [bfsSearch]
      rw [hseed]
    obtain ⟨hd, e, he, hf, hstep, hpassg⟩ :=
      bfsSeed_inl_spec radius gridType blk blocked goal hstat start dirEntries
        [start] [] d f hseed
    left
    refine ⟨d, f, e, [], heval, ?_, ?_, ?_, hf.symm, ?_⟩
    · simp only [okPath]
      exact ⟨he, by rw [hstep]; exact hpassg, trivial⟩
    · simp only [walkPath]
      exact hstep
    · simp only [List.length_cons, List.length_nil]
      omega
    · intro p' hok' hwalk'
      cases p' with
      | nil =>
        exfalso
        simp only [walkPath] at hwalk'
        exact hne hwalk'
      | cons a as =>
        simp only [List.length_cons]
        omega
  · obtain ⟨inv, hlen⟩ :=
      bfsInv_init dirEntries radius gridType blk goal start blocked hstat hde hne hseed
    have hcard := BfsInv.vis_le dirEntries radius gridType blk goal start inv
    have hN := card_cellFinset radius
    have hfuel : q₀.length + ((cellFinset radius).card + 1 - vis₀.length) <
        bfsFuel radius := by
      unfold bfsFuel
      omega
    have hmn := bfsAux_spec dirEntries radius gridType blk goal start blocked hstat
      (bfsFuel radius) vis₀ q₀ inv hfuel
    have heval : bfsSearch dirEntries radius gridType blocked goal start =
        bfsAux dirEntries radius gridType blocked goal (bfsFuel radius) vis₀ q₀ := by
      simp only [bfsSearch]
      rw [hseed]
    rw [← heval] at hmn
    exact hmn

end BfsProof10

end SnakeRodeo

namespace SnakeRodeo

set_option maxHeartbeats 800000 in
/-- **C4**: for distinct endpoints, `bfsDistance` (with its default arguments)
returns the exact minimum number of moves from `fromPos` to `toPos` over
in-bounds cells not on the snake body (head excluded), together with the first
direction of such a shortest path; when no such path exists it returns
distance `none` (`Infinity` in the source) and no first direction.  For equal
endpoints it returns distance 0 and no first direction. -/
theorem bfsDistance_spec (gs : GState) (fromPos toPos : HexPos)
    (radius : Int) (gridType : GType) (dirEntries : List (Direction × HexPos))
    (blk : HexPos → Bool)
    (hrad : radius = intTruthyD (gs.gridSize.map (·.radius)) 3)
    (hgt : gridType = detectGridType gs)
    (hde : dirEntries = getDirectionsForGrid gridType)
    (hblk : blk = fun p => decide (p ∈ ((gs.snake.bind (·.body)).getD []).tail)) :
    (fromPos = toPos → bfsDistance fromPos toPos gs = ⟨some 0, none⟩) ∧
    (fromPos ≠ toPos →
      ((∃ p, okPath dirEntries radius gridType blk fromPos p ∧
          walkPath fromPos p = toPos) →
        ∃ d f e p, bfsDistance fromPos toPos gs = ⟨some d, some f⟩ ∧
          okPath dirEntries radius gridType blk fromPos (e :: p) ∧
          walkPath fromPos (e :: p) = toPos ∧ (e :: p).length = d ∧ e.1 = f ∧
          ∀ p', okPath dirEntries radius gridType blk fromPos p' →
            walkPath fromPos p' = toPos → d ≤ p'.length) ∧
      ((∀ p, okPath dirEntries radius gridType blk fromPos p →
          walkPath fromPos p ≠ toPos) →
        bfsDistance fromPos toPos gs = ⟨none, none⟩)) := by
  subst hde hgt hrad hblk
  constructor
  · intro heq
    subst heq
    simp [bfsDistance]
  · intro hne
    have hstat : ∀ (k : HexPos) (n : Nat),
        isBlocked (bfsObstacle ((gs.snake.bind (·.body)).getD []) true false) k n =
          (fun p => decide (p ∈ ((gs.snake.bind (·.body)).getD []).tail)) k := by
      intro k n
      rw [isBlocked_false_static]
      simp
    have hmn := bfsSearch_spec (getDirectionsForGrid (detectGridType gs))
      (intTruthyD (gs.gridSize.map (·.radius)) 3) (detectGridType gs)
      (fun p => decide (p ∈ ((gs.snake.bind (·.body)).getD []).tail))
      toPos fromPos
      (isBlocked (bfsObstacle ((gs.snake.bind (·.body)).getD []) true false))
      hstat rfl hne
    rw [← bfsDistance_eq_search gs fromPos toPos hne] at hmn
    constructor
    · rintro ⟨p, hok, hwalk⟩
      rcases hmn with ⟨d, f, e, pp, h1, h2, h3, h4, h5, h6⟩ | ⟨hres, hunreach⟩
      · exact ⟨d, f, e, pp, h1, h2, h3, h4, h5, h6⟩
      · exact absurd hwalk (hunreach p hok)
    · intro hunreach
      rcases hmn with ⟨d, f, e, pp, h1, h2, h3, h4, h5, h6⟩ | ⟨hres, hunr⟩
      · exact absurd h3 (hunreach (e :: pp) h2)
      · exact hres

/-- Witness for the BFS specification at a concrete state and equal endpoints. -/
theorem bfsDistance_spec_witness :
    bfsDistance ⟨0, 0⟩ ⟨0, 0⟩ sampleState.toQ = ⟨some 0, none⟩ :=
  (bfsDistance_spec sampleState.toQ ⟨0, 0⟩ ⟨0, 0⟩ _ _ _ _ rfl rfl rfl rfl).1 rfl

end SnakeRodeo

namespace SnakeRodeo

-- ---------------------------------------------------------------------------
-- Strategy layer (`strategies/base.ts`, `strategies/expected-value.ts`)
-- ---------------------------------------------------------------------------

/-- `AgentState` (base.ts); `roundBudgetRemaining` is optional in the source. -/
structure AgentState where
  currentTeam : Option String
  roundSpend : Rat
  roundVoteCount : Nat
  lastRound : Int
  gamesPlayed : Nat
  votesPlaced : Nat
  wins : Nat
  roundBudgetRemaining : Option Rat
deriving Repr

/-- `VoteAction` (the free-form diagnostic `reason` string, never read by the
game logic, is not modelled). -/
structure VoteAction where
  direction : Direction
  team : ParsedTeam
  amount : Rat
deriving Repr

/-- `VoteResult = VoteAction | VoteSkip | null`. -/
inductive VoteResult where
  | action (v : VoteAction)
  | skipped
  | nullRes
deriving Repr

/-- `ExpectedValueStrategy.estimateWinProb`. -/
def estimateWinProb (team : ParsedTeam) (parsed : ParsedGameState) : Rat :=
  let fruitsNeeded : Rat := parsed.fruitsToWin - team.score
  let fruitDist : Nat := (team.closestFruit.map (·.distance)).getD 10
  if team.closestFruit = none then 0
  else if fruitsNeeded ≤ 0 then 0
  else if fruitsNeeded = 1 ∧ fruitDist ≤ 1 then 0.9
  else if fruitsNeeded = 1 ∧ fruitDist ≤ 2 then 0.7
  else if fruitsNeeded = 1 then 0.5
  else if fruitsNeeded = 2 ∧ fruitDist ≤ 2 then 0.4
  else if fruitsNeeded = 2 then 0.25
  else if fruitsNeeded = 3 then 0.15
  else 0.1

/-- `ExpectedValueStrategy.shouldCounterBid`: hard budget checks, the recorded
closest-fruit distance gate, then the 3× expected-return check. -/
def shouldCounterBid (parsed : ParsedGameState) (balance : Rat)
    (state : AgentState) (ourVote : VoteAction) : VoteResult :=
  let cost := parsed.minBid
  if balance < cost then .nullRes
  else if ratTruthyD state.roundBudgetRemaining 0 < cost then .nullRes
  else
    let team := ourVote.team
    let fruitDist : WithTop Nat :=
      (team.closestFruit.map fun c => ((c.distance : Nat) : WithTop Nat)).getD ⊤
    if 1 < fruitDist then .nullRes
    else
      let winProb := estimateWinProb team parsed
      let teamVoters : Nat := max (state.roundVoteCount + 1) 2
      let expectedReturn := winProb * (parsed.prizePool / (teamVoters : Rat))
      if expectedReturn < cost * 3 then .nullRes
      else .action ⟨ourVote.direction, ourVote.team, cost⟩

end SnakeRodeo

namespace SnakeRodeo

/-- **C7** (amended): `shouldCounterBid` returns either `null` or a counter
vote re-affirming our direction and team at the current minimum bid, and it
returns the vote exactly when (a) the cost fits within both the balance and
the remaining round budget, (b) the recorded (grid-metric) closest-fruit
distance of our vote's team is at most 1, and (c) the expected return is at
least — not strictly above — three times the cost. -/
theorem shouldCounterBid_spec (parsed : ParsedGameState) (balance : Rat)
    (state : AgentState) (ourVote : VoteAction) :
    (shouldCounterBid parsed balance state ourVote = .nullRes ∨
      shouldCounterBid parsed balance state ourVote =
        .action ⟨ourVote.direction, ourVote.team, parsed.minBid⟩) ∧
    (shouldCounterBid parsed balance state ourVote =
        .action ⟨ourVote.direction, ourVote.team, parsed.minBid⟩ ↔
      parsed.minBid ≤ balance ∧
      parsed.minBid ≤ ratTruthyD state.roundBudgetRemaining 0 ∧
      (ourVote.team.closestFruit.map
        fun c => ((c.distance : Nat) : WithTop Nat)).getD ⊤ ≤ 1 ∧
      parsed.minBid * 3 ≤ estimateWinProb ourVote.team parsed *
        (parsed.prizePool / ((max (state.roundVoteCount + 1) 2 : Nat) : Rat))) := by
  simp only [shouldCounterBid]
  by_cases h1 : balance < parsed.minBid
  · rw [if_pos h1]
    refine ⟨Or.inl rfl, ?_, ?_⟩
    · intro h; cases h
    · rintro ⟨ha, -, -, -⟩
      exact absurd h1 (not_lt.mpr ha)
  · rw [if_neg h1]
    by_cases h2 : ratTruthyD state.roundBudgetRemaining 0 < parsed.minBid
    · rw [if_pos h2]
      refine ⟨Or.inl rfl, ?_, ?_⟩
      · intro h; cases h
      · rintro ⟨-, hb, -, -⟩
        exact absurd h2 (not_lt.mpr hb)
    · rw [if_neg h2]
      by_cases h3 : (1 : WithTop Nat) <
          (ourVote.team.closestFruit.map
            fun c => ((c.distance : Nat) : WithTop Nat)).getD ⊤
      · rw [if_pos h3]
        refine ⟨Or.inl rfl, ?_, ?_⟩
        · intro h; cases h
        · rintro ⟨-, -, hc, -⟩
          exact absurd h3 (not_lt.mpr hc)
      · rw [if_neg h3]
        by_cases h4 : estimateWinProb ourVote.team parsed *
            (parsed.prizePool / ((max (state.roundVoteCount + 1) 2 : Nat) : Rat)) <
            parsed.minBid * 3
        · rw [if_pos h4]
          refine ⟨Or.inl rfl, ?_, ?_⟩
          · intro h; cases h
          · rintro ⟨-, -, -, hd⟩
            exact absurd h4 (not_lt.mpr hd)
        · rw [if_neg h4]
          refine ⟨Or.inr rfl, ?_, ?_⟩
          · intro _
            exact ⟨not_lt.mp h1, not_lt.mp h2, not_lt.mp h3, not_lt.mp h4⟩
          · intro _
            rfl

end SnakeRodeo

namespace SnakeRodeo

/-- An empty raw snapshot (every optional field absent). -/
def emptyGState : GState :=
  { snake := none, gridSize := none, gameActive := none, round := none
    prizePool := none, minBid := none, countdown := none, config := none
    teams := none, fruitScores := none, teamPools := none, apples := none
    eatenFruits := none, winner := none, error := none, nextMoveTime := none
    nonce := none }

/-- Team one fruit from victory with a fruit recorded at distance 1. -/
def cexTeam : ParsedTeam :=
  { id := "A", name := none, color := none, emoji := none
    score := 2, pool := 0, closestFruit := some ⟨⟨1, 0⟩, 1⟩ }

/-- Parsed state with `minBid = 3` and `prizePool = 20`: the expected return
`0.9 · (20 / 2) = 9` equals `3 · minBid` exactly. -/
def cexParsed : ParsedGameState :=
  { active := some true, round := some 1, prizePool := 20, minBid := 3
    initialMinBid := 1, countdown := 10, inExtensionWindow := false
    extensions := 0, fruitsToWin := 3, gridRadius := 3, gridType := .hexagonal
    head := ⟨0, 0⟩, snakeLength := 1, currentDirection := none
    currentWinningTeam := none, teams := [cexTeam], validDirections := [.n]
    winner := none, raw := emptyGState }

/-- Agent state with one prior vote this round and ample budget. -/
def cexState : AgentState :=
  { currentTeam := some "A", roundSpend := 0, roundVoteCount := 1
    lastRound := 1, gamesPlayed := 0, votesPlaced := 1, wins := 0
    roundBudgetRemaining := some 100 }

/-- The overridden vote being reconsidered. -/
def cexVote : VoteAction := { direction := .n, team := cexTeam, amount := 3 }

/-- **C7** counterexample: at an expected return of exactly three times the
escalated cost, `shouldCounterBid` proposes the counter-bid, so the strict
"exceeds 3× the cost" reading of the spec is violated. -/
theorem shouldCounterBid_exceeds_cex :
    shouldCounterBid cexParsed 100 cexState cexVote =
        .action ⟨Direction.n, cexTeam, 3⟩ ∧
      ¬(cexParsed.minBid * 3 <
        estimateWinProb cexVote.team cexParsed *
          (cexParsed.prizePool /
            ((max (cexState.roundVoteCount + 1) 2 : Nat) : Rat))) := by
  constructor
  · simp only [shouldCounterBid, estimateWinProb, cexParsed, cexState, cexVote,
      cexTeam, ratTruthyD, Option.map_some', Option.getD_some, reduceCtorEq,
      Nat.cast_one, lt_self_iff_false]
    norm_num
  · simp only [estimateWinProb, cexParsed, cexState, cexVote, cexTeam,
      Option.map_some', Option.getD_some, reduceCtorEq]
    norm_num

end SnakeRodeo

namespace SnakeRodeo

-- ---------------------------------------------------------------------------
-- Simulator: agents and the round machinery of `simulateGame`
-- ---------------------------------------------------------------------------

/-- `SimAgent.maxRoundBudgetPct` (instance field, never reassigned). -/
def maxRoundBudgetPct : Rat := 0.2

/-- `SimAgent`: the mutable bookkeeping fields plus the wrapped strategy.  The
strategy's `computeVote`/`shouldCounterBid` methods are arbitrary TypeScript
that may draw from the ambient `Math.random` — which `simulateGame` swaps for
the seeded PRNG during both voting phases — so they are modelled as explicit
PRNG-state-threaded functions; a strategy without `shouldCounterBid` is
`none`. -/
structure SimAgent where
  name : String
  strategyVote : ParsedGameState → Rat → AgentState → Nat → VoteResult × Nat
  strategyCounter :
    Option (ParsedGameState → Rat → AgentState → VoteAction → Nat → VoteResult × Nat)
  balance : Rat
  currentTeam : Option String
  totalSpent : Rat
  totalEarned : Rat
  cumulativeSpent : Rat
  cumulativeEarned : Rat
  votesPlaced : Nat
  wins : Nat
  gamesPlayed : Nat
  roundSpend : Rat
  roundVoteCount : Nat

/-- The `AgentState` record both `computeVote` and `computeCounterBid` build. -/
def SimAgent.toAgentState (a : SimAgent) : AgentState :=
  { currentTeam := a.currentTeam
    roundSpend := a.roundSpend
    roundVoteCount := a.roundVoteCount
    roundBudgetRemaining := some (max 0 (a.balance * maxRoundBudgetPct - a.roundSpend))
    lastRound := -1
    gamesPlayed := a.gamesPlayed
    votesPlaced := a.votesPlaced
    wins := a.wins }

/-- `SimAgent.computeVote`: parse, gate on `active`, run the strategy, then on
a concrete vote update the agent's books. -/
def SimAgent.computeVote (agent : SimAgent) (gameState : SimGameState) (rng : Nat) :
    Option VoteAction × SimAgent × Nat :=
  match parseGameState (some gameState.toQ) with
  | none => (none, agent, rng)
  | some parsed =>
    if parsed.active ≠ some true then (none, agent, rng)
    else
      let (result, rng') := agent.strategyVote parsed agent.balance agent.toAgentState rng
      match result with
      | .action v =>
        (some v,
         { agent with
           currentTeam := some v.team.id
           balance := agent.balance - v.amount
           totalSpent := agent.totalSpent + v.amount
           votesPlaced := agent.votesPlaced + 1
           roundSpend := agent.roundSpend + v.amount
           roundVoteCount := agent.roundVoteCount + 1 }, rng')
      | _ => (none, agent, rng')

/-- `SimAgent.computeCounterBid`: like `computeVote` with the extra up-front
balance check against the (escalated) current minimum bid. -/
def SimAgent.computeCounterBid (agent : SimAgent) (gameState : SimGameState)
    (previousVote : VoteAction) (rng : Nat) : Option VoteAction × SimAgent × Nat :=
  match agent.strategyCounter with
  | none => (none, agent, rng)
  | some counter =>
    match parseGameState (some gameState.toQ) with
    | none => (none, agent, rng)
    | some parsed =>
      if parsed.active ≠ some true then (none, agent, rng)
      else if agent.balance < parsed.minBid then (none, agent, rng)
      else
        let (result, rng') := counter parsed agent.balance agent.toAgentState
          previousVote rng
        match result with
        | .action v =>
          (some v,
           { agent with
             currentTeam := some v.team.id
             balance := agent.balance - v.amount
             totalSpent := agent.totalSpent + v.amount
             votesPlaced := agent.votesPlaced + 1
             roundSpend := agent.roundSpend + v.amount
             roundVoteCount := agent.roundVoteCount + 1 }, rng')
        | _ => (none, agent, rng')

/-- Phase 1 of a round: every agent, in shuffled order, computes an initial
vote; concrete votes are collected (votes reference their agent — object
identity in JavaScript, the index into the agents array here). -/
def phase1 (gameState : SimGameState) :
    List Nat → Array SimAgent → List (Nat × VoteAction) → Nat →
      Array SimAgent × List (Nat × VoteAction) × Nat
  | [], agents, votes, rng => (agents, votes, rng)
  | idx :: rest, agents, votes, rng =>
    match agents.get? idx with
    | none => phase1 gameState rest agents votes rng
    | some agent =>
      let (vote, agent', rng') := agent.computeVote gameState rng
      let agents' := agents.setD idx agent'
      match vote with
      | some v => phase1 gameState rest agents' (votes ++ [(idx, v)]) rng'
      | none => phase1 gameState rest agents' votes rng'

end SnakeRodeo

namespace SnakeRodeo

/-- The inner loop of one counter-bidding extension: overridden agents, in
shuffled order, may counter; each accepted counter is appended to the vote
list and becomes the last vote. -/
def counterInner (gameState : SimGameState) :
    List (Nat × VoteAction) → Array SimAgent → List (Nat × VoteAction) →
      (Nat × VoteAction) → Bool → Nat →
      Array SimAgent × List (Nat × VoteAction) × (Nat × VoteAction) × Bool × Nat
  | [], agents, votes, lastVote, anyCountered, rng =>
    (agents, votes, lastVote, anyCountered, rng)
  | (idx, prevVote) :: rest, agents, votes, lastVote, anyCountered, rng =>
    match agents.get? idx with
    | none => counterInner gameState rest agents votes lastVote anyCountered rng
    | some agent =>
      let (counter, agent', rng') := agent.computeCounterBid gameState prevVote rng
      let agents' := agents.setD idx agent'
      match counter with
      | some c =>
        counterInner gameState rest agents' (votes ++ [(idx, c)]) (idx, c) true rng'
      | none => counterInner gameState rest agents' votes lastVote anyCountered rng'

/-- The loop-local state of the counter-bidding phase. -/
structure CounterState where
  agents : Array SimAgent
  gameState : SimGameState
  votes : List (Nat × VoteAction)
  lastVote : Nat × VoteAction
  currentMinBid : Rat
  extensions : Nat
  rng : Nat

/-- The game state as mutated at the top of each counter-bid extension: the
escalated bid and the provisional winner are written before the overridden set
is examined, so they persist even when the loop exits immediately. -/
def counterExtState (st : CounterState) : SimGameState :=
  { st.gameState with
    minBid := st.currentMinBid * 2
    snake := { st.gameState.snake with
      currentDirection := st.lastVote.2.direction
      currentWinningTeam := some st.lastVote.2.team.id } }

/-- The votes whose agent was overridden by the current last vote (object
identity of agents is index identity here). -/
def counterOverridden (st : CounterState) : List (Nat × VoteAction) :=
  st.votes.filter fun v =>
    v.1 != st.lastVote.1 && v.2.direction != st.lastVote.2.direction

/-- One extension's worth of counter-bids, in shuffled order. -/
def counterStepInner (st : CounterState) :
    Array SimAgent × List (Nat × VoteAction) × (Nat × VoteAction) × Bool × Nat :=
  let sh := shuffleArray (counterOverridden st).toArray st.rng
  counterInner (counterExtState st) sh.1.toList st.agents st.votes st.lastVote
    false sh.2

/-- Phase 2 of a round (`for (let ext = 0; ext < maxExtensions; ext++)`). -/
def counterLoop : Nat → CounterState → CounterState
  | 0, st => st
  | fuel + 1, st =>
    if (counterOverridden st).isEmpty then { st with gameState := counterExtState st }
    else
      let inner := counterStepInner st
      if !inner.2.2.2.1 then
        { agents := inner.1, gameState := counterExtState st, votes := inner.2.1
          lastVote := inner.2.2.1, currentMinBid := st.currentMinBid
          extensions := st.extensions, rng := inner.2.2.2.2 }
      else
        counterLoop fuel
          { agents := inner.1, gameState := counterExtState st, votes := inner.2.1
            lastVote := inner.2.2.1, currentMinBid := st.currentMinBid * 2
            extensions := st.extensions + 1, rng := inner.2.2.2.2 }

/-- One vote as recorded in a round-log entry. -/
structure RoundLogVote where
  agent : String
  dir : Direction
  team : String
deriving DecidableEq, Repr

/-- `RoundLogEntry`. -/
structure RoundLogEntry where
  round : Nat
  direction : Direction
  winningTeam : String
  event : GEvent
  votes : List RoundLogVote
deriving DecidableEq, Repr

/-- The outcome of one iteration of the round loop, instrumented with the
loop-local values (`votes`, `lastVote`, the counter-phase bid and extension
count, and the state passed to `advanceRound`) that the proofs below reason
about. -/
structure RoundResult where
  agents : Array SimAgent
  agentOrder : Array Nat
  gameState : SimGameState
  rng : Nat
  logEntry : Option RoundLogEntry
  votes : List (Nat × VoteAction)
  lastVote : Option (Nat × VoteAction)
  extensions : Nat
  counterMinBid : Rat
  preAdvance : Option SimGameState
  breakLoop : Bool
  errored : Bool

/-- Per-round budget reset (`agent.resetRound()` for every agent). -/
def roundPrep (agents : Array SimAgent) : Array SimAgent :=
  agents.map fun a => { a with roundSpend := 0, roundVoteCount := 0 }

/-- Budget reset, order shuffle and phase-1 voting of one round; returns the
updated agents, collected votes and PRNG state (the shuffled order itself is
`(shuffleArray order rng).1`). -/
def roundVotes (agents : Array SimAgent) (order : Array Nat) (gs : SimGameState)
    (rng : Nat) : Array SimAgent × List (Nat × VoteAction) × Nat :=
  phase1 gs (shuffleArray order rng).1.toList (roundPrep agents) []
    (shuffleArray order rng).2

/-- The end-of-counter-phase bid reset (`minBid: config.initialMinBid || 1`). -/
def resetBid (config : RodeoCycleConfig) (gs : SimGameState) : SimGameState :=
  { gs with minBid := ratTruthyD (some config.initialMinBid) 1 }

/-- Record the pool contributions of every vote (initial and counters). -/
def poolsFold (votes : List (Nat × VoteAction)) (gs : SimGameState) : SimGameState :=
  votes.foldl
    (fun gs v =>
      { gs with
        teamPools := recordSet gs.teamPools v.2.team.id
          (ratTruthyD (gs.teamPools.lookup v.2.team.id) 0 + v.2.amount)
        prizePool := gs.prizePool + v.2.amount })
    gs

/-- The payout step run when a round produces a winner: every agent on the
winning team gains a win and a share of the prize pool proportional to its
vote count. -/
def payout (agents : Array SimAgent) (w : String) (pool : Rat) : Array SimAgent :=
  let totalWinningVotes := agents.foldl
    (fun s a => if a.currentTeam = some w then s + (a.votesPlaced : Rat) else s) 0
  agents.map fun a =>
    if a.currentTeam = some w then
      { a with
        wins := a.wins + 1
        totalEarned := if 0 < totalWinningVotes then
            a.totalEarned + pool * ((a.votesPlaced : Rat) / totalWinningVotes)
          else a.totalEarned }
    else a

/-- One iteration of the round loop of `simulateGame` (round budget reset,
shuffle, initial votes, counter-bidding, bid reset, pool recording, direction
validation, `advanceRound`, round log, payouts).  `errored` marks the
`advanceRound` cases that would raise a `TypeError`, which never occur on the
states the loop produces. -/
def runRound (sampler : Sampler) (config : RodeoCycleConfig) (maxExtensions : Nat)
    (round : Nat) (agents₀ : Array SimAgent) (agentOrder₀ : Array Nat)
    (gameState₀ : SimGameState) (rng₀ : Nat) : RoundResult :=
  if !gameState₀.gameActive then
    ⟨agents₀, agentOrder₀, gameState₀, rng₀, none, [], none, 0, gameState₀.minBid,
      none, true, false⟩
  else
    let p1 := roundVotes agents₀ agentOrder₀ gameState₀ rng₀
    let shuffledOrder := (shuffleArray agentOrder₀ rng₀).1
    match p1.2.1.getLast? with
    | none =>
      match getValidDirections gameState₀.toQ with
      | [] => ⟨p1.1, shuffledOrder, gameState₀, p1.2.2, none, [], none, 0,
          gameState₀.minBid, none, true, false⟩
      | d₀ :: ds =>
        let dir := if gameState₀.snake.currentDirection ∈ (d₀ :: ds) then
            gameState₀.snake.currentDirection else d₀
        match advanceRound sampler gameState₀ dir none p1.2.2 with
        | none => ⟨p1.1, shuffledOrder, gameState₀, p1.2.2, none, [], none, 0,
            gameState₀.minBid, none, true, true⟩
        | some (res, rng₃) => ⟨p1.1, shuffledOrder, res.gameState, rng₃, none, [],
            none, 0, gameState₀.minBid, none, false, false⟩
    | some lv₀ =>
      let cst := counterLoop maxExtensions
        ⟨p1.1, gameState₀, p1.2.1, lv₀, gameState₀.minBid, 0, p1.2.2⟩
      let gameState₂ := poolsFold cst.votes (resetBid config cst.gameState)
      let direction := cst.lastVote.2.direction
      let winningTeam := cst.lastVote.2.team.id
      let validDirs := getValidDirections gameState₂.toQ
      match if validDirs.contains direction then some direction else
          validDirs.head? with
      | none => ⟨cst.agents, shuffledOrder, gameState₂, cst.rng, none, cst.votes,
          some cst.lastVote, cst.extensions, cst.currentMinBid, some gameState₂,
          true, false⟩
      | some actualDir =>
        match advanceRound sampler gameState₂ actualDir (some winningTeam) cst.rng with
        | none => ⟨cst.agents, shuffledOrder, gameState₂, cst.rng, none, cst.votes,
            some cst.lastVote, cst.extensions, cst.currentMinBid, some gameState₂,
            true, true⟩
        | some (res, rng₃) =>
          let entry : RoundLogEntry :=
            ⟨round, actualDir, winningTeam, res.event,
             cst.votes.map fun v =>
               ⟨((cst.agents.get? v.1).map (·.name)).getD "", v.2.direction,
                 v.2.team.id⟩⟩
          let agentsF := match res.winner with
            | none => cst.agents
            | some w => payout cst.agents w res.gameState.prizePool
          ⟨agentsF, shuffledOrder, res.gameState, rng₃, some entry, cst.votes,
            some cst.lastVote, cst.extensions, cst.currentMinBid, some gameState₂,
            res.winner.isSome, false⟩

end SnakeRodeo

namespace SnakeRodeo

/-- The final result of `gameLoop`. -/
structure GameResult where
  agents : Array SimAgent
  gameState : SimGameState
  roundLog : List RoundLogEntry
  rng : Nat
  errored : Bool

/-- The round loop of `simulateGame`. -/
def gameLoop (sampler : Sampler) (config : RodeoCycleConfig) (maxExtensions : Nat) :
    Nat → Nat → Array SimAgent → Array Nat → SimGameState → Nat →
      List RoundLogEntry → GameResult
  | 0, _, agents, _, gs, rng, log => ⟨agents, gs, log, rng, false⟩
  | fuel + 1, round, agents, order, gs, rng, log =>
    let r := runRound sampler config maxExtensions round agents order gs rng
    let log' := log ++ r.logEntry.toList
    if r.errored then ⟨r.agents, r.gameState, log', r.rng, true⟩
    else if r.breakLoop then ⟨r.agents, r.gameState, log', r.rng, false⟩
    else gameLoop sampler config maxExtensions fuel (round + 1) r.agents r.agentOrder
      r.gameState r.rng log'

/-- `SimulateGameResult`. -/
structure SimulateGameResult where
  gameState : SimGameState
  winner : Option String
  rounds : Int
  fruitScores : List (String × Rat)
  roundLog : List RoundLogEntry
  seed : Nat
  agents : Array SimAgent
  errored : Bool

/-- `simulateGame`.  `fallbackEntropy` is the ambient `Math.random` draw used
only when no seed is given, and `now` is the ambient `Date.now()` of
`createGameState`; both are explicit entropy parameters of the embedding. -/
def simulateGame (sampler : Sampler) (agents : Array SimAgent)
    (config : RodeoCycleConfig) (seedOpt : Option Nat) (maxRoundsOpt : Option Nat)
    (maxExtensionsOpt : Option Nat) (fallbackEntropy : Nat) (now : Int) :
    SimulateGameResult :=
  let maxRounds := match maxRoundsOpt with
    | some m => if m = 0 then 200 else m
    | none => 200
  let maxExtensions := maxExtensionsOpt.getD 5
  let rs := createRNG seedOpt fallbackEntropy
  let start := createGameState sampler config rs.1 now
  let agents₁ := agents.map fun a =>
    { a with
      balance := config.startingBalance * 2
      currentTeam := none
      totalSpent := 0
      totalEarned := 0
      votesPlaced := 0
      gamesPlayed := a.gamesPlayed + 1 }
  let order₀ := Array.range agents₁.size
  let res := gameLoop sampler config maxExtensions maxRounds 0 agents₁ order₀
    start.1 start.2 []
  let agentsF := res.agents.map fun a =>
    { a with
      cumulativeSpent := a.cumulativeSpent + a.totalSpent
      cumulativeEarned := a.cumulativeEarned + a.totalEarned }
  ⟨res.gameState, res.gameState.winner, res.gameState.round,
    res.gameState.fruitScores, res.roundLog, rs.2, agentsF, res.errored⟩

end SnakeRodeo

namespace SnakeRodeo

/-- `advanceRound` never touches `minBid` or `prizePool`, and on a
non-collision tick the snake's direction and controlling team are exactly the
arguments it was called with. -/
theorem advanceRound_fields (sampler : Sampler) (gs : SimGameState)
    (direction : Direction) (wt : Option String) (rng : Nat)
    (res : AdvanceResult) (rng' : Nat)
    (hres : advanceRound sampler gs direction wt rng = some (res, rng')) :
    res.gameState.minBid = gs.minBid ∧
    res.gameState.prizePool = gs.prizePool ∧
    ((res.event = GEvent.moved ∨ res.event = GEvent.ate_fruit) →
      res.gameState.snake.currentDirection = direction ∧
      res.gameState.snake.currentWinningTeam = wt) := by
  unfold advanceRound at hres
  rcases hb : gs.snake.body with _ | ⟨head, tail⟩
  · rw [hb] at hres; exact absurd hres (by simp)
  rw [hb] at hres
  rcases hoff : HEX_DIRECTIONS direction with _ | offset
  · rw [hoff] at hres; exact absurd hres (by simp)
  rw [hoff] at hres
  dsimp only at hres
  by_cases hbound :
      (!isInBounds (head.q + offset.q) (head.r + offset.r) gs.gridSize.radius) = true
  · rw [if_pos hbound] at hres
    simp only [Option.some.injEq, Prod.mk.injEq] at hres
    obtain ⟨h1, _⟩ := hres
    subst h1
    refine ⟨rfl, rfl, ?_⟩
    rintro (h | h) <;> simp at h
  rw [if_neg hbound] at hres
  by_cases hself : ((head :: tail).dropLast.any
      fun seg => seg.q == head.q + offset.q && seg.r == head.r + offset.r) = true
  · rw [if_pos hself] at hres
    simp only [Option.some.injEq, Prod.mk.injEq] at hres
    obtain ⟨h1, _⟩ := hres
    subst h1
    refine ⟨rfl, rfl, ?_⟩
    rintro (h | h) <;> simp at h
  rw [if_neg hself] at hres
  simp only [Option.some.injEq, Prod.mk.injEq] at hres
  obtain ⟨h1, _⟩ := hres
  subst h1
  exact ⟨rfl, rfl, fun _ => ⟨rfl, rfl⟩⟩

/-- The counter-bid inner loop keeps `lastVote` equal to the last entry of the
vote list. -/
theorem counterInner_last (gameState : SimGameState) :
    ∀ (order : List (Nat × VoteAction)) (agents : Array SimAgent)
      (votes : List (Nat × VoteAction)) (lastVote : Nat × VoteAction) (b : Bool)
      (rng : Nat),
      votes.getLast? = some lastVote →
      (counterInner gameState order agents votes lastVote b rng).2.1.getLast? =
        some (counterInner gameState order agents votes lastVote b rng).2.2.1 := by
  intro order
  induction order with
  | nil =>
    intro agents votes lastVote b rng h
    simpa [counterInner] using h
  | cons e rest ih =>
    intro agents votes lastVote b rng h
    obtain ⟨idx, prevVote⟩ := e
    rw [counterInner]
    rcases hag : agents.get? idx with _ | agent
    · exact ih agents votes lastVote b rng h
    · dsimp only
      rcases hc : agent.computeCounterBid gameState prevVote rng with ⟨counter, agent', rng'⟩
      rcases counter with _ | c
      · exact ih _ votes lastVote b rng' h
      · exact ih _ (votes ++ [(idx, c)]) (idx, c) true rng' (List.getLast?_concat _)

/-- The counter-bid loop keeps `lastVote` equal to the last entry of the vote
list. -/
theorem counterLoop_last :
    ∀ (fuel : Nat) (st : CounterState),
      st.votes.getLast? = some st.lastVote →
      (counterLoop fuel st).votes.getLast? = some (counterLoop fuel st).lastVote := by
  intro fuel
  induction fuel with
  | zero =>
    intro st h
    simpa [counterLoop] using h
  | succ fuel ih =>
    intro st h
    rw [counterLoop]
    by_cases hov : (counterOverridden st).isEmpty = true
    · rw [if_pos hov]
      exact h
    · rw [if_neg hov]
      dsimp only
      rcases hI : counterStepInner st with ⟨agents', votes', lastVote', any', rng''⟩
      have hlast := counterInner_last (counterExtState st)
        ((shuffleArray (counterOverridden st).toArray st.rng).1.toList) st.agents
        st.votes st.lastVote false
        ((shuffleArray (counterOverridden st).toArray st.rng).2) h
      have hIu : counterInner (counterExtState st)
          ((shuffleArray (counterOverridden st).toArray st.rng).1.toList) st.agents
          st.votes st.lastVote false
          ((shuffleArray (counterOverridden st).toArray st.rng).2) =
          (agents', votes', lastVote', any', rng'') := by
        rw [← hI]
        rfl
      rw [hIu] at hlast
      dsimp only at hlast
      dsimp only
      cases any' with
      | false => simpa using hlast
      | true => simpa using ih _ hlast

end SnakeRodeo

namespace SnakeRodeo

/-- **C1**: in any round of `simulateGame` with at least one submitted vote,
the resolution is by the chronologically last vote after all counter-bids —
`lastVote` always equals the last entry of the vote list, the logged
controlling team is the last vote's team, the logged direction is the last
vote's direction whenever that direction is valid from the current position,
and on a non-collision tick the snake actually moves that way (its recorded
direction and controlling team are the logged ones); stake amounts play no
role in the selection. -/
theorem runRound_last_vote_wins (sampler : Sampler) (config : RodeoCycleConfig)
    (maxExtensions round : Nat) (agents : Array SimAgent) (order : Array Nat)
    (gs : SimGameState) (rng : Nat) (r : RoundResult)
    (hr : runRound sampler config maxExtensions round agents order gs rng = r) :
    r.lastVote = r.votes.getLast? ∧
    ∀ e, r.logEntry = some e →
      ∃ lv pre, r.lastVote = some lv ∧ r.preAdvance = some pre ∧
        e.winningTeam = lv.2.team.id ∧
        ((getValidDirections pre.toQ).contains lv.2.direction = true →
          e.direction = lv.2.direction) ∧
        ((e.event = GEvent.moved ∨ e.event = GEvent.ate_fruit) →
          r.gameState.snake.currentDirection = e.direction ∧
          r.gameState.snake.currentWinningTeam = some e.winningTeam) := by
  unfold runRound at hr
  by_cases hact : (!gs.gameActive) = true
  · rw [if_pos hact] at hr
    subst hr
    exact ⟨rfl, fun e he => by cases he⟩
  · rw [if_neg hact] at hr
    dsimp only at hr
    rcases hlv : (roundVotes agents order gs rng).2.1.getLast? with _ | lv₀
    · rw [hlv] at hr
      rcases hvd : getValidDirections gs.toQ with _ | ⟨d₀, ds⟩
      · rw [hvd] at hr
        subst hr
        exact ⟨rfl, fun e he => by cases he⟩
      · rw [hvd] at hr
        dsimp only at hr
        rcases hadv : advanceRound sampler gs
            (if gs.snake.currentDirection ∈ (d₀ :: ds) then gs.snake.currentDirection
              else d₀) none (roundVotes agents order gs rng).2.2 with _ | ⟨res, rng₃⟩
        · rw [hadv] at hr
          subst hr
          exact ⟨rfl, fun e he => by cases he⟩
        · rw [hadv] at hr
          subst hr
          exact ⟨rfl, fun e he => by cases he⟩
    · rw [hlv] at hr
      dsimp only at hr
      set cst := counterLoop maxExtensions
        ⟨(roundVotes agents order gs rng).1, gs, (roundVotes agents order gs rng).2.1,
          lv₀, gs.minBid, 0, (roundVotes agents order gs rng).2.2⟩ with hcst
      have hlast : cst.votes.getLast? = some cst.lastVote := by
        rw [hcst]
        exact counterLoop_last maxExtensions _ hlv
      set gs₂ := poolsFold cst.votes (resetBid config cst.gameState) with hgs2
      rcases hdir : (if (getValidDirections gs₂.toQ).contains cst.lastVote.2.direction
          then some cst.lastVote.2.direction
          else (getValidDirections gs₂.toQ).head?) with _ | actualDir
      · rw [hdir] at hr
        subst hr
        exact ⟨hlast.symm, fun e he => by cases he⟩
      · rw [hdir] at hr
        dsimp only at hr
        rcases hadv : advanceRound sampler gs₂ actualDir (some cst.lastVote.2.team.id)
            cst.rng with _ | ⟨res, rng₃⟩
        · rw [hadv] at hr
          subst hr
          exact ⟨hlast.symm, fun e he => by cases he⟩
        · rw [hadv] at hr
          dsimp only at hr
          subst hr
          refine ⟨hlast.symm, ?_⟩
          intro e he
          injection he with he2
          subst he2
          refine ⟨cst.lastVote, gs₂, rfl, rfl, rfl, ?_, ?_⟩
          · intro hmem
            rw [if_pos hmem] at hdir
            exact (Option.some.inj hdir).symm
          · intro hev
            have hf := advanceRound_fields sampler gs₂ actualDir
              (some cst.lastVote.2.team.id) cst.rng res rng₃ hadv
            exact ⟨(hf.2.2 hev).1, (hf.2.2 hev).2⟩

end SnakeRodeo

namespace SnakeRodeo

/-- A do-nothing agent used to instantiate witnesses. -/
def agent0 : SimAgent :=
  { name := "noop"
    strategyVote := fun _ _ _ rng => (VoteResult.nullRes, rng)
    strategyCounter := none
    balance := 10, currentTeam := none, totalSpent := 0, totalEarned := 0
    cumulativeSpent := 0, cumulativeEarned := 0, votesPlaced := 0, wins := 0
    gamesPlayed := 0, roundSpend := 0, roundVoteCount := 0 }

/-- The "Small" rodeo cycle, used to instantiate witnesses. -/
def cfg0 : RodeoCycleConfig := ⟨"Small", 2, 2, 1, 3, 5, 1, 1, true, true⟩

/-- Witness for the last-vote resolution at a concrete round. -/
theorem runRound_last_vote_wins_witness :
    (runRound sampler0 cfg0 5 0 #[agent0] #[0] sampleState 1).lastVote =
      (runRound sampler0 cfg0 5 0 #[agent0] #[0] sampleState 1).votes.getLast? :=
  (runRound_last_vote_wins sampler0 cfg0 5 0 #[agent0] #[0] sampleState 1 _ rfl).1

/-- Recording pool contributions never touches `minBid`. -/
theorem poolsFold_minBid (votes : List (Nat × VoteAction)) (gs : SimGameState) :
    (poolsFold votes gs).minBid = gs.minBid := by
  induction votes generalizing gs with
  | nil => rfl
  | cons v vs ih =>
    show (poolsFold vs _).minBid = _
    rw [ih]

/-- The counter-bid loop performs some number `k ≤ fuel` of extensions and
doubles the current minimum bid exactly once per extension. -/
theorem counterLoop_minBid :
    ∀ (fuel : Nat) (st : CounterState),
      ∃ k, k ≤ fuel ∧ (counterLoop fuel st).extensions = st.extensions + k ∧
        (counterLoop fuel st).currentMinBid = st.currentMinBid * 2 ^ k := by
  intro fuel
  induction fuel with
  | zero =>
    intro st
    exact ⟨0, Nat.le_refl 0, by simp [counterLoop], by simp [counterLoop]⟩
  | succ fuel ih =>
    intro st
    rw [counterLoop]
    by_cases hov : (counterOverridden st).isEmpty = true
    · rw [if_pos hov]
      exact ⟨0, Nat.zero_le _, by simp, by simp⟩
    · rw [if_neg hov]
      dsimp only
      rcases hI : counterStepInner st with ⟨a', v', lv', any', r'⟩
      dsimp only
      cases any' with
      | false =>
        exact ⟨0, Nat.zero_le _, by simp, by simp⟩
      | true =>
        simp only [Bool.not_true, Bool.false_eq_true, if_false]
        obtain ⟨k, hk, he, hm⟩ := ih
          ⟨a', counterExtState st, v', lv', st.currentMinBid * 2,
            st.extensions + 1, r'⟩
        refine ⟨k + 1, Nat.succ_le_succ hk, ?_, ?_⟩
        · rw [he]
          dsimp only
          omega
        · rw [hm]
          dsimp only
          ring

/-- **C2**: within any round of `simulateGame` in which votes were cast, the
counter phase performs some `k ≤ maxExtensions` extensions and its final
minimum bid is exactly the round's entry bid times `2^k`; the state handed to
`advanceRound` — and the resulting state whenever the round is logged —
carries `minBid` reset to the configured initial value (`initialMinBid || 1`),
independent of `k`. -/
theorem runRound_minBid_doubles (sampler : Sampler) (config : RodeoCycleConfig)
    (maxExtensions round : Nat) (agents : Array SimAgent) (order : Array Nat)
    (gs : SimGameState) (rng : Nat) (r : RoundResult)
    (hr : runRound sampler config maxExtensions round agents order gs rng = r) :
    ∀ lv, r.lastVote = some lv →
      (∃ k, k ≤ maxExtensions ∧ r.extensions = k ∧
        r.counterMinBid = gs.minBid * 2 ^ k) ∧
      (∀ pre, r.preAdvance = some pre →
        pre.minBid = ratTruthyD (some config.initialMinBid) 1) ∧
      (r.logEntry.isSome = true →
        r.gameState.minBid = ratTruthyD (some config.initialMinBid) 1) := by
  unfold runRound at hr
  by_cases hact : (!gs.gameActive) = true
  · rw [if_pos hact] at hr
    subst hr
    intro lv hlv
    cases hlv
  · rw [if_neg hact] at hr
    dsimp only at hr
    rcases hlv : (roundVotes agents order gs rng).2.1.getLast? with _ | lv₀
    · rw [hlv] at hr
      rcases hvd : getValidDirections gs.toQ with _ | ⟨d₀, ds⟩
      · rw [hvd] at hr
        subst hr
        intro lv h
        cases h
      · rw [hvd] at hr
        dsimp only at hr
        rcases hadv : advanceRound sampler gs
            (if gs.snake.currentDirection ∈ (d₀ :: ds) then gs.snake.currentDirection
              else d₀) none (roundVotes agents order gs rng).2.2 with _ | ⟨res, rng₃⟩
        · rw [hadv] at hr
          subst hr
          intro lv h
          cases h
        · rw [hadv] at hr
          subst hr
          intro lv h
          cases h
    · rw [hlv] at hr
      dsimp only at hr
      set cst := counterLoop maxExtensions
        ⟨(roundVotes agents order gs rng).1, gs, (roundVotes agents order gs rng).2.1,
          lv₀, gs.minBid, 0, (roundVotes agents order gs rng).2.2⟩ with hcst
      have hmb : ∃ k, k ≤ maxExtensions ∧ cst.extensions = k ∧
          cst.currentMinBid = gs.minBid * 2 ^ k := by
        obtain ⟨k, hk, he, hm⟩ := counterLoop_minBid maxExtensions
          ⟨(roundVotes agents order gs rng).1, gs, (roundVotes agents order gs rng).2.1,
            lv₀, gs.minBid, 0, (roundVotes agents order gs rng).2.2⟩
        rw [← hcst] at he hm
        exact ⟨k, hk, by simpa using he, by simpa using hm⟩
      set gs₂ := poolsFold cst.votes (resetBid config cst.gameState) with hgs2
      have hpre : gs₂.minBid = ratTruthyD (some config.initialMinBid) 1 := by
        rw [hgs2, poolsFold_minBid]
        rfl
      rcases hdir : (if (getValidDirections gs₂.toQ).contains cst.lastVote.2.direction
          then some cst.lastVote.2.direction
          else (getValidDirections gs₂.toQ).head?) with _ | actualDir
      · rw [hdir] at hr
        subst hr
        intro lv _
        refine ⟨hmb, ?_, ?_⟩
        · intro pre hpe
          injection hpe with hpe2
          subst hpe2
          exact hpre
        · intro h
          cases h
      · rw [hdir] at hr
        dsimp only at hr
        rcases hadv : advanceRound sampler gs₂ actualDir (some cst.lastVote.2.team.id)
            cst.rng with _ | ⟨res, rng₃⟩
        · rw [hadv] at hr
          subst hr
          intro lv _
          refine ⟨hmb, ?_, ?_⟩
          · intro pre hpe
            injection hpe with hpe2
            subst hpe2
            exact hpre
          · intro h
            cases h
        · rw [hadv] at hr
          dsimp only at hr
          subst hr
          intro lv _
          refine ⟨hmb, ?_, ?_⟩
          · intro pre hpe
            injection hpe with hpe2
            subst hpe2
            exact hpre
          · intro _
            have hf := advanceRound_fields sampler gs₂ actualDir
              (some cst.lastVote.2.team.id) cst.rng res rng₃ hadv
            rw [hf.1]
            exact hpre

/-- A constant vote used by the witness agent. -/
def voteS : VoteAction := ⟨.s, cexTeam, 1⟩

/-- An agent that always votes `voteS`, used to instantiate witnesses. -/
def agent1 : SimAgent :=
  { agent0 with strategyVote := fun _ _ _ rng => (.action voteS, rng) }

/-- Witness for the bid-doubling bookkeeping at a concrete voted round. -/
theorem runRound_minBid_doubles_witness :
    ∃ k, k ≤ 5 ∧
      (runRound sampler0 cfg0 5 0 #[agent1] #[0] sampleState 1).extensions = k ∧
      (runRound sampler0 cfg0 5 0 #[agent1] #[0] sampleState 1).counterMinBid =
        sampleState.minBid * 2 ^ k :=
  (runRound_minBid_doubles sampler0 cfg0 5 0 #[agent1] #[0] sampleState 1 _ rfl
    (0, voteS) (by rfl)).1

end SnakeRodeo

namespace SnakeRodeo

-- ---------------------------------------------------------------------------
-- C3: entropy independence of `simulateGame`
-- ---------------------------------------------------------------------------

/-- Replace the wall-clock field of a simulator state. -/
def setNmtS (s : SimGameState) (t : Int) : SimGameState := { s with nextMoveTime := t }

/-- Replace the wall-clock field seen through a parsed state's `raw`
passthrough. -/
def ParsedGameState.stripNmt (p : ParsedGameState) (t : Int) : ParsedGameState :=
  { p with raw := { p.raw with nextMoveTime := some t } }

/-- A strategy `computeVote` that never reads the wall clock from `raw`. -/
def ObliviousVote
    (f : ParsedGameState → Rat → AgentState → Nat → VoteResult × Nat) : Prop :=
  ∀ p t bal st rng, f (p.stripNmt t) bal st rng = f p bal st rng

/-- A strategy `shouldCounterBid` that never reads the wall clock from `raw`. -/
def ObliviousCounter
    (f : ParsedGameState → Rat → AgentState → VoteAction → Nat → VoteResult × Nat) :
    Prop :=
  ∀ p t bal st pv rng, f (p.stripNmt t) bal st pv rng = f p bal st pv rng

/-- An agent whose strategy methods never read the wall clock. -/
def SimAgent.Oblivious (a : SimAgent) : Prop :=
  ObliviousVote a.strategyVote ∧
    ∀ f, a.strategyCounter = some f → ObliviousCounter f

/-- The obliviousness invariant over an agents array. -/
def Hobl (agents : Array SimAgent) : Prop :=
  ∀ i a, agents.get? i = some a → a.Oblivious

/-- Changing the simulator clock changes only `nextMoveTime` of the snapshot
view. -/
theorem toQ_setNmtS (s : SimGameState) (t : Int) :
    (setNmtS s t).toQ = { s.toQ with nextMoveTime := some t } := rfl

/-- `getValidDirections` never reads the wall clock. -/
theorem getValidDirections_setNmtS (s : SimGameState) (t : Int) :
    getValidDirections (setNmtS s t).toQ = getValidDirections s.toQ := rfl

/-- `parseGameState` on a clock-shifted state yields the same parse with only
the `raw` clock shifted. -/
theorem parseGameState_setNmtS (s : SimGameState) (t : Int) :
    parseGameState (some (setNmtS s t).toQ) =
      (parseGameState (some s.toQ)).map fun p => p.stripNmt t := by
  obtain ⟨i, snake, gsz, ap, ef, fs, tp, ga, w, pp, nmt, rd, cd, trt, mb, non, cfg,
    tms⟩ := s
  obtain ⟨body, cdir, cwt, cwu⟩ := snake
  rcases body with _ | ⟨h, tl⟩
  · rfl
  · rfl

/-- `Array.setD` at the level of `get?`. -/
theorem get?_setD {α : Type _} (a : Array α) (i : Nat) (v : α) (j : Nat) :
    (a.setD i v).get? j = if j = i ∧ i < a.size then some v else a.get? j := by
  unfold Array.setD
  by_cases h : i < a.size
  · rw [dif_pos h]
    rw [Array.get?_eq_getElem?, Array.get?_eq_getElem?, Array.get?_set]
    by_cases hij : i = j
    · subst hij
      simp [h]
    · rw [if_neg (show ¬((⟨i, h⟩ : Fin a.size).1 = j) from hij),
        if_neg (fun hc : j = i ∧ i < a.size => hij hc.1.symm)]
  · rw [dif_neg h]
    have : ¬(j = i ∧ i < a.size) := fun hc => h hc.2
    rw [if_neg this]

end SnakeRodeo

namespace SnakeRodeo

/-- An oblivious agent's `computeVote` is insensitive to the clock. -/
theorem computeVote_setNmtS (a : SimAgent) (ha : ObliviousVote a.strategyVote)
    (s : SimGameState) (t : Int) (rng : Nat) :
    a.computeVote (setNmtS s t) rng = a.computeVote s rng := by
  obtain ⟨nm, sv, sc, bal, ct, ts, te, cs, ce, vp, wn, gp, rs, rvc⟩ := a
  have ha' : ObliviousVote sv := ha
  unfold SimAgent.computeVote
  rw [parseGameState_setNmtS]
  rcases parseGameState (some s.toQ) with _ | p
  · rfl
  · simp only [Option.map_some']
    rw [ha' p t bal
      (SimAgent.toAgentState ⟨nm, sv, sc, bal, ct, ts, te, cs, ce, vp, wn, gp, rs, rvc⟩)
      rng]
    dsimp only [ParsedGameState.stripNmt]

/-- `computeVote` never changes the agent's strategy methods. -/
theorem computeVote_strategy (a : SimAgent) (s : SimGameState) (rng : Nat) :
    ((a.computeVote s rng).2.1).strategyVote = a.strategyVote ∧
      ((a.computeVote s rng).2.1).strategyCounter = a.strategyCounter := by
  obtain ⟨nm, sv, sc, bal, ct, ts, te, cs, ce, vp, wn, gp, rs, rvc⟩ := a
  unfold SimAgent.computeVote
  rcases parseGameState (some s.toQ) with _ | p
  · exact ⟨rfl, rfl⟩
  · dsimp only
    by_cases hact : p.active ≠ some true
    · rw [if_pos hact]
      exact ⟨rfl, rfl⟩
    · rw [if_neg hact]
      rcases hsv : sv p bal
          (SimAgent.toAgentState ⟨nm, sv, sc, bal, ct, ts, te, cs, ce, vp, wn, gp, rs, rvc⟩)
          rng with ⟨rv, rng2⟩
      cases rv <;> exact ⟨rfl, rfl⟩

/-- An oblivious agent's `computeCounterBid` is insensitive to the clock. -/
theorem computeCounterBid_setNmtS (a : SimAgent)
    (hc : ∀ f, a.strategyCounter = some f → ObliviousCounter f)
    (s : SimGameState) (t : Int) (pv : VoteAction) (rng : Nat) :
    a.computeCounterBid (setNmtS s t) pv rng = a.computeCounterBid s pv rng := by
  obtain ⟨nm, sv, sc, bal, ct, ts, te, cs, ce, vp, wn, gp, rs, rvc⟩ := a
  unfold SimAgent.computeCounterBid
  rcases sc with _ | f
  · rfl
  · have hc' : ObliviousCounter f := hc f rfl
    rw [parseGameState_setNmtS]
    rcases parseGameState (some s.toQ) with _ | p
    · rfl
    · simp only [Option.map_some']
      rw [hc' p t bal
        (SimAgent.toAgentState ⟨nm, sv, some f, bal, ct, ts, te, cs, ce, vp, wn, gp, rs, rvc⟩)
        pv rng]
      dsimp only [ParsedGameState.stripNmt]

/-- `computeCounterBid` never changes the agent's strategy methods. -/
theorem computeCounterBid_strategy (a : SimAgent) (s : SimGameState)
    (pv : VoteAction) (rng : Nat) :
    ((a.computeCounterBid s pv rng).2.1).strategyVote = a.strategyVote ∧
      ((a.computeCounterBid s pv rng).2.1).strategyCounter = a.strategyCounter := by
  obtain ⟨nm, sv, sc, bal, ct, ts, te, cs, ce, vp, wn, gp, rs, rvc⟩ := a
  unfold SimAgent.computeCounterBid
  rcases sc with _ | f
  · exact ⟨rfl, rfl⟩
  · rcases parseGameState (some s.toQ) with _ | p
    · exact ⟨rfl, rfl⟩
    · dsimp only
      by_cases hact : p.active ≠ some true
      · rw [if_pos hact]
        exact ⟨rfl, rfl⟩
      · rw [if_neg hact]
        by_cases hbal : bal < p.minBid
        · rw [if_pos hbal]
          exact ⟨rfl, rfl⟩
        · rw [if_neg hbal]
          rcases hsv : f p bal
              (SimAgent.toAgentState
                ⟨nm, sv, some f, bal, ct, ts, te, cs, ce, vp, wn, gp, rs, rvc⟩)
              pv rng with ⟨rv, rng2⟩
          cases rv <;> exact ⟨rfl, rfl⟩

end SnakeRodeo

namespace SnakeRodeo

/-- Transfer of obliviousness along a strategy-preserving agent update. -/
theorem hobl_setD (agents : Array SimAgent) (idx : Nat) (agent agent' : SimAgent)
    (hag : agents.get? idx = some agent)
    (h1 : agent'.strategyVote = agent.strategyVote)
    (h2 : agent'.strategyCounter = agent.strategyCounter)
    (hobl : Hobl agents) : Hobl (agents.setD idx agent') := by
  intro j b hb
  rw [get?_setD] at hb
  by_cases hj : j = idx ∧ idx < agents.size
  · rw [if_pos hj] at hb
    injection hb with hb2
    subst hb2
    obtain ⟨hv, hc⟩ := hobl idx agent hag
    refine ⟨by rw [h1]; exact hv, fun f hf => hc f ?_⟩
    rw [← h2]
    exact hf
  · rw [if_neg hj] at hb
    exact hobl j b hb

/-- Phase 1 is insensitive to the clock when every agent is oblivious. -/
theorem phase1_setNmtS (s : SimGameState) (t : Int) :
    ∀ (order : List Nat) (agents : Array SimAgent)
      (votes : List (Nat × VoteAction)) (rng : Nat), Hobl agents →
      phase1 (setNmtS s t) order agents votes rng = phase1 s order agents votes rng := by
  intro order
  induction order with
  | nil => intro agents votes rng _; rfl
  | cons idx rest ih =>
    intro agents votes rng hobl
    simp only [phase1]
    rcases hag : agents.get? idx with _ | agent
    · exact ih agents votes rng hobl
    · dsimp only
      rw [computeVote_setNmtS agent (hobl idx agent hag).1 s t rng]
      rcases hcv : agent.computeVote s rng with ⟨vote, agent', rng'⟩
      have hs := computeVote_strategy agent s rng
      rw [hcv] at hs
      dsimp only at hs
      have hpres : Hobl (agents.setD idx agent') :=
        hobl_setD agents idx agent agent' hag hs.1 hs.2 hobl
      cases vote with
      | some v => exact ih _ _ _ hpres
      | none => exact ih _ _ _ hpres

/-- Phase 1 preserves obliviousness of the agents array. -/
theorem phase1_hobl (s : SimGameState) :
    ∀ (order : List Nat) (agents : Array SimAgent)
      (votes : List (Nat × VoteAction)) (rng : Nat), Hobl agents →
      Hobl (phase1 s order agents votes rng).1 := by
  intro order
  induction order with
  | nil => intro agents votes rng h; simpa [phase1] using h
  | cons idx rest ih =>
    intro agents votes rng hobl
    rw [phase1]
    rcases hag : agents.get? idx with _ | agent
    · exact ih agents votes rng hobl
    · dsimp only
      rcases hcv : agent.computeVote s rng with ⟨vote, agent', rng'⟩
      have hs := computeVote_strategy agent s rng
      rw [hcv] at hs
      dsimp only at hs
      have hpres : Hobl (agents.setD idx agent') :=
        hobl_setD agents idx agent agent' hag hs.1 hs.2 hobl
      cases vote with
      | some v => exact ih _ _ _ hpres
      | none => exact ih _ _ _ hpres

end SnakeRodeo

namespace SnakeRodeo

/-- The counter inner loop is insensitive to the clock when every agent is
oblivious. -/
theorem counterInner_setNmtS (s : SimGameState) (t : Int) :
    ∀ (order : List (Nat × VoteAction)) (agents : Array SimAgent)
      (votes : List (Nat × VoteAction)) (lastVote : Nat × VoteAction) (b : Bool)
      (rng : Nat), Hobl agents →
      counterInner (setNmtS s t) order agents votes lastVote b rng =
        counterInner s order agents votes lastVote b rng := by
  intro order
  induction order with
  | nil => intro agents votes lastVote b rng _; rfl
  | cons e rest ih =>
    intro agents votes lastVote b rng hobl
    obtain ⟨idx, prevVote⟩ := e
    simp only [counterInner]
    rcases hag : agents.get? idx with _ | agent
    · exact ih agents votes lastVote b rng hobl
    · dsimp only
      rw [computeCounterBid_setNmtS agent (hobl idx agent hag).2 s t prevVote rng]
      rcases hcv : agent.computeCounterBid s prevVote rng with ⟨counter, agent', rng'⟩
      have hs := computeCounterBid_strategy agent s prevVote rng
      rw [hcv] at hs
      dsimp only at hs
      have hpres : Hobl (agents.setD idx agent') :=
        hobl_setD agents idx agent agent' hag hs.1 hs.2 hobl
      cases counter with
      | some c => exact ih _ _ _ _ _ hpres
      | none => exact ih _ _ _ _ _ hpres

/-- The counter inner loop preserves obliviousness. -/
theorem counterInner_hobl (s : SimGameState) :
    ∀ (order : List (Nat × VoteAction)) (agents : Array SimAgent)
      (votes : List (Nat × VoteAction)) (lastVote : Nat × VoteAction) (b : Bool)
      (rng : Nat), Hobl agents →
      Hobl (counterInner s order agents votes lastVote b rng).1 := by
  intro order
  induction order with
  | nil => intro agents votes lastVote b rng h; simpa [counterInner] using h
  | cons e rest ih =>
    intro agents votes lastVote b rng hobl
    obtain ⟨idx, prevVote⟩ := e
    rw [counterInner]
    rcases hag : agents.get? idx with _ | agent
    · exact ih agents votes lastVote b rng hobl
    · dsimp only
      rcases hcv : agent.computeCounterBid s prevVote rng with ⟨counter, agent', rng'⟩
      have hs := computeCounterBid_strategy agent s prevVote rng
      rw [hcv] at hs
      dsimp only at hs
      have hpres : Hobl (agents.setD idx agent') :=
        hobl_setD agents idx agent agent' hag hs.1 hs.2 hobl
      cases counter with
      | some c => exact ih _ _ _ _ _ hpres
      | none => exact ih _ _ _ _ _ hpres

/-- Shift the clock of the counter-phase loop state. -/
def setNmtC (st : CounterState) (t : Int) : CounterState :=
  { st with gameState := setNmtS st.gameState t }

/-- One extension's inner loop is insensitive to the clock. -/
theorem counterStepInner_setNmtC (st : CounterState) (t : Int)
    (hobl : Hobl st.agents) :
    counterStepInner (setNmtC st t) = counterStepInner st :=
  counterInner_setNmtS (counterExtState st) t
    ((shuffleArray (counterOverridden st).toArray st.rng).1.toList) st.agents st.votes
    st.lastVote false ((shuffleArray (counterOverridden st).toArray st.rng).2) hobl

/-- The counter loop is insensitive to the clock (its game state aside, which
is shifted along). -/
theorem counterLoop_setNmtC :
    ∀ (fuel : Nat) (st : CounterState) (t : Int), Hobl st.agents →
      counterLoop fuel (setNmtC st t) = setNmtC (counterLoop fuel st) t := by
  intro fuel
  induction fuel with
  | zero => intro st t _; rfl
  | succ fuel ih =>
    intro st t hobl
    rw [counterLoop, counterLoop]
    have hov : counterOverridden (setNmtC st t) = counterOverridden st := rfl
    rw [hov]
    by_cases h : (counterOverridden st).isEmpty = true
    · rw [if_pos h, if_pos h]
      rfl
    · rw [if_neg h, if_neg h]
      dsimp only
      rw [counterStepInner_setNmtC st t hobl]
      rcases hI : counterStepInner st with ⟨a', v', lv', any', r'⟩
      dsimp only
      have hpres : Hobl a' := by
        have := counterInner_hobl (counterExtState st)
          ((shuffleArray (counterOverridden st).toArray st.rng).1.toList) st.agents
          st.votes st.lastVote false
          ((shuffleArray (counterOverridden st).toArray st.rng).2) hobl
        have hIu : counterInner (counterExtState st)
            ((shuffleArray (counterOverridden st).toArray st.rng).1.toList) st.agents
            st.votes st.lastVote false
            ((shuffleArray (counterOverridden st).toArray st.rng).2) =
            (a', v', lv', any', r') := by
          rw [← hI]
          rfl
        rw [hIu] at this
        exact this
      cases any' with
      | false => rfl
      | true =>
        exact ih ⟨a', counterExtState st, v', lv', st.currentMinBid * 2,
          st.extensions + 1, r'⟩ t hpres

/-- The counter loop preserves obliviousness. -/
theorem counterLoop_hobl :
    ∀ (fuel : Nat) (st : CounterState), Hobl st.agents →
      Hobl (counterLoop fuel st).agents := by
  intro fuel
  induction fuel with
  | zero => intro st h; simpa [counterLoop] using h
  | succ fuel ih =>
    intro st hobl
    rw [counterLoop]
    by_cases h : (counterOverridden st).isEmpty = true
    · rw [if_pos h]
      exact hobl
    · rw [if_neg h]
      dsimp only
      rcases hI : counterStepInner st with ⟨a', v', lv', any', r'⟩
      dsimp only
      have hpres : Hobl a' := by
        have := counterInner_hobl (counterExtState st)
          ((shuffleArray (counterOverridden st).toArray st.rng).1.toList) st.agents
          st.votes st.lastVote false
          ((shuffleArray (counterOverridden st).toArray st.rng).2) hobl
        have hIu : counterInner (counterExtState st)
            ((shuffleArray (counterOverridden st).toArray st.rng).1.toList) st.agents
            st.votes st.lastVote false
            ((shuffleArray (counterOverridden st).toArray st.rng).2) =
            (a', v', lv', any', r') := by
          rw [← hI]
          rfl
        rw [hIu] at this
        exact this
      cases any' with
      | false => exact hpres
      | true =>
        exact ih ⟨a', counterExtState st, v', lv', st.currentMinBid * 2,
          st.extensions + 1, r'⟩ hpres

end SnakeRodeo

namespace SnakeRodeo

/-- The bid reset commutes with a clock shift. -/
theorem resetBid_setNmtS (config : RodeoCycleConfig) (g : SimGameState) (t : Int) :
    resetBid config (setNmtS g t) = setNmtS (resetBid config g) t := rfl

/-- Pool recording commutes with a clock shift. -/
theorem poolsFold_setNmtS (votes : List (Nat × VoteAction)) (g : SimGameState)
    (t : Int) :
    poolsFold votes (setNmtS g t) = setNmtS (poolsFold votes g) t := by
  induction votes generalizing g with
  | nil => rfl
  | cons v vs ih =>
    show poolsFold vs (setNmtS { g with
        teamPools := recordSet g.teamPools v.2.team.id
          (ratTruthyD (g.teamPools.lookup v.2.team.id) 0 + v.2.amount)
        prizePool := g.prizePool + v.2.amount } t) =
      setNmtS (poolsFold vs { g with
        teamPools := recordSet g.teamPools v.2.team.id
          (ratTruthyD (g.teamPools.lookup v.2.team.id) 0 + v.2.amount)
        prizePool := g.prizePool + v.2.amount }) t
    exact ih _

/-- `advanceRound` on a clock-shifted state produces the clock-shifted result
(the clock is copied, never read). -/
theorem advanceRound_setNmtS (sampler : Sampler) (g : SimGameState) (t : Int)
    (dir : Direction) (wt : Option String) (rng : Nat) :
    advanceRound sampler (setNmtS g t) dir wt rng =
      (advanceRound sampler g dir wt rng).map fun pr =>
        ({ pr.1 with gameState := setNmtS pr.1.gameState t }, pr.2) := by
  obtain ⟨i, snake, gsz, ap, ef, fs, tp, ga, w, pp, nmt, rd, cd, trt, mb, non, cfg,
    tms⟩ := g
  obtain ⟨body, cdir, cwt, cwu⟩ := snake
  unfold advanceRound
  dsimp only [setNmtS]
  rcases body with _ | ⟨head, tail⟩
  · rfl
  · rcases HEX_DIRECTIONS dir with _ | offset
    · rfl
    · dsimp only
      by_cases hbound :
          (!isInBounds (head.q + offset.q) (head.r + offset.r) gsz.radius) = true
      · rw [if_pos hbound, if_pos hbound]
        rfl
      · rw [if_neg hbound, if_neg hbound]
        by_cases hself : ((head :: tail).dropLast.any
            fun seg => seg.q == head.q + offset.q && seg.r == head.r + offset.r) = true
        · rw [if_pos hself, if_pos hself]
          rfl
        · rw [if_neg hself, if_neg hself]
          rfl

/-- Obliviousness transfers along a strategy-preserving map of the array. -/
theorem hobl_map (agents : Array SimAgent) (f : SimAgent → SimAgent)
    (hf : ∀ a, (f a).strategyVote = a.strategyVote ∧
      (f a).strategyCounter = a.strategyCounter)
    (hobl : Hobl agents) : Hobl (agents.map f) := by
  intro i b hb
  rw [Array.get?_eq_getElem?, Array.getElem?_map] at hb
  rcases hg : agents[i]? with _ | a
  · rw [hg] at hb
    cases hb
  · rw [hg] at hb
    injection hb with hb2
    subst hb2
    have ha := hobl i a (by rw [Array.get?_eq_getElem?]; exact hg)
    obtain ⟨hv, hc⟩ := ha
    refine ⟨by rw [(hf a).1]; exact hv, fun f' hf' => hc f' ?_⟩
    rw [← (hf a).2]
    exact hf'

/-- The payout step preserves obliviousness. -/
theorem payout_hobl (agents : Array SimAgent) (w : String) (pool : Rat)
    (hobl : Hobl agents) : Hobl (payout agents w pool) := by
  apply hobl_map
  · intro a
    by_cases h : a.currentTeam = some w
    · rw [if_pos h]
      exact ⟨rfl, rfl⟩
    · rw [if_neg h]
      exact ⟨rfl, rfl⟩
  · exact hobl

end SnakeRodeo

namespace SnakeRodeo

/-- Budget reset preserves obliviousness. -/
theorem roundPrep_hobl (agents : Array SimAgent) (hobl : Hobl agents) :
    Hobl (roundPrep agents) :=
  hobl_map agents _ (fun _ => ⟨rfl, rfl⟩) hobl

/-- Constructor form of `counterLoop_setNmtC`, as it appears inside
`runRound`. -/
theorem counterLoop_setNmtC' (fuel : Nat) (ag : Array SimAgent) (g : SimGameState)
    (votes : List (Nat × VoteAction)) (lv : Nat × VoteAction) (mb : Rat)
    (ext : Nat) (rng : Nat) (t : Int) (hobl : Hobl ag) :
    counterLoop fuel ⟨ag, setNmtS g t, votes, lv, mb, ext, rng⟩ =
      setNmtC (counterLoop fuel ⟨ag, g, votes, lv, mb, ext, rng⟩) t :=
  counterLoop_setNmtC fuel ⟨ag, g, votes, lv, mb, ext, rng⟩ t hobl

/-- Clock-shift of a round result: only the final state and the recorded
pre-advance state move. -/
def shiftRound (r : RoundResult) (t : Int) : RoundResult :=
  { r with
    gameState := setNmtS r.gameState t
    preAdvance := r.preAdvance.map fun g => setNmtS g t }

/-- One round on a clock-shifted state gives the clock-shifted round result
(the clock is copied, never read), provided every agent is oblivious. -/
theorem runRound_setNmtS (sampler : Sampler) (config : RodeoCycleConfig)
    (maxExtensions round : Nat) (agents : Array SimAgent) (order : Array Nat)
    (gs : SimGameState) (t : Int) (rng : Nat) (hobl : Hobl agents) :
    runRound sampler config maxExtensions round agents order (setNmtS gs t) rng =
      shiftRound (runRound sampler config maxExtensions round agents order gs rng)
        t := by
  have hoblP : Hobl (roundPrep agents) := roundPrep_hobl agents hobl
  unfold runRound
  rw [show (setNmtS gs t).gameActive = gs.gameActive from rfl]
  by_cases hact : (!gs.gameActive) = true
  · rw [if_pos hact, if_pos hact]
    rfl
  · rw [if_neg hact, if_neg hact]
    dsimp only
    have hrv : roundVotes agents order (setNmtS gs t) rng =
        roundVotes agents order gs rng := by
      unfold roundVotes
      exact phase1_setNmtS gs t _ _ _ _ hoblP
    rw [hrv]
    rcases hlv : (roundVotes agents order gs rng).2.1.getLast? with _ | lv₀
    · dsimp only
      rw [getValidDirections_setNmtS]
      rcases hvd : getValidDirections gs.toQ with _ | ⟨d₀, ds⟩
      · rfl
      · dsimp only
        rw [show (setNmtS gs t).snake = gs.snake from rfl]
        rw [advanceRound_setNmtS]
        rcases hadv : advanceRound sampler gs
            (if gs.snake.currentDirection ∈ (d₀ :: ds) then gs.snake.currentDirection
              else d₀) none (roundVotes agents order gs rng).2.2 with _ | ⟨res, rng₃⟩
        · rfl
        · dsimp only [Option.map_some']
          rfl
    · dsimp only
      rw [show (setNmtS gs t).minBid = gs.minBid from rfl]
      rw [counterLoop_setNmtC' maxExtensions (roundVotes agents order gs rng).1 gs
        (roundVotes agents order gs rng).2.1 lv₀ gs.minBid 0
        (roundVotes agents order gs rng).2.2 t
        (phase1_hobl gs _ _ _ _ hoblP)]
      set c := counterLoop maxExtensions
        ⟨(roundVotes agents order gs rng).1, gs, (roundVotes agents order gs rng).2.1,
          lv₀, gs.minBid, 0, (roundVotes agents order gs rng).2.2⟩ with hc
      rw [show (setNmtC c t).votes = c.votes from rfl,
        show (setNmtC c t).gameState = setNmtS c.gameState t from rfl,
        show (setNmtC c t).lastVote = c.lastVote from rfl,
        show (setNmtC c t).rng = c.rng from rfl,
        show (setNmtC c t).agents = c.agents from rfl,
        show (setNmtC c t).extensions = c.extensions from rfl,
        show (setNmtC c t).currentMinBid = c.currentMinBid from rfl]
      rw [resetBid_setNmtS, poolsFold_setNmtS]
      rw [getValidDirections_setNmtS]
      rcases hdir : (if (getValidDirections (poolsFold c.votes
            (resetBid config c.gameState)).toQ).contains c.lastVote.2.direction
          then some c.lastVote.2.direction
          else (getValidDirections (poolsFold c.votes
            (resetBid config c.gameState)).toQ).head?) with _ | actualDir
      · rfl
      · dsimp only
        rw [advanceRound_setNmtS]
        rcases hadv : advanceRound sampler
            (poolsFold c.votes (resetBid config c.gameState)) actualDir
            (some c.lastVote.2.team.id) c.rng with _ | ⟨res, rng₃⟩
        · rfl
        · dsimp only [Option.map_some']
          rcases hw : res.winner with _ | w
          · rfl
          · rfl

end SnakeRodeo

namespace SnakeRodeo

/-- A full round preserves obliviousness of the agents array. -/
theorem runRound_hobl (sampler : Sampler) (config : RodeoCycleConfig)
    (maxExtensions round : Nat) (agents : Array SimAgent) (order : Array Nat)
    (gs : SimGameState) (rng : Nat) (hobl : Hobl agents) :
    Hobl (runRound sampler config maxExtensions round agents order gs rng).agents := by
  have hoblP : Hobl (roundPrep agents) := roundPrep_hobl agents hobl
  have hoblV : Hobl (roundVotes agents order gs rng).1 := by
    unfold roundVotes
    exact phase1_hobl gs _ _ _ _ hoblP
  unfold runRound
  by_cases hact : (!gs.gameActive) = true
  · rw [if_pos hact]
    exact hobl
  · rw [if_neg hact]
    dsimp only
    rcases hlv : (roundVotes agents order gs rng).2.1.getLast? with _ | lv₀
    · dsimp only
      rcases hvd : getValidDirections gs.toQ with _ | ⟨d₀, ds⟩
      · exact hoblV
      · dsimp only
        rcases hadv : advanceRound sampler gs
            (if gs.snake.currentDirection ∈ (d₀ :: ds) then gs.snake.currentDirection
              else d₀) none (roundVotes agents order gs rng).2.2 with _ | ⟨res, rng₃⟩
        · exact hoblV
        · exact hoblV
    · dsimp only
      have hoblC : Hobl (counterLoop maxExtensions
          ⟨(roundVotes agents order gs rng).1, gs,
            (roundVotes agents order gs rng).2.1, lv₀, gs.minBid, 0,
            (roundVotes agents order gs rng).2.2⟩).agents :=
        counterLoop_hobl maxExtensions _ hoblV
      set c := counterLoop maxExtensions
        ⟨(roundVotes agents order gs rng).1, gs, (roundVotes agents order gs rng).2.1,
          lv₀, gs.minBid, 0, (roundVotes agents order gs rng).2.2⟩ with hc
      rcases hdir : (if (getValidDirections (poolsFold c.votes
            (resetBid config c.gameState)).toQ).contains c.lastVote.2.direction
          then some c.lastVote.2.direction
          else (getValidDirections (poolsFold c.votes
            (resetBid config c.gameState)).toQ).head?) with _ | actualDir
      · exact hoblC
      · dsimp only
        rcases hadv : advanceRound sampler
            (poolsFold c.votes (resetBid config c.gameState)) actualDir
            (some c.lastVote.2.team.id) c.rng with _ | ⟨res, rng₃⟩
        · exact hoblC
        · dsimp only
          rcases hw : res.winner with _ | w
          · exact hoblC
          · exact payout_hobl c.agents w res.gameState.prizePool hoblC

/-- The round loop on a clock-shifted state gives the clock-shifted result,
provided every agent is oblivious. -/
theorem gameLoop_setNmtS (sampler : Sampler) (config : RodeoCycleConfig)
    (maxExtensions : Nat) (t : Int) :
    ∀ (fuel round : Nat) (agents : Array SimAgent) (order : Array Nat)
      (gs : SimGameState) (rng : Nat) (log : List RoundLogEntry), Hobl agents →
      gameLoop sampler config maxExtensions fuel round agents order (setNmtS gs t)
          rng log =
        { gameLoop sampler config maxExtensions fuel round agents order gs rng log
            with
          gameState := setNmtS (gameLoop sampler config maxExtensions fuel round
            agents order gs rng log).gameState t } := by
  intro fuel
  induction fuel with
  | zero => intro round agents order gs rng log _; rfl
  | succ fuel ih =>
    intro round agents order gs rng log hobl
    rw [gameLoop, gameLoop]
    rw [runRound_setNmtS sampler config maxExtensions round agents order gs t rng
      hobl]
    dsimp only [shiftRound]
    by_cases herr :
        (runRound sampler config maxExtensions round agents order gs rng).errored
          = true
    · rw [if_pos herr, if_pos herr]
    · rw [if_neg herr, if_neg herr]
      by_cases hbrk :
          (runRound sampler config maxExtensions round agents order gs
            rng).breakLoop = true
      · rw [if_pos hbrk, if_pos hbrk]
      · rw [if_neg hbrk, if_neg hbrk]
        exact ih (round + 1)
          (runRound sampler config maxExtensions round agents order gs rng).agents
          (runRound sampler config maxExtensions round agents order gs
            rng).agentOrder
          (runRound sampler config maxExtensions round agents order gs
            rng).gameState
          (runRound sampler config maxExtensions round agents order gs rng).rng
          (log ++ (runRound sampler config maxExtensions round agents order gs
            rng).logEntry.toList)
          (runRound_hobl sampler config maxExtensions round agents order gs rng
            hobl)

/-- With an explicit seed, `createRNG` ignores the ambient entropy draw. -/
theorem createRNG_some (s fe : Nat) :
    createRNG (some s) fe = (s % 4294967296, s % 4294967296) := rfl

/-- The ambient clock only lands in `nextMoveTime`: building a game state at
time `now` is the clock-shift of building it at time `0`. -/
theorem createGameState_now (sampler : Sampler) (config : RodeoCycleConfig)
    (rng : Nat) (now : Int) :
    createGameState sampler config rng now =
      (setNmtS (createGameState sampler config rng 0).1 (now + 10000),
        (createGameState sampler config rng 0).2) := rfl

/-- With an explicit seed, `simulateGame` ignores the ambient entropy, and the
ambient clock only shifts `nextMoveTime` in the final game state, provided
every agent's strategy is oblivious to the wall clock. -/
theorem simulateGame_shift (sampler : Sampler) (agents : Array SimAgent)
    (config : RodeoCycleConfig) (s : Nat)
    (maxRoundsOpt maxExtensionsOpt : Option Nat) (fe : Nat) (now : Int)
    (hobl : Hobl agents) :
    simulateGame sampler agents config (some s) maxRoundsOpt maxExtensionsOpt fe
        now =
      { simulateGame sampler agents config (some s) maxRoundsOpt maxExtensionsOpt 0
          0 with
        gameState := setNmtS (simulateGame sampler agents config (some s)
          maxRoundsOpt maxExtensionsOpt 0 0).gameState (now + 10000) } := by
  have hoblR : Hobl (agents.map fun a =>
      { a with
        balance := config.startingBalance * 2
        currentTeam := none
        totalSpent := 0
        totalEarned := 0
        votesPlaced := 0
        gamesPlayed := a.gamesPlayed + 1 }) :=
    hobl_map agents _ (fun _ => ⟨rfl, rfl⟩) hobl
  unfold simulateGame
  dsimp only
  rw [show createRNG (some s) fe = createRNG (some s) 0 from rfl]
  rw [createGameState_now sampler config (createRNG (some s) 0).1 now]
  dsimp only
  rw [gameLoop_setNmtS sampler config (maxExtensionsOpt.getD 5) (now + 10000)]
  · rfl
  · exact hoblR

end SnakeRodeo

namespace SnakeRodeo

/-- **C3**: with a fixed seed, `simulateGame` is deterministic.  Two runs with
the same seed, configuration, agents and strategies — differing only in the
embedding's two ambient-entropy parameters, the `Math.random` fallback draw
(unused when a seed is given) and the `Date.now()` clock — produce identical
round logs, the same winner, the same round count, the same fruit scores, the
same reported seed, identical final agents and the same error flag, provided no
strategy reads the wall-clock field of the parsed state.  All randomness is
threaded through the single seeded PRNG. -/
theorem simulateGame_deterministic (sampler : Sampler) (agents : Array SimAgent)
    (config : RodeoCycleConfig) (s : Nat)
    (maxRoundsOpt maxExtensionsOpt : Option Nat) (fe₁ fe₂ : Nat) (now₁ now₂ : Int)
    (hobl : Hobl agents) :
    (simulateGame sampler agents config (some s) maxRoundsOpt maxExtensionsOpt fe₁
        now₁).roundLog =
      (simulateGame sampler agents config (some s) maxRoundsOpt maxExtensionsOpt
        fe₂ now₂).roundLog ∧
    (simulateGame sampler agents config (some s) maxRoundsOpt maxExtensionsOpt fe₁
        now₁).winner =
      (simulateGame sampler agents config (some s) maxRoundsOpt maxExtensionsOpt
        fe₂ now₂).winner ∧
    (simulateGame sampler agents config (some s) maxRoundsOpt maxExtensionsOpt fe₁
        now₁).rounds =
      (simulateGame sampler agents config (some s) maxRoundsOpt maxExtensionsOpt
        fe₂ now₂).rounds ∧
    (simulateGame sampler agents config (some s) maxRoundsOpt maxExtensionsOpt fe₁
        now₁).fruitScores =
      (simulateGame sampler agents config (some s) maxRoundsOpt maxExtensionsOpt
        fe₂ now₂).fruitScores ∧
    (simulateGame sampler agents config (some s) maxRoundsOpt maxExtensionsOpt fe₁
        now₁).seed =
      (simulateGame sampler agents config (some s) maxRoundsOpt maxExtensionsOpt
        fe₂ now₂).seed ∧
    (simulateGame sampler agents config (some s) maxRoundsOpt maxExtensionsOpt fe₁
        now₁).agents =
      (simulateGame sampler agents config (some s) maxRoundsOpt maxExtensionsOpt
        fe₂ now₂).agents ∧
    (simulateGame sampler agents config (some s) maxRoundsOpt maxExtensionsOpt fe₁
        now₁).errored =
      (simulateGame sampler agents config (some s) maxRoundsOpt maxExtensionsOpt
        fe₂ now₂).errored := by
  rw [simulateGame_shift sampler agents config s maxRoundsOpt maxExtensionsOpt fe₁
    now₁ hobl,
    simulateGame_shift sampler agents config s maxRoundsOpt maxExtensionsOpt fe₂
    now₂ hobl]
  exact ⟨rfl, rfl, rfl, rfl, rfl, rfl, rfl⟩

/-- Witness for determinism: a concrete agent and two runs differing in both
ambient entropy parameters. -/
theorem simulateGame_deterministic_witness :
    (simulateGame sampler0 #[agent0] cfg0 (some 7) none none 3 100).roundLog =
      (simulateGame sampler0 #[agent0] cfg0 (some 7) none none 12 5000).roundLog ∧
    (simulateGame sampler0 #[agent0] cfg0 (some 7) none none 3 100).winner =
      (simulateGame sampler0 #[agent0] cfg0 (some 7) none none 12 5000).winner ∧
    (simulateGame sampler0 #[agent0] cfg0 (some 7) none none 3 100).rounds =
      (simulateGame sampler0 #[agent0] cfg0 (some 7) none none 12 5000).rounds ∧
    (simulateGame sampler0 #[agent0] cfg0 (some 7) none none 3 100).fruitScores =
      (simulateGame sampler0 #[agent0] cfg0 (some 7) none none 12 5000).fruitScores ∧
    (simulateGame sampler0 #[agent0] cfg0 (some 7) none none 3 100).seed =
      (simulateGame sampler0 #[agent0] cfg0 (some 7) none none 12 5000).seed ∧
    (simulateGame sampler0 #[agent0] cfg0 (some 7) none none 3 100).agents =
      (simulateGame sampler0 #[agent0] cfg0 (some 7) none none 12 5000).agents ∧
    (simulateGame sampler0 #[agent0] cfg0 (some 7) none none 3 100).errored =
      (simulateGame sampler0 #[agent0] cfg0 (some 7) none none 12 5000).errored :=
  simulateGame_deterministic sampler0 #[agent0] cfg0 7 none none 3 12 100 5000
    (by
      intro i a ha
      rcases i with _ | i
      · injection ha with h1
        subst h1
        exact ⟨fun p t bal st rng => rfl, fun f hf => Option.noConfusion hf⟩
      · exact Option.noConfusion ha)

end SnakeRodeo
